import Mathlib

/-!
# ESP-Hosted host SPI transport: header codec, checksum, priority queues and link life cycle

A shallow embedding of the transport code of
`esp_hosted_fg/host/linux/host_driver/esp32/spi/esp_spi.c`,
`esp_hosted_fg/host/linux/host_driver/esp32/esp_bt.c` and
`esp_hosted_fg/common/include/adapter.h`.

Conventions of the embedding

* a byte is a `Fin 256`; a buffer is a `List Byte`; `skb->len` is the length of the list;
* `uint16_t` arithmetic is arithmetic on `Nat` reduced `% 65536` where the C code truncates;
* a socket buffer is its `skb->len` octets together with the octets known to follow them in
  its memory (`tailroom`); a read outside both has no defined value in C; the embedding
  reads `0` there and ignores writes there, and the theorems that depend on such accesses
  carry the hypothesis that the access is inside the memory;
* global driver state (`spi_context`, `data_path`, `tx_pending`, the adapter capabilities)
  is one record `SpiState` passed explicitly; calls into collaborators that are not part of
  the transport (`esp_tx_pause`, `up(&spi_sem)`, `esp_add_card`, ...) are recorded in an
  event log, and what they return is a parameter of the function that calls them;
* constants whose defining header is not part of the sources (`SPI_BUF_SIZE`,
  `TX_MAX_PENDING_COUNT`, `SKB_DATA_ADDR_ALIGNMENT`, `SPI_DEVICE_RUNNING`,
  `SPI_DEVICE_RESETTING`) are fields of `Config`.
-/

set_option maxRecDepth 100000

namespace EspHosted

/-! ## Constants of `adapter.h` -/

/-- One octet of a buffer (`uint8_t`). -/
abbrev Byte := Fin 256

/-- Truncation of a number to `uint8_t`. -/
def to_byte (n : Nat) : Byte := ⟨n % 256, Nat.mod_lt n (by decide)⟩

/-- Number of values of a `uint16_t`. -/
def U16_MOD : Nat := 65536

/-- Value of `sizeof(struct esp_payload_header)`: the packed header with `ESP_PKT_NUM_DEBUG`
equal to 0 has 1 + 1 + 2 + 2 + 2 + 2 + 1 + 1 octets. -/
def HEADER_SIZE : Nat := 12

def PRIO_Q_SERIAL : Nat := 0
def PRIO_Q_BT : Nat := 1
def PRIO_Q_OTHERS : Nat := 2
def MAX_PRIORITY_QUEUES : Nat := 3

def ESP_STA_IF : Nat := 0
def ESP_AP_IF : Nat := 1
def ESP_SERIAL_IF : Nat := 2
def ESP_HCI_IF : Nat := 3
def ESP_PRIV_IF : Nat := 4
def ESP_TEST_IF : Nat := 5
def ESP_MAX_IF : Nat := 6

/-- Capability bit `ESP_CHECKSUM_ENABLED = (1 << 7)`. -/
def ESP_CHECKSUM_ENABLED : Nat := 128

/-- Linux errno `EPERM`. -/
def EPERM : Int := 1
/-- Linux errno `EINVAL`. -/
def EINVAL : Int := 22

/-- Build-time constants that the sources use but do not define. -/
structure Config where
  /-- fixed size of one SPI transfer -/
  SPI_BUF_SIZE : Nat
  /-- high watermark of the pending transmit counter -/
  TX_MAX_PENDING_COUNT : Nat
  /-- alignment used by `esp_bt_send_frame` when it pads the header -/
  SKB_DATA_ADDR_ALIGNMENT : Nat
  /-- whether `CONFIG_ESP_HOSTED_USE_WORKQUEUE` is defined -/
  USE_WORKQUEUE : Bool
  /-- value of the enumerator `SPI_DEVICE_RUNNING` of `esp_spi.h` -/
  SPI_DEVICE_RUNNING : Int
  /-- value of the enumerator `SPI_DEVICE_RESETTING` of `esp_spi.h` -/
  SPI_DEVICE_RESETTING : Int
  deriving DecidableEq, Repr

/-! ## Socket buffers and the wire header -/

/-- A socket buffer: `data` holds the `skb->len` octets starting at `skb->data`, and
`tailroom` the octets that follow them in the memory of the buffer, as far as the embedding
keeps track of them (it does where a function leaves written octets behind `skb->len`). -/
structure SkBuff where
  data : List Byte
  tailroom : List Byte := []
  deriving DecidableEq, Repr

/-- Field `skb->len`. -/
def SkBuff.len (skb : SkBuff) : Nat := skb.data.length

/-- The memory that starts at `skb->data`: the frame and what follows it. -/
def SkBuff.mem (skb : SkBuff) : List Byte := skb.data ++ skb.tailroom

/-- Octet `buf[i]` as a number. -/
def byte_at (buf : List Byte) (i : Nat) : Nat := (buf.getD i 0).val

/-- Little-endian 16-bit field at octets `i`, `i + 1` (`le16_to_cpu`). -/
def le16_at (buf : List Byte) (i : Nat) : Nat := byte_at buf i + 256 * byte_at buf (i + 1)

/-- Store of a 16-bit value at octets `i`, `i + 1` (`cpu_to_le16`). -/
def set_le16 (buf : List Byte) (i v : Nat) : List Byte :=
  (buf.set i (to_byte v)).set (i + 1) (to_byte (v / 256))

/-- Bit-field `if_type:4`, the low nibble of octet 0. -/
def hdr_if_type (buf : List Byte) : Nat := byte_at buf 0 % 16
/-- Bit-field `if_num:4`, the high nibble of octet 0. -/
def hdr_if_num (buf : List Byte) : Nat := byte_at buf 0 / 16
/-- Field `flags`. -/
def hdr_flags (buf : List Byte) : Nat := byte_at buf 1
/-- Field `len`. -/
def hdr_len (buf : List Byte) : Nat := le16_at buf 2
/-- Field `offset`. -/
def hdr_offset (buf : List Byte) : Nat := le16_at buf 4
/-- Field `checksum`. -/
def hdr_checksum (buf : List Byte) : Nat := le16_at buf 6
/-- Field `seq_num`. -/
def hdr_seq_num (buf : List Byte) : Nat := le16_at buf 8
/-- Field `hci_pkt_type` of the trailing union. -/
def hdr_hci_pkt_type (buf : List Byte) : Nat := byte_at buf 11

/-- Assignment `h->checksum = cpu_to_le16(v)`. -/
def set_hdr_checksum (buf : List Byte) (v : Nat) : List Byte := set_le16 buf 6 v

/-- Kernel helper `skb_trim`: shortens the buffer to `n` octets when it is longer. The
octets cut off are not tracked as `tailroom`: nothing reads them afterwards. -/
def skb_trim (skb : SkBuff) (n : Nat) : SkBuff :=
  if skb.len > n then { data := skb.data.take n } else skb

/-! ## Checksum (`adapter.h`) -/

/-- Loop of `compute_checksum`: `i` and `checksum` are `uint16_t`, so both the increment and
the accumulation wrap at 65536. `fuel` bounds the number of loop tests; `none` means the
bound was reached before the loop condition failed. -/
def compute_checksum_loop (buf : List Byte) (len : Nat) : Nat → Nat → Nat → Option Nat
  | 0, _, _ => none
  | fuel + 1, i, checksum =>
    if i < len then
      compute_checksum_loop buf len fuel ((i + 1) % U16_MOD) ((checksum + byte_at buf i) % U16_MOD)
    else some checksum

/-- Function `compute_checksum(buf, len)`. The parameter `len` is a `uint16_t`, so the
argument is truncated on entry. The loop is given 65537 tests, one more than the number
of values of the counter `i`. -/
def compute_checksum (buf : List Byte) (len : Nat) : Nat :=
  (compute_checksum_loop buf (len % U16_MOD) (U16_MOD + 1) 0 0).getD 0

/-- Sum of the octets of a buffer, as a natural number. -/
def byte_sum (buf : List Byte) : Nat := (buf.map Fin.val).sum

/-- Sum of the octets with index `0 ≤ i < n`, reading 0 behind the end of the buffer. -/
def index_sum (buf : List Byte) (n : Nat) : Nat := ((List.range n).map (byte_at buf)).sum

/-! ## Driver state -/

/-- Calls into collaborators outside the transport, in the order they happen. -/
inductive Event where
  | tx_pause
  | tx_resume
  | new_packet_intr
  | sem_up
  /-- `spi_sync_transfer` of `len` octets with transmit buffer `tx_buf` -/
  | spi_sync_transfer (tx_buf : List Byte) (len : Nat)
  /-- `queue_work(spi_workqueue, &spi_work)` -/
  | queue_work
  /-- `mod_delayed_work(spi_workqueue, &spi_delayed_work, ...)` -/
  | mod_delayed_work
  /-- `esp_add_card(adapter)` -/
  | add_card
  /-- `esp_remove_card(adapter)` -/
  | remove_card
  /-- `schedule_work(&spi_context.reinit_work)` -/
  | schedule_reinit_work
  /-- `process_capabilities(cap)` -/
  | process_capabilities (cap : Nat)
  /-- `process_test_capabilities(cap)` -/
  | process_test_capabilities (cap : Nat)
  deriving DecidableEq, Repr

/-- The three queues of one direction (`tx_q[3]` or `rx_q[3]`), head of each list first. -/
structure PrioQueues where
  /-- index `PRIO_Q_SERIAL` -/
  serial : List SkBuff
  /-- index `PRIO_Q_BT` -/
  bt : List SkBuff
  /-- index `PRIO_Q_OTHERS` -/
  others : List SkBuff
  deriving DecidableEq, Repr

/-- All three queues empty. -/
def PrioQueues.empty : PrioQueues := { serial := [], bt := [], others := [] }

/-- Global state of the SPI transport. -/
structure SpiState where
  /-- `data_path`: true when open -/
  data_path : Bool
  /-- `spi_context.esp_spi_dev` is not NULL -/
  esp_spi_dev : Bool
  /-- `adapter->capabilities` -/
  capabilities : Nat
  tx_q : PrioQueues
  rx_q : PrioQueues
  /-- `atomic_t tx_pending` -/
  tx_pending : Int
  /-- log of collaborator calls, oldest first -/
  events : List Event
  /-- `static char hardware_type`, initially `ESP_PRIV_FIRMWARE_CHIP_UNRECOGNIZED` -/
  hardware_type : Nat := 0xff
  /-- `u8 first_esp_bootup_over` -/
  first_esp_bootup_over : Nat := 0
  /-- `atomic_t device_state` of `spi_context`; 0 is what the `memset` of `spi_context` in
  `esp_init_interface_layer` leaves -/
  device_state : Int := 0
  deriving DecidableEq, Repr

/-- Kernel helper `skb_queue_tail`. -/
def skb_queue_tail (q : List SkBuff) (skb : SkBuff) : List SkBuff := q ++ [skb]

/-- Kernel helper `skb_dequeue`: the head of the queue, or NULL. -/
def skb_dequeue (q : List SkBuff) : Option SkBuff × List SkBuff :=
  match q with
  | [] => (none, [])
  | skb :: rest => (some skb, rest)

/-- Queue selection shared by `write_packet` and `process_rx_buf`:
`ESP_SERIAL_IF` to `PRIO_Q_SERIAL`, `ESP_HCI_IF` to `PRIO_Q_BT`, the rest to `PRIO_Q_OTHERS`. -/
def prio_of_if_type (if_type : Nat) : Nat :=
  if if_type = ESP_SERIAL_IF then PRIO_Q_SERIAL
  else if if_type = ESP_HCI_IF then PRIO_Q_BT
  else PRIO_Q_OTHERS

/-- Append `skb` to the queue with index `prio`. -/
def PrioQueues.enqueue (q : PrioQueues) (prio : Nat) (skb : SkBuff) : PrioQueues :=
  if prio = PRIO_Q_SERIAL then { q with serial := skb_queue_tail q.serial skb }
  else if prio = PRIO_Q_BT then { q with bt := skb_queue_tail q.bt skb }
  else { q with others := skb_queue_tail q.others skb }

/-- The dequeue cascade of `read_packet` and `esp_spi_transaction`:
`skb_dequeue` on `PRIO_Q_SERIAL`, then on `PRIO_Q_BT` if that gave NULL, then on
`PRIO_Q_OTHERS` if that gave NULL. -/
def PrioQueues.dequeue (q : PrioQueues) : Option SkBuff × PrioQueues :=
  match skb_dequeue q.serial with
  | (some skb, rest) => (some skb, { q with serial := rest })
  | (none, _) =>
    match skb_dequeue q.bt with
    | (some skb, rest) => (some skb, { q with bt := rest })
    | (none, _) =>
      match skb_dequeue q.others with
      | (some skb, rest) => (some skb, { q with others := rest })
      | (none, _) => (none, q)

/-! ## Receive path (`esp_spi.c`) -/

/-- Function `process_rx_buf(skb)`: returns the C return value and the new state.
`none` stands for a NULL `skb`. -/
def process_rx_buf (cfg : Config) (s : SpiState) (skb : Option SkBuff) : Int × SpiState :=
  match skb with
  | none => (-EINVAL, s)
  | some skb =>
    if hdr_if_type skb.data ≥ ESP_MAX_IF then (-EINVAL, s)
    else
      let len := hdr_len skb.data
      if len = 0 then (-EINVAL, s)
      else
        let offset := hdr_offset skb.data
        if offset ≠ HEADER_SIZE then (-EINVAL, s)
        else
          -- `len += sizeof(struct esp_payload_header)` on a `u16`
          let len := (len + HEADER_SIZE) % U16_MOD
          if len > cfg.SPI_BUF_SIZE then (-EINVAL, s)
          else
            -- `header` still points at the start of the data after the trim
            let if_type := hdr_if_type skb.data
            let skb := skb_trim skb len
            if !s.data_path then (-EPERM, s)
            else
              (0, { s with
                      rx_q := s.rx_q.enqueue (prio_of_if_type if_type) skb
                      events := s.events ++ [Event.new_packet_intr] })

/-- Function `read_packet(adapter)`: the frame handed to the caller (or NULL) and the new
state. The adapter is the one global adapter, so its NULL tests are not modelled. -/
def read_packet (s : SpiState) : Option SkBuff × SpiState :=
  if !s.data_path then (none, s)
  else if s.esp_spi_dev then
    let r := s.rx_q.dequeue
    (r.1, { s with rx_q := r.2 })
  else (none, s)

/-! ## Transmit path (`esp_spi.c`) -/

/-- The checksum branch of `write_packet`: `h->checksum = 0`, then the sum over
`len + offset` octets (the argument is converted to `uint16_t` by the call) is stored. -/
def stamp_checksum (data : List Byte) : List Byte :=
  let len := hdr_len data
  let offset := hdr_offset data
  let zeroed := set_hdr_checksum data 0
  set_hdr_checksum zeroed (compute_checksum zeroed (len + offset))

/-- Lines 198 to 203 of `write_packet`: the frame as it is queued. The checksum is stored
when `ESP_CHECKSUM_ENABLED` is among the capabilities, and the frame is left as it is
otherwise. The pointer `h` is `skb->data`, so the header fields are read, the octets are
summed and the checksum is written in the memory that starts there, whether or not that
lies within the first `skb->len` octets; `skb->len` is not changed. -/
def tx_frame (s : SpiState) (skb : SkBuff) : SkBuff :=
  if s.capabilities &&& ESP_CHECKSUM_ENABLED ≠ 0 then
    let mem := stamp_checksum skb.mem
    { data := mem.take skb.len, tailroom := mem.drop skb.len }
  else skb

/-- Function `write_packet(adapter, skb)`: returns the C return value and the new state.
`none` stands for a NULL `skb`. `UPDATE_HEADER_TX_PKT_NO` expands to nothing because
`ESP_PKT_NUM_DEBUG` is 0. The counter `tx_pending` is a mathematical integer. -/
def write_packet (cfg : Config) (s : SpiState) (skb : Option SkBuff) : Int × SpiState :=
  match skb with
  | none => (-EINVAL, s)
  | some skb =>
    if skb.len = 0 then (-EINVAL, s)
    else if skb.len > cfg.SPI_BUF_SIZE then (-EPERM, s)
    else if !s.data_path then (-EPERM, s)
    else
      let skb := tx_frame s skb
      let if_type := hdr_if_type skb.data
      let s1 : SpiState :=
        if if_type = ESP_SERIAL_IF then
          { s with tx_q := { s.tx_q with serial := skb_queue_tail s.tx_q.serial skb } }
        else if if_type = ESP_HCI_IF then
          { s with tx_q := { s.tx_q with bt := skb_queue_tail s.tx_q.bt skb } }
        else
          let pending := s.tx_pending + 1
          { s with
              tx_q := { s.tx_q with others := skb_queue_tail s.tx_q.others skb }
              tx_pending := pending
              events :=
                if pending ≥ (cfg.TX_MAX_PENDING_COUNT : Int) then s.events ++ [Event.tx_pause]
                else s.events }
      (0, { s1 with events := s1.events ++ [Event.sem_up] })

/-- Macro `TX_RESUME_THRESHOLD`, `(TX_MAX_PENDING_COUNT/5)`. -/
def TX_RESUME_THRESHOLD (cfg : Config) : Nat := cfg.TX_MAX_PENDING_COUNT / 5

/-- What the hardware contributes to one call of `esp_spi_transaction`. -/
structure SpiHw where
  /-- `gpio_get_value(handshake_gpio)` -/
  handshake : Bool
  /-- `gpio_get_value(dataready_gpio)` at the start of the cycle -/
  dataready : Bool
  /-- return value of `spi_sync_transfer` -/
  xfer_ret : Int
  /-- octets clocked in by the transfer -/
  xfer_rx : List Byte
  /-- `gpio_get_value(dataready_gpio)` at the end of the cycle -/
  dataready_after : Bool
  deriving DecidableEq, Repr

/-- Lines 435 to 450 of `esp_spi_transaction`: the transmit dequeue and the accounting of
`tx_pending`. Returns `tx_skb` and the new state. `esp_raw_tp_queue_resume` (under
`TEST_RAW_TP`) is outside the transport and not recorded. -/
def esp_spi_transaction_dequeue (cfg : Config) (s : SpiState) : Option SkBuff × SpiState :=
  if s.data_path then
    let r := s.tx_q.dequeue
    let s1 : SpiState := { s with tx_q := r.2 }
    if r.1.isSome && s1.tx_pending ≠ 0 then
      let pending := s1.tx_pending - 1
      (r.1, { s1 with
                tx_pending := pending
                events :=
                  if pending < (TX_RESUME_THRESHOLD cfg : Int) then s1.events ++ [Event.tx_resume]
                  else s1.events })
    else (r.1, s1)
  else (none, s)

/-- Function `esp_spi_transaction()`, with the lock taken successfully. The received buffer
is `SPI_BUF_SIZE` zero octets overwritten by what the transfer clocked in. -/
def esp_spi_transaction (cfg : Config) (s : SpiState) (hw : SpiHw) : SpiState :=
  if !hw.handshake then
    if cfg.USE_WORKQUEUE then { s with events := s.events ++ [Event.mod_delayed_work] } else s
  else
    let rx_pending := if cfg.USE_WORKQUEUE then false else hw.dataready
    let r := esp_spi_transaction_dequeue cfg s
    let s1 := r.2
    if !rx_pending && r.1.isNone then s1
    else
      let tx_buf : List Byte :=
        match r.1 with
        | some tx_skb => tx_skb.data
        | none => List.replicate cfg.SPI_BUF_SIZE 0
      let s2 : SpiState :=
        { s1 with events := s1.events ++ [Event.spi_sync_transfer tx_buf cfg.SPI_BUF_SIZE] }
      if hw.xfer_ret ≠ 0 then s2
      else
        let rx_skb : SkBuff :=
          { data := (hw.xfer_rx ++ List.replicate cfg.SPI_BUF_SIZE 0).take cfg.SPI_BUF_SIZE }
        let s3 := (process_rx_buf cfg s2 (some rx_skb)).2
        if cfg.USE_WORKQUEUE &&
            (hw.dataready_after || !s3.tx_q.serial.isEmpty || !s3.tx_q.bt.isEmpty
              || !s3.tx_q.others.isEmpty) then
          { s3 with events := s3.events ++ [Event.queue_work] }
        else s3

/-! ## HCI transmit framing (`esp_bt.c`) -/

/-- Assignment to the bit-field `if_type`. -/
def set_hdr_if_type (buf : List Byte) (v : Nat) : List Byte :=
  buf.set 0 (to_byte (byte_at buf 0 / 16 * 16 + v % 16))

/-- Assignment to the bit-field `if_num`. -/
def set_hdr_if_num (buf : List Byte) (v : Nat) : List Byte :=
  buf.set 0 (to_byte (byte_at buf 0 % 16 + 16 * (v % 16)))

/-- Library call `memset(buf, 0, n)`. -/
def memset_zero (buf : List Byte) (n : Nat) : List Byte :=
  List.replicate (min n buf.length) 0 ++ buf.drop n

/-- Value of `pad_len` in `esp_bt_send_frame` for a payload of `len` octets: the header
size plus `SKB_DATA_ADDR_ALIGNMENT - (total_len % SKB_DATA_ADDR_ALIGNMENT)`, kept in a
`u8`. -/
def esp_bt_pad_len (cfg : Config) (len : Nat) : Nat :=
  let total_len := len + HEADER_SIZE
  (HEADER_SIZE +
    (cfg.SKB_DATA_ADDR_ALIGNMENT - total_len % cfg.SKB_DATA_ADDR_ALIGNMENT)) % 256

/-- Lines 233 to 244 of `esp_bt_send_frame`: the `pad_len + len` octets that start at
`skb->data` once the header is written, for an HCI packet `payload` with `pad_len` octets
in front of it. `headroom` is what those octets held before (the function initialises only
the ones it writes). -/
def esp_bt_frame (headroom : List Byte) (pkt_type : Byte) (payload : List Byte)
    (pad_len : Nat) : List Byte :=
  -- the payload behind `pad_len` octets (`skb_push`, or the copy to `pos + pad_len`)
  let pushed := (List.range pad_len).map (fun i => headroom.getD i 0) ++ payload
  -- `memset(hdr, 0, sizeof(struct esp_payload_header))`
  let hdr := memset_zero pushed HEADER_SIZE
  let hdr := set_hdr_if_type hdr ESP_HCI_IF
  let hdr := set_hdr_if_num hdr 0
  -- `hdr->len = cpu_to_le16(len)`, `hdr->offset = cpu_to_le16(pad_len)`
  let hdr := set_le16 hdr 2 payload.length
  let hdr := set_le16 hdr 4 pad_len
  -- `*(pos + pad_len - 1) = pkt_type`
  hdr.set (pad_len - 1) pkt_type

/-- Function `esp_bt_send_frame(hdev, skb)` up to the call of `esp_send_packet`: the result
is the error returned before that call or the frame handed to it. `payload` is the HCI
packet in `skb`, `pkt_type` is `hci_skb_pkt_type(skb)`, and `realloc_skb` tells whether the
reallocation branch is taken (headroom too small or data pointer not aligned). In the
`skb_push` branch `skb->len` becomes `pad_len + len`; in the reallocation branch
`skb_put(new_skb, skb->len)` makes it `len`, so the frame is the first `len` octets of what
was written and the other `pad_len` written octets follow it in the new buffer, which
was allocated with `len + pad_len` octets. Allocation failures are not modelled. -/
def esp_bt_send_frame (cfg : Config) (realloc_skb : Bool) (headroom : List Byte)
    (pkt_type : Byte) (payload : List Byte) : Except Int SkBuff :=
  let len := payload.length
  if len = 0 then Except.error (-EINVAL)
  else
    let written := esp_bt_frame headroom pkt_type payload (esp_bt_pad_len cfg len)
    Except.ok
      (if realloc_skb then { data := written.take len, tailroom := written.drop len }
       else { data := written })

/-! ## Init event (`esp_spi.c`) -/

def ESP_PRIV_CAPABILITY : Nat := 0
def ESP_PRIV_SPI_CLK_MHZ : Nat := 1
def ESP_PRIV_FIRMWARE_CHIP_ID : Nat := 2
def ESP_PRIV_TEST_RAW_TP : Nat := 3
def ESP_PRIV_FW_DATA : Nat := 4

def ESP_PRIV_FIRMWARE_CHIP_UNRECOGNIZED : Nat := 0xff
def ESP_PRIV_FIRMWARE_CHIP_ESP32 : Nat := 0x0
def ESP_PRIV_FIRMWARE_CHIP_ESP32S2 : Nat := 0x2
def ESP_PRIV_FIRMWARE_CHIP_ESP32C3 : Nat := 0x5
def ESP_PRIV_FIRMWARE_CHIP_ESP32S3 : Nat := 0x9
def ESP_PRIV_FIRMWARE_CHIP_ESP32C2 : Nat := 0xC
def ESP_PRIV_FIRMWARE_CHIP_ESP32C5 : Nat := 0x17
def ESP_PRIV_FIRMWARE_CHIP_ESP32C6 : Nat := 0xD

/-- The test of lines 302 to 308 of `process_init_event`: true when `hardware_type` is none
of the seven supported chip identifiers. -/
def chip_unrecognized (hardware_type : Nat) : Bool :=
  decide (hardware_type ≠ ESP_PRIV_FIRMWARE_CHIP_ESP32 ∧
    hardware_type ≠ ESP_PRIV_FIRMWARE_CHIP_ESP32S2 ∧
    hardware_type ≠ ESP_PRIV_FIRMWARE_CHIP_ESP32C2 ∧
    hardware_type ≠ ESP_PRIV_FIRMWARE_CHIP_ESP32C3 ∧
    hardware_type ≠ ESP_PRIV_FIRMWARE_CHIP_ESP32C5 ∧
    hardware_type ≠ ESP_PRIV_FIRMWARE_CHIP_ESP32C6 ∧
    hardware_type ≠ ESP_PRIV_FIRMWARE_CHIP_ESP32S3)

/-- What the collaborators of `process_init_event` that are not part of the sources
contribute to one call. -/
structure InitEnv where
  /-- return value of `process_fw_data(fw_p, tag_len)`, as a function of the `tag_len`
  octets of the record that `fw_p` points to -/
  process_fw_data : List Byte → Int
  /-- whether `get_fw_check_type()` is `FW_CHECK_STRICT` -/
  fw_check_strict : Bool
  /-- return value of `esp_add_card` -/
  esp_add_card : Int

/-- Function `spi_exit()`, as far as the modelled state goes: the data path is closed, the
six queues are purged, `esp_remove_card` is called and `spi_context` is zeroed. Interrupt,
GPIO, thread and work-queue teardown is not modelled. -/
def spi_exit (s : SpiState) : SpiState :=
  { s with
      data_path := false
      esp_spi_dev := false
      tx_q := PrioQueues.empty
      rx_q := PrioQueues.empty
      device_state := 0
      events := s.events ++ [Event.remove_card] }

/-- Local variables of the scan loop of `process_init_event`, with the state it works on.
`visited` is a ghost variable: the offsets `pos - evt_buf` at which the loop body ran. -/
structure InitScan where
  /-- offset `pos - evt_buf` -/
  pos : Nat
  /-- the `u8` variable `len_left` -/
  len_left : Nat
  fw_version_checked : Bool
  state : SpiState
  visited : List Nat
  deriving DecidableEq, Repr

/-- One run of the body of the `while (len_left)` loop (lines 273 to 294). The Boolean is
true when the body executed `return -1` (incompatible firmware). `evt_buf` is the memory
that starts at the pointer `evt_buf`; it may be longer than the declared event. The
subtraction from `len_left` is done in `u8`. Logging calls are not modelled. -/
def init_event_step (env : InitEnv) (evt_buf : List Byte) (sc : InitScan) : InitScan × Bool :=
  let tag := byte_at evt_buf sc.pos
  let tag_len := byte_at evt_buf (sc.pos + 1)
  let value := byte_at evt_buf (sc.pos + 2)
  let sc : InitScan := { sc with visited := sc.visited ++ [sc.pos] }
  let next (sc : InitScan) : InitScan :=
    { sc with
        pos := sc.pos + (tag_len + 2)
        len_left := (sc.len_left + 512 - (tag_len + 2)) % 256 }
  if tag = ESP_PRIV_CAPABILITY then
    (next { sc with state := { sc.state with capabilities := value } }, false)
  else if tag = ESP_PRIV_FIRMWARE_CHIP_ID then
    (next { sc with state := { sc.state with hardware_type := value } }, false)
  else if tag = ESP_PRIV_TEST_RAW_TP then
    (next { sc with
              state := { sc.state with
                events := sc.state.events ++ [Event.process_test_capabilities value] } },
      false)
  else if tag = ESP_PRIV_FW_DATA then
    if env.process_fw_data ((evt_buf.drop (sc.pos + 2)).take tag_len) ≠ 0 then (sc, true)
    else (next { sc with fw_version_checked := true }, false)
  else (next sc, false)

/-- The `while (len_left)` loop of `process_init_event`. `fuel` bounds the number of loop
tests; `none` means the bound was reached while `len_left` was still not 0. -/
def process_init_event_loop (env : InitEnv) (evt_buf : List Byte) :
    Nat → InitScan → Option (InitScan × Bool)
  | 0, _ => none
  | fuel + 1, sc =>
    if sc.len_left = 0 then some (sc, false)
    else
      let r := init_event_step env evt_buf sc
      if r.2 then some r else process_init_event_loop env evt_buf fuel r.1

/-- Result of `process_init_event`: the C return value, the new state and the ghost list
of offsets at which a record was read. -/
structure InitResult where
  ret : Int
  state : SpiState
  visited : List Nat
  deriving DecidableEq, Repr

/-- Lines 297 to 332 of `process_init_event`: what follows the scan loop. -/
def process_init_event_finish (env : InitEnv) (sc : InitScan) : InitResult :=
  let st := sc.state
  if chip_unrecognized st.hardware_type then
    { ret := -1
      state := { st with hardware_type := ESP_PRIV_FIRMWARE_CHIP_UNRECOGNIZED }
      visited := sc.visited }
  else if st.first_esp_bootup_over ≠ 0 then
    { ret := 0
      state := { st with events := st.events ++ [Event.schedule_reinit_work] }
      visited := sc.visited }
  else
    let st : SpiState := { st with events := st.events ++ [Event.add_card] }
    if env.esp_add_card ≠ 0 then
      { ret := env.esp_add_card, state := spi_exit st, visited := sc.visited }
    else
      { ret := 0
        state := { st with
          first_esp_bootup_over := 1
          events := st.events ++ [Event.process_capabilities st.capabilities] }
        visited := sc.visited }

/-- How `process_init_event` returns once the scan loop is left: with -1 when the loop
body returned (the Boolean is true), else through lines 297 to 332. -/
def process_init_event_return (env : InitEnv) (r : InitScan × Bool) : InitResult :=
  if r.2 then { ret := -1, state := r.1.state, visited := r.1.visited }
  else process_init_event_finish env r.1

/-- Function `process_init_event(evt_buf, len)`. `none` as `evt_buf` stands for NULL;
`len` is a `u8`. The result is `none` when the loop did not end within `fuel` tests. -/
def process_init_event (fuel : Nat) (env : InitEnv) (s : SpiState)
    (evt_buf : Option (List Byte)) (len : Nat) : Option InitResult :=
  match evt_buf with
  | none => some { ret := -1, state := s, visited := [] }
  | some buf =>
    (process_init_event_loop env buf fuel
        { pos := 0, len_left := len % 256, fw_version_checked := false, state := s,
          visited := [] }).map (process_init_event_return env)

/-! ## TLV streams -/

/-- One record of a TLV stream: a tag and the value octets. -/
structure TlvRecord where
  tag : Byte
  value : List Byte
  deriving DecidableEq, Repr

/-- Octets of a record: tag, length, value. -/
def TlvRecord.encode (r : TlvRecord) : List Byte :=
  r.tag :: to_byte r.value.length :: r.value

/-- Number of octets of a record, `2 + length`. -/
def TlvRecord.size (r : TlvRecord) : Nat := 2 + r.value.length

/-- Octets of a stream of records. -/
def tlv_stream : List TlvRecord → List Byte
  | [] => []
  | r :: rs => r.encode ++ tlv_stream rs

/-- Total number of octets of a stream of records. -/
def tlv_total : List TlvRecord → Nat
  | [] => 0
  | r :: rs => r.size + tlv_total rs

/-- Offsets at which the records of a stream start, the first one at `pos`. -/
def tlv_offsets (pos : Nat) : List TlvRecord → List Nat
  | [] => []
  | r :: rs => pos :: tlv_offsets (pos + r.size) rs

/-- A record whose tag is Capability, Chip-identity or Raw-throughput-test carries the value
octet that `process_init_event` reads for it. -/
def TlvRecord.has_value (r : TlvRecord) : Prop :=
  (r.tag.val = ESP_PRIV_CAPABILITY ∨ r.tag.val = ESP_PRIV_FIRMWARE_CHIP_ID
    ∨ r.tag.val = ESP_PRIV_TEST_RAW_TP) → r.value ≠ []

/-- A record whose tag is none of Capability, Chip-identity, Raw-throughput-test and
Firmware-version. -/
def TlvRecord.unknown (r : TlvRecord) : Prop :=
  r.tag.val ≠ ESP_PRIV_CAPABILITY ∧ r.tag.val ≠ ESP_PRIV_FIRMWARE_CHIP_ID ∧
  r.tag.val ≠ ESP_PRIV_TEST_RAW_TP ∧ r.tag.val ≠ ESP_PRIV_FW_DATA

instance TlvRecord.decidable_has_value (r : TlvRecord) : Decidable r.has_value :=
  inferInstanceAs (Decidable ((r.tag.val = ESP_PRIV_CAPABILITY
    ∨ r.tag.val = ESP_PRIV_FIRMWARE_CHIP_ID ∨ r.tag.val = ESP_PRIV_TEST_RAW_TP) → r.value ≠ []))

instance TlvRecord.decidable_unknown (r : TlvRecord) : Decidable r.unknown :=
  inferInstanceAs (Decidable (r.tag.val ≠ ESP_PRIV_CAPABILITY
    ∧ r.tag.val ≠ ESP_PRIV_FIRMWARE_CHIP_ID ∧ r.tag.val ≠ ESP_PRIV_TEST_RAW_TP
    ∧ r.tag.val ≠ ESP_PRIV_FW_DATA))

/-- Value octet of the last Capability record of a stream, or `caps` when there is none. -/
def last_capability (caps : Nat) : List TlvRecord → Nat
  | [] => caps
  | r :: rs =>
    if r.tag.val = ESP_PRIV_CAPABILITY then last_capability (r.value.getD 0 0).val rs
    else last_capability caps rs

/-- Record-by-record reading of the scan loop: the effect of one record on the scan
variables. `after` is what follows the record in memory; the value octet that the loop
reads for a Capability, Chip-identity or Raw-throughput-test record is the first octet of
the value, or of `after` when the value is empty. The Boolean is true when the record is a
Firmware-version record that `process_fw_data` refuses. -/
def scan_record (env : InitEnv) (sc : InitScan) (r : TlvRecord) (after : List Byte) :
    InitScan × Bool :=
  let value := byte_at (r.value ++ after) 0
  let sc : InitScan := { sc with visited := sc.visited ++ [sc.pos] }
  let next (sc : InitScan) : InitScan :=
    { sc with pos := sc.pos + r.size, len_left := sc.len_left - r.size }
  if r.tag.val = ESP_PRIV_CAPABILITY then
    (next { sc with state := { sc.state with capabilities := value } }, false)
  else if r.tag.val = ESP_PRIV_FIRMWARE_CHIP_ID then
    (next { sc with state := { sc.state with hardware_type := value } }, false)
  else if r.tag.val = ESP_PRIV_TEST_RAW_TP then
    (next { sc with
              state := { sc.state with
                events := sc.state.events ++ [Event.process_test_capabilities value] } },
      false)
  else if r.tag.val = ESP_PRIV_FW_DATA then
    if env.process_fw_data r.value ≠ 0 then (sc, true)
    else (next { sc with fw_version_checked := true }, false)
  else (next sc, false)

/-- Record-by-record reading of the whole scan loop; `rest` is the memory behind the
stream. -/
def scan_records (env : InitEnv) : InitScan → List TlvRecord → List Byte → InitScan × Bool
  | sc, [], _ => (sc, false)
  | sc, r :: rs, rest =>
    let res := scan_record env sc r (tlv_stream rs ++ rest)
    if res.2 then res else scan_records env res.1 rs rest

/-- What of a scan result decides the outcome of `process_init_event`: the state, the
flag `fw_version_checked` and whether the loop body returned. -/
def scan_core (r : InitScan × Bool) : SpiState × Bool × Bool :=
  (r.1.state, r.1.fw_version_checked, r.2)

/-- Collaborators for the concrete checks: every firmware record is accepted, the check is
not strict and `esp_add_card` succeeds. -/
def sample_env : InitEnv :=
  { process_fw_data := fun _ => 0, fw_check_strict := false, esp_add_card := 0 }

/-! ## Bit flips, for the sensitivity of the checksum -/

/-- Octet `b` with bit `k` inverted. -/
def flip_bit (b : Byte) (k : Nat) : Byte := to_byte (b.val ^^^ 2 ^ k)

/-- Buffer with bit `k` of octet `j` inverted. -/
def flip_bit_at (buf : List Byte) (j k : Nat) : List Byte :=
  buf.set j (flip_bit (buf.getD j 0) k)

/-! ## Sample values used by the concrete checks -/

/-- A sample configuration: transfers of 1600 octets, at most 100 pending frames, buffers
aligned to 4 octets, kernel-thread variant, device states numbered 0 (running) and 1
(resetting). -/
def sample_cfg : Config :=
  { SPI_BUF_SIZE := 1600, TX_MAX_PENDING_COUNT := 100, SKB_DATA_ADDR_ALIGNMENT := 4,
    USE_WORKQUEUE := false, SPI_DEVICE_RUNNING := 0, SPI_DEVICE_RESETTING := 1 }

/-- A state with the data path open, all queues empty and no capability negotiated. -/
def open_state : SpiState :=
  { data_path := true, esp_spi_dev := true, capabilities := 0, tx_q := PrioQueues.empty,
    rx_q := PrioQueues.empty, tx_pending := 0, events := [] }

/-- A received buffer of `SPI_BUF_SIZE` = 1600 octets: `hdr` followed by zero octets. -/
def rx_buffer (hdr : List Byte) : SkBuff :=
  { data := (hdr ++ List.replicate 1600 0).take 1600 }

/-- An HCI frame as `esp_bt_send_frame` builds it for the payload `AA` of packet type 1. -/
def sample_hci_frame : List Byte := [3, 0, 1, 0, 15, 0, 0, 0, 0, 0, 0, 0, 0, 0, 1, 0xAA]

/-- A Serial-class frame: `len` 2, `offset` 12, a stale checksum field, payload `01 02`. -/
def sample_serial_frame : List Byte := [2, 0, 2, 0, 12, 0, 7, 7, 0, 0, 0, 0, 1, 2]

/-- An Other-class frame (`ESP_STA_IF`): `len` 1, `offset` 12, payload `55`. -/
def sample_sta_frame : List Byte := [0, 0, 1, 0, 12, 0, 0, 0, 0, 0, 0, 0, 0x55]

/-- Hardware input of an ordinary cycle: peer ready, no data announced, the transfer
succeeds and clocks in nothing but zero octets. -/
def sample_hw : SpiHw :=
  { handshake := true, dataready := false, xfer_ret := 0, xfer_rx := [],
    dataready_after := false }

/-- Memory that holds an init event declared with `len` 6: a Chip-identity record (ESP32),
then a Capability record whose length 5 runs past the declared end, and behind the declared
end, at offset 10, what reads as a Capability record of length 250 with value 7F. -/
def malformed_event : List Byte :=
  [2, 1, 0, 0, 5, 0x80, 0, 0, 0, 0, 0, 250, 0x7F, 0, 0, 0]

/-- A stream of two records: Capability with value 80, Chip-identity with the unsupported
value EE. -/
def unknown_chip_stream : List TlvRecord := [⟨0, [0x80]⟩, ⟨2, [0xEE]⟩]

/-- A stream of three records: Capability 21, Chip-identity ESP32-C3, Capability A0. -/
def sample_stream : List TlvRecord := [⟨0, [0x21]⟩, ⟨2, [5]⟩, ⟨0, [0xA0]⟩]

/-! ## Sequences of calls -/

/-- Successive calls of `write_packet`, one per frame, return values dropped. -/
def write_packets (cfg : Config) (s : SpiState) : List SkBuff → SpiState
  | [] => s
  | f :: fs => write_packets cfg (write_packet cfg s (some f)).2 fs

/-- Successive calls of `process_rx_buf`, one per received buffer, return values dropped. -/
def process_rx_bufs (cfg : Config) (s : SpiState) : List SkBuff → SpiState
  | [] => s
  | b :: bs => process_rx_bufs cfg (process_rx_buf cfg s (some b)).2 bs

/-- The frames taken by `n` successive transmit dequeues of `esp_spi_transaction`. -/
def tx_dequeues (cfg : Config) (s : SpiState) : Nat → List (Option SkBuff)
  | 0 => []
  | n + 1 =>
    (esp_spi_transaction_dequeue cfg s).1 :: tx_dequeues cfg (esp_spi_transaction_dequeue cfg s).2 n

/-- The frames returned by `n` successive calls of `read_packet`. -/
def read_packets (s : SpiState) : Nat → List (Option SkBuff)
  | 0 => []
  | n + 1 => (read_packet s).1 :: read_packets (read_packet s).2 n

/-- The state after `n` successive transmit dequeues of `esp_spi_transaction`. -/
def tx_dequeue_n (cfg : Config) (s : SpiState) : Nat → SpiState
  | 0 => s
  | n + 1 => tx_dequeue_n cfg (esp_spi_transaction_dequeue cfg s).2 n

/-- Number of calls of `esp_tx_pause` so far. -/
def tx_pause_count (s : SpiState) : Nat := s.events.count Event.tx_pause

/-- Number of calls of `esp_tx_resume` so far. -/
def tx_resume_count (s : SpiState) : Nat := s.events.count Event.tx_resume

/-- The frames given by `n` successive runs of the dequeue cascade on one queue set. -/
def PrioQueues.drain (q : PrioQueues) : Nat → List (Option SkBuff)
  | 0 => []
  | n + 1 => q.dequeue.1 :: PrioQueues.drain q.dequeue.2 n

/-! ## Link life cycle (`esp_spi.c`) -/

/-- Linux errno `EFAULT`. -/
def EFAULT : Int := 14

/-- Function `open_data_path()`: the pending counter is set to 0 and the data path is
opened. The sleep is not modelled. -/
def open_data_path (s : SpiState) : SpiState :=
  { s with tx_pending := 0, data_path := true }

/-- Kernel helper `skb_queue_purge`: every frame of the queue is freed. -/
def skb_queue_purge (_q : List SkBuff) : List SkBuff := []

/-- Kernel helper `skb_queue_head_init`: the queue head is made an empty list. -/
def skb_queue_head_init (_q : List SkBuff) : List SkBuff := []

/-- The loop of lines 237 to 240 of `esp_spi_reinit_work`: `skb_queue_purge` on `tx_q[i]`
and `rx_q[i]` for the three priorities. -/
def reinit_purge_queues (s : SpiState) : SpiState :=
  { s with
      tx_q := { serial := skb_queue_purge s.tx_q.serial, bt := skb_queue_purge s.tx_q.bt,
                others := skb_queue_purge s.tx_q.others }
      rx_q := { serial := skb_queue_purge s.rx_q.serial, bt := skb_queue_purge s.rx_q.bt,
                others := skb_queue_purge s.rx_q.others } }

/-- The loop of lines 243 to 246 of `esp_spi_reinit_work`: `skb_queue_head_init` on
`tx_q[i]` and `rx_q[i]` for the three priorities. -/
def reinit_init_queues (s : SpiState) : SpiState :=
  { s with
      tx_q := { serial := skb_queue_head_init s.tx_q.serial,
                bt := skb_queue_head_init s.tx_q.bt,
                others := skb_queue_head_init s.tx_q.others }
      rx_q := { serial := skb_queue_head_init s.rx_q.serial,
                bt := skb_queue_head_init s.rx_q.bt,
                others := skb_queue_head_init s.rx_q.others } }

/-- Function `esp_spi_reinit_work(work)`. `esp_remove_card` and `esp_add_card` are not part
of the sources: the calls are recorded in the log and `add_card_ret` is what `esp_add_card`
returns, which the function uses for a log message only. The counter `tx_pending` is a
`static` variable of `esp_spi.c` and no statement of this function writes it. -/
def esp_spi_reinit_work (cfg : Config) (add_card_ret : Int) (s : SpiState) : SpiState :=
  if s.device_state ≠ cfg.SPI_DEVICE_RUNNING then s
  else
    let s1 : SpiState := { s with device_state := cfg.SPI_DEVICE_RESETTING }
    let s2 := reinit_purge_queues s1
    let s3 := reinit_init_queues s2
    let s4 : SpiState := { s3 with events := s3.events ++ [Event.remove_card] }
    let s5 : SpiState := { s4 with events := s4.events ++ [Event.add_card] }
    -- `esp_err("Failed to reinit card")` when `add_card_ret` is not 0, and on in both cases
    let s5 : SpiState := if add_card_ret ≠ 0 then s5 else s5
    { s5 with device_state := cfg.SPI_DEVICE_RUNNING }

/-- The states that `esp_spi_reinit_work` passes through, one after each statement that
changes the state; empty when the guard of line 231 returns at once. -/
def esp_spi_reinit_work_trace (cfg : Config) (add_card_ret : Int) (s : SpiState) :
    List SpiState :=
  if s.device_state ≠ cfg.SPI_DEVICE_RUNNING then []
  else
    let s1 : SpiState := { s with device_state := cfg.SPI_DEVICE_RESETTING }
    let s2 := reinit_purge_queues s1
    let s3 := reinit_init_queues s2
    let s4 : SpiState := { s3 with events := s3.events ++ [Event.remove_card] }
    let s5 : SpiState := { s4 with events := s4.events ++ [Event.add_card] }
    let s5 : SpiState := if add_card_ret ≠ 0 then s5 else s5
    [s1, s2, s3, s4, s5, { s5 with device_state := cfg.SPI_DEVICE_RUNNING }]

/-- What the collaborators of `spi_init` contribute to one call. -/
structure SpiInitEnv where
  /-- `alloc_workqueue` (work-queue variant) or `kthread_run` (thread variant) returned a
  non-NULL pointer -/
  worker_created : Bool
  /-- status with which the hardware acquisition of `spi_dev_init` ends (0 when the SPI
  device, both GPIOs and both interrupts were obtained) -/
  spi_dev_status : Int
  /-- return value of `esp_serial_init` -/
  esp_serial_init : Int
  deriving DecidableEq, Repr

/-- Function `spi_dev_init(context)`: when the acquisition of the SPI device, the GPIOs and
the interrupts succeeds, `esp_spi_dev` is set and `open_data_path` is called; otherwise the
status of the failing step is returned (which resources were obtained before it is not
modelled). -/
def spi_dev_init (env : SpiInitEnv) (s : SpiState) : Int × SpiState :=
  if env.spi_dev_status ≠ 0 then (env.spi_dev_status, s)
  else (0, open_data_path { s with esp_spi_dev := true })

/-- Function `spi_init()`. The adapter state and the sleeps are not modelled. -/
def spi_init (cfg : Config) (env : SpiInitEnv) (s : SpiState) : Int × SpiState :=
  let s : SpiState := { s with device_state := cfg.SPI_DEVICE_RUNNING }
  if !env.worker_created then
    if cfg.USE_WORKQUEUE then (-EFAULT, spi_exit s) else (-EFAULT, s)
  else
    let s := reinit_init_queues s
    let r := spi_dev_init env s
    if r.1 ≠ 0 then (r.1, spi_exit r.2)
    else if env.esp_serial_init ≠ 0 then (env.esp_serial_init, spi_exit r.2)
    else (env.esp_serial_init, r.2)

/-! ## HCI receive path (`esp_bt.c`) -/

/-- Number of values of an `unsigned int`. -/
def U32_MOD : Nat := 4294967296

/-- Kernel helper `skb_pull`: removes `n` octets from the front of the buffer; it does
nothing when the buffer holds fewer than `n` octets. What follows the frame in memory is
not tracked further. -/
def skb_pull (skb : SkBuff) (n : Nat) : SkBuff :=
  if n > skb.len then skb else { data := skb.data.drop n }

/-- Function `esp_hci_rx(adapter, skb)` up to the call of `hci_recv_frame`: the result is
the packet type stored with the buffer and the buffer handed to `hci_recv_frame`, or `none`
when the frame is dropped. `none` as `skb` stands for NULL, `rx_ready` for
`adapter->state >= ESP_CONTEXT_RX_READY` and `hcidev` for a non-NULL `adapter->hcidev`.
`skb->len` is an `unsigned int`, `offset` and `len` are `u16`: the difference
`skb->len - offset` is computed in `unsigned int` and wraps when `offset` is larger. -/
def esp_hci_rx (rx_ready hcidev : Bool) (skb : Option SkBuff) : Option (Nat × SkBuff) :=
  match skb with
  | none => none
  | some skb =>
    if skb.len = 0 then none
    else if !rx_ready then none
    else if !hcidev then none
    else
      let offset := hdr_offset skb.data
      let len := hdr_len skb.data
      if offset = 0 ∨ len = 0 ∨ len > (skb.len + U32_MOD - offset) % U32_MOD then none
      else if skb.len < offset + 1 then none
      else
        let skb := skb_pull skb offset
        let type := byte_at skb.data 0
        if skb.len ≤ 1 then none
        else some (type, skb_pull skb 1)

/-! ## Interleaved transmit operations -/

/-- One operation on the transmit side: a call of `write_packet` or one call of
`esp_spi_transaction`. -/
inductive TxOp where
  | write (skb : SkBuff)
  | transaction (hw : SpiHw)
  deriving DecidableEq, Repr

/-- The state after one transmit-side operation. -/
def tx_op (cfg : Config) (s : SpiState) : TxOp → SpiState
  | TxOp.write skb => (write_packet cfg s (some skb)).2
  | TxOp.transaction hw => esp_spi_transaction cfg s hw

/-- The state after a sequence of transmit-side operations. -/
def tx_ops (cfg : Config) (s : SpiState) : List TxOp → SpiState
  | [] => s
  | op :: ops => tx_ops cfg (tx_op cfg s op) ops

/-- Whether an operation is a call of `write_packet` that returns 0 for a frame that is
neither Serial nor HCI. -/
def accepted_other (cfg : Config) (s : SpiState) : TxOp → Bool
  | TxOp.write skb =>
    decide ((write_packet cfg s (some skb)).1 = 0 ∧ hdr_if_type skb.data ≠ ESP_SERIAL_IF
      ∧ hdr_if_type skb.data ≠ ESP_HCI_IF)
  | TxOp.transaction _ => false

/-- Number of accepted Other-class enqueues in a sequence of operations started in `s`. -/
def accepted_others (cfg : Config) (s : SpiState) : List TxOp → Nat
  | [] => 0
  | op :: ops =>
    (if accepted_other cfg s op then 1 else 0) + accepted_others cfg (tx_op cfg s op) ops

/-- Number of calls of `spi_sync_transfer` so far. -/
def transfer_count (s : SpiState) : Nat :=
  (s.events.filter (fun e => match e with
    | Event.spi_sync_transfer _ _ => true
    | _ => false)).length

/-- A running link with frames in four of its queues and three frames counted as pending. -/
def busy_state : SpiState :=
  { open_state with
      tx_q := { serial := [{ data := sample_serial_frame }], bt := [],
                others := [{ data := sample_sta_frame }, { data := sample_sta_frame },
                           { data := sample_sta_frame }] }
      rx_q := { serial := [], bt := [{ data := sample_hci_frame }],
                others := [{ data := sample_sta_frame }] }
      tx_pending := 3 }

/-! ## Basic facts about buffers -/

theorem byte_at_lt (buf : List Byte) (i : Nat) : byte_at buf i < 256 :=
  (buf.getD i 0).isLt

theorem byte_at_set (buf : List Byte) (j : Nat) (b : Byte) (i : Nat) :
    byte_at (buf.set j b) i = if i = j ∧ j < buf.length then b.val else byte_at buf i := by
  unfold byte_at
  by_cases hij : i = j
  · subst hij
    by_cases hlen : i < buf.length
    · simp [List.getD_eq_getElem?_getD, List.getElem?_set, hlen]
    · have h1 : buf.length ≤ i := Nat.le_of_not_lt hlen
      simp [List.getD_eq_getElem?_getD, List.getElem?_set, hlen, List.getElem?_eq_none h1]
  · have hji : ¬ j = i := fun h => hij h.symm
    simp [List.getD_eq_getElem?_getD, List.getElem?_set, hij, hji]

theorem byte_at_set_le16 (buf : List Byte) (p v i : Nat) (hi : i ≠ p) (hi1 : i ≠ p + 1) :
    byte_at (set_le16 buf p v) i = byte_at buf i := by
  unfold set_le16
  rw [byte_at_set, byte_at_set]
  simp [hi, hi1]

theorem length_set_le16 (buf : List Byte) (p v : Nat) :
    (set_le16 buf p v).length = buf.length := by
  simp [set_le16]

theorem le16_at_set_le16 (buf : List Byte) (p v : Nat) (h : p + 2 ≤ buf.length) :
    le16_at (set_le16 buf p v) p = v % U16_MOD := by
  unfold le16_at set_le16
  rw [byte_at_set, byte_at_set, byte_at_set, byte_at_set]
  have h1 : p < buf.length := by omega
  have h2 : p + 1 < buf.length := by omega
  simp [h1, h2, to_byte, U16_MOD]
  omega

/-! ## The checksum loop -/

theorem compute_checksum_loop_eq (buf : List Byte) (len : Nat) (hlen : len < U16_MOD) :
    ∀ (k i c fuel : Nat), i + k = len → c < U16_MOD → k < fuel →
      compute_checksum_loop buf len fuel i c
        = some ((c + ((List.range' i k).map (byte_at buf)).sum) % U16_MOD) := by
  intro k
  induction k with
  | zero =>
    intro i c fuel hik hc hf
    obtain ⟨f, rfl⟩ : ∃ f, fuel = f + 1 := ⟨fuel - 1, by omega⟩
    have hno : ¬ i < len := by omega
    simp [compute_checksum_loop, hno, Nat.mod_eq_of_lt hc]
  | succ k ih =>
    intro i c fuel hik hc hf
    obtain ⟨f, rfl⟩ : ∃ f, fuel = f + 1 := ⟨fuel - 1, by omega⟩
    have hlt : i < len := by omega
    have hwrap : (i + 1) % U16_MOD = i + 1 := Nat.mod_eq_of_lt (by omega)
    have hc2 : (c + byte_at buf i) % U16_MOD < U16_MOD := Nat.mod_lt _ (by decide)
    rw [compute_checksum_loop, if_pos hlt, hwrap, ih (i + 1) _ f (by omega) hc2 (by omega)]
    simp only [List.range'_succ, List.map_cons, List.sum_cons]
    congr 1
    rw [Nat.add_mod, Nat.mod_mod, ← Nat.add_mod, Nat.add_assoc]

theorem compute_checksum_eq_index_sum (buf : List Byte) (len : Nat) :
    compute_checksum buf len = index_sum buf (len % U16_MOD) % U16_MOD := by
  have hlt : len % U16_MOD < U16_MOD := Nat.mod_lt _ (by decide)
  unfold compute_checksum
  rw [compute_checksum_loop_eq buf (len % U16_MOD) hlt (len % U16_MOD) 0 0 (U16_MOD + 1)
    (by omega) (by decide) (by omega)]
  simp [index_sum, List.range_eq_range']

theorem index_sum_succ (buf : List Byte) (n : Nat) :
    index_sum buf (n + 1) = index_sum buf n + byte_at buf n := by
  simp [index_sum, List.range_succ]

theorem index_sum_eq_byte_sum_take (buf : List Byte) (n : Nat) (h : n ≤ buf.length) :
    index_sum buf n = byte_sum (buf.take n) := by
  induction n with
  | zero => simp [index_sum, byte_sum]
  | succ n ih =>
    have hn : n < buf.length := h
    rw [index_sum_succ, ih (Nat.le_of_lt hn)]
    have htake : buf.take (n + 1) = buf.take n ++ [buf[n]] := by
      rw [List.take_succ, List.getElem?_eq_getElem hn]
      rfl
    have hb : byte_at buf n = (buf[n]).val := by
      simp [byte_at, List.getD_eq_getElem?_getD, List.getElem?_eq_getElem hn]
    rw [htake, hb]
    unfold byte_sum
    rw [List.map_append, List.sum_append]
    simp

/-! ## Header checks of `process_rx_buf` -/

theorem process_rx_buf_rejects_malformed_state (cfg : Config) (s : SpiState) (skb : SkBuff)
    (h : hdr_if_type skb.data ≥ ESP_MAX_IF ∨ hdr_len skb.data = 0
          ∨ hdr_offset skb.data ≠ HEADER_SIZE) :
    process_rx_buf cfg s (some skb) = (-EINVAL, s) := by
  unfold process_rx_buf
  rcases h with h | h | h
  · simp [h]
  · by_cases h1 : hdr_if_type skb.data ≥ ESP_MAX_IF
    · simp [h1]
    · simp [h1, h]
  · by_cases h1 : hdr_if_type skb.data ≥ ESP_MAX_IF
    · simp [h1]
    · by_cases h2 : hdr_len skb.data = 0
      · simp [h1, h2]
      · simp [h1, h2, h]

/-! ## Claims -/

/-- C1: `process_rx_buf` rejects a received frame whose `if_type` is at least `ESP_MAX_IF`,
or whose `len` is 0, or whose `offset` is not the header size 12, whatever the other
fields (in particular `len` and `checksum` when the offset is wrong) hold: it returns the
non-zero value `-EINVAL` and leaves the whole state, so all receive queues, unchanged. -/
theorem process_rx_buf_rejects_malformed (cfg : Config) (s : SpiState) (skb : SkBuff)
    (h : hdr_if_type skb.data ≥ ESP_MAX_IF ∨ hdr_len skb.data = 0
          ∨ hdr_offset skb.data ≠ HEADER_SIZE) :
    (process_rx_buf cfg s (some skb)).1 = -EINVAL ∧
    (process_rx_buf cfg s (some skb)).1 ≠ 0 ∧
    (process_rx_buf cfg s (some skb)).2 = s ∧
    (process_rx_buf cfg s (some skb)).2.rx_q = s.rx_q := by
  rw [process_rx_buf_rejects_malformed_state cfg s skb h]
  simp [EINVAL]

/-- Witness of C1: a 1600-octet buffer with `if_type` 0, `len` 4, a correct checksum field
and `offset` 13 is rejected. -/
theorem process_rx_buf_rejects_malformed_witness :
    (process_rx_buf sample_cfg open_state
        (some (rx_buffer [0, 0, 4, 0, 13, 0, 17, 0, 0, 0, 0, 0]))).1 = -EINVAL ∧
    (process_rx_buf sample_cfg open_state
        (some (rx_buffer [0, 0, 4, 0, 13, 0, 17, 0, 0, 0, 0, 0]))).1 ≠ 0 ∧
    (process_rx_buf sample_cfg open_state
        (some (rx_buffer [0, 0, 4, 0, 13, 0, 17, 0, 0, 0, 0, 0]))).2 = open_state ∧
    (process_rx_buf sample_cfg open_state
        (some (rx_buffer [0, 0, 4, 0, 13, 0, 17, 0, 0, 0, 0, 0]))).2.rx_q = open_state.rx_q :=
  process_rx_buf_rejects_malformed sample_cfg open_state
    (rx_buffer [0, 0, 4, 0, 13, 0, 17, 0, 0, 0, 0, 0]) (Or.inr (Or.inr (by decide)))

/-- C2: evaluation at the failing input. A 1600-octet received buffer whose header has
`if_type` 0, `len` 65535 and `offset` 12 is accepted by `process_rx_buf` (return value 0,
the frame trimmed to 11 octets at the tail of the Other receive queue), although
`offset + len` = 65547 exceeds `SPI_BUF_SIZE` = 1600: the `u16` addition
`len += sizeof(struct esp_payload_header)` wraps to 11 before the size test. -/
theorem process_rx_buf_accepts_wrapped_len :
    (process_rx_buf sample_cfg open_state
        (some (rx_buffer [0, 0, 255, 255, 12, 0, 0, 0, 0, 0, 0, 0]))).1 = 0 ∧
    (process_rx_buf sample_cfg open_state
        (some (rx_buffer [0, 0, 255, 255, 12, 0, 0, 0, 0, 0, 0, 0]))).2.rx_q.others
      = [{ data := [0, 0, 255, 255, 12, 0, 0, 0, 0, 0, 0] }] ∧
    hdr_len (rx_buffer [0, 0, 255, 255, 12, 0, 0, 0, 0, 0, 0, 0]).data = 65535 ∧
    hdr_offset (rx_buffer [0, 0, 255, 255, 12, 0, 0, 0, 0, 0, 0, 0]).data = 12 ∧
    ¬ (hdr_offset (rx_buffer [0, 0, 255, 255, 12, 0, 0, 0, 0, 0, 0, 0]).data
        + hdr_len (rx_buffer [0, 0, 255, 255, 12, 0, 0, 0, 0, 0, 0, 0]).data
          ≤ sample_cfg.SPI_BUF_SIZE) := by
  decide

/-- C3: for every buffer and every length `len ≤ 65535` that does not exceed the size of the
buffer, the loop of `compute_checksum` ends within its 65537 tests, and the value returned
is the sum of the first `len` octets modulo 65536. -/
theorem compute_checksum_terminates_with_sum (buf : List Byte) (len : Nat)
    (h16 : len ≤ 65535) (hlen : len ≤ buf.length) :
    compute_checksum_loop buf len (U16_MOD + 1) 0 0
        = some (byte_sum (buf.take len) % 65536) ∧
    compute_checksum buf len = byte_sum (buf.take len) % 65536 := by
  have hlt : len < U16_MOD := by unfold U16_MOD; omega
  have hmod : len % U16_MOD = len := Nat.mod_eq_of_lt hlt
  have h2 : compute_checksum buf len = byte_sum (buf.take len) % 65536 := by
    rw [compute_checksum_eq_index_sum, hmod, index_sum_eq_byte_sum_take buf len hlen]
    rfl
  refine ⟨?_, h2⟩
  rw [compute_checksum_loop_eq buf len hlt len 0 0 (U16_MOD + 1) (by omega) (by decide)
    (by omega)]
  rw [← index_sum_eq_byte_sum_take buf len hlen]
  simp [index_sum, List.range_eq_range', U16_MOD]

/-- Witness of C3: the checksum of five octets with `len` 5. -/
theorem compute_checksum_terminates_with_sum_witness :
    compute_checksum_loop [1, 2, 3, 255, 255] 5 (U16_MOD + 1) 0 0
        = some (byte_sum (([1, 2, 3, 255, 255] : List Byte).take 5) % 65536) ∧
    compute_checksum [1, 2, 3, 255, 255] 5
        = byte_sum (([1, 2, 3, 255, 255] : List Byte).take 5) % 65536 :=
  compute_checksum_terminates_with_sum [1, 2, 3, 255, 255] 5 (by decide) (by decide)

/-! ## Facts about `write_packet` shared by several claims -/

theorem getElem?_set_le16 (buf : List Byte) (p v i : Nat) (hi : i ≠ p) (hi1 : i ≠ p + 1) :
    (set_le16 buf p v)[i]? = buf[i]? := by
  unfold set_le16
  rw [List.getElem?_set_ne (Ne.symm hi1), List.getElem?_set_ne (Ne.symm hi)]

theorem compute_checksum_lt (buf : List Byte) (len : Nat) : compute_checksum buf len < U16_MOD := by
  rw [compute_checksum_eq_index_sum]
  exact Nat.mod_lt _ (by decide)

theorem length_stamp_checksum (data : List Byte) :
    (stamp_checksum data).length = data.length := by
  simp [stamp_checksum, set_hdr_checksum, length_set_le16]

theorem byte_at_stamp_checksum (data : List Byte) (i : Nat) (h6 : i ≠ 6) (h7 : i ≠ 7) :
    byte_at (stamp_checksum data) i = byte_at data i := by
  simp only [stamp_checksum, set_hdr_checksum]
  rw [byte_at_set_le16 _ 6 _ i h6 h7, byte_at_set_le16 _ 6 _ i h6 h7]

theorem getElem?_stamp_checksum (data : List Byte) (i : Nat) (h6 : i ≠ 6) (h7 : i ≠ 7) :
    (stamp_checksum data)[i]? = data[i]? := by
  simp only [stamp_checksum, set_hdr_checksum]
  rw [getElem?_set_le16 _ 6 _ i h6 h7, getElem?_set_le16 _ 6 _ i h6 h7]

theorem hdr_checksum_stamp_checksum (data : List Byte) (h : 8 ≤ data.length) :
    hdr_checksum (stamp_checksum data)
      = compute_checksum (set_hdr_checksum data 0) (hdr_len data + hdr_offset data) := by
  simp only [stamp_checksum, set_hdr_checksum, hdr_checksum]
  rw [le16_at_set_le16 _ 6 _ (by rw [length_set_le16]; omega)]
  exact Nat.mod_eq_of_lt (compute_checksum_lt _ _)

theorem hdr_if_type_tx_frame (s : SpiState) (skb : SkBuff) :
    hdr_if_type (tx_frame s skb).data = hdr_if_type skb.data := by
  unfold tx_frame
  split
  · simp only [hdr_if_type]
    by_cases h0 : skb.data = []
    · simp [h0, SkBuff.len]
    · have hpos : 0 < skb.data.length := List.length_pos.mpr h0
      have htake : byte_at ((stamp_checksum skb.mem).take skb.len) 0
          = byte_at (stamp_checksum skb.mem) 0 := by
        unfold byte_at SkBuff.len
        simp [List.getD_eq_getElem?_getD, List.getElem?_take, hpos]
      rw [htake, byte_at_stamp_checksum _ 0 (by decide) (by decide)]
      unfold SkBuff.mem
      simp [byte_at, List.getD_eq_getElem?_getD, List.getElem?_append_left hpos]
  · rfl

theorem write_packet_accept_iff (cfg : Config) (s : SpiState) (skb : SkBuff) :
    (write_packet cfg s (some skb)).1 = 0 ↔
      skb.len ≠ 0 ∧ skb.len ≤ cfg.SPI_BUF_SIZE ∧ s.data_path = true := by
  unfold write_packet
  by_cases h0 : skb.len = 0
  · simp [h0, EINVAL]
  · by_cases h1 : skb.len > cfg.SPI_BUF_SIZE
    · simp [h0, h1, EPERM]
    · by_cases h2 : s.data_path = true
      · simp [h0, h1, h2]
        omega
      · simp [h0, h1, h2, EPERM]

theorem write_packet_queues (cfg : Config) (s : SpiState) (skb : SkBuff)
    (hacc : (write_packet cfg s (some skb)).1 = 0) :
    (write_packet cfg s (some skb)).2.tx_q
        = s.tx_q.enqueue (prio_of_if_type (hdr_if_type skb.data)) (tx_frame s skb) ∧
    (write_packet cfg s (some skb)).2.rx_q = s.rx_q := by
  obtain ⟨h0, h1, h2⟩ := (write_packet_accept_iff cfg s skb).1 hacc
  have h1n : ¬ skb.len > cfg.SPI_BUF_SIZE := by omega
  unfold write_packet
  simp only [h0, h1n, h2, if_false, Bool.not_true, Bool.false_eq_true, hdr_if_type_tx_frame]
  unfold PrioQueues.enqueue prio_of_if_type
  by_cases hs : hdr_if_type skb.data = ESP_SERIAL_IF
  · simp [hs, PRIO_Q_SERIAL]
  · by_cases hb : hdr_if_type skb.data = ESP_HCI_IF
    · simp [hs, hb, PRIO_Q_SERIAL, PRIO_Q_BT, ESP_HCI_IF, ESP_SERIAL_IF]
    · simp [hs, hb, PRIO_Q_SERIAL, PRIO_Q_BT, PRIO_Q_OTHERS]

/-- C4: with `ESP_CHECKSUM_ENABLED` among the capabilities, every frame that `write_packet`
accepts and whose memory (the `skb->len` octets and what follows them) holds the checksum
field, octets 6 and 7, is queued at the tail of the transmit queue of its class as
`tx_frame s skb`. Its length is unchanged, every octet of it and of its memory other than
octets 6 and 7 is as passed in, and the checksum field holds the 16-bit additive sum,
taken with the checksum field zero, of the octets `compute_checksum` is asked to add: the
first `len + offset` (a `u16`) octets at `skb->data`. Whenever these `offset + len` octets
lie in the memory of the frame and their number fits the `u16`, this is the sum of the
first `offset + len` octets of the frame with the checksum field zero. Where the frame
itself holds the field (`skb->len` is at least 8), the field of the frame is that of its
memory. The header-plus-payload region may extend behind `skb->len`, as it does for the
frames of the reallocation branch of `esp_bt_send_frame`. -/
theorem write_packet_stores_checksum (cfg : Config) (s s' : SpiState) (skb : SkBuff)
    (hcap : s.capabilities &&& ESP_CHECKSUM_ENABLED ≠ 0)
    (hacc : write_packet cfg s (some skb) = (0, s'))
    (hmem : 8 ≤ skb.mem.length) :
    s'.tx_q = s.tx_q.enqueue (prio_of_if_type (hdr_if_type skb.data)) (tx_frame s skb) ∧
    (tx_frame s skb).len = skb.len ∧
    (tx_frame s skb).mem.length = skb.mem.length ∧
    (∀ i : Nat, i ≠ 6 → i ≠ 7 → (tx_frame s skb).mem[i]? = skb.mem[i]?) ∧
    (∀ i : Nat, i ≠ 6 → i ≠ 7 → (tx_frame s skb).data[i]? = skb.data[i]?) ∧
    hdr_checksum (tx_frame s skb).mem
      = index_sum (set_hdr_checksum skb.mem 0)
          ((hdr_len skb.mem + hdr_offset skb.mem) % U16_MOD) % U16_MOD ∧
    (hdr_offset skb.mem + hdr_len skb.mem ≤ skb.mem.length →
      hdr_offset skb.mem + hdr_len skb.mem < U16_MOD →
      hdr_checksum (tx_frame s skb).mem
        = byte_sum ((set_hdr_checksum skb.mem 0).take
            (hdr_offset skb.mem + hdr_len skb.mem)) % 65536) ∧
    (8 ≤ skb.len →
      hdr_checksum (tx_frame s skb).data = hdr_checksum (tx_frame s skb).mem) := by
  have hret : (write_packet cfg s (some skb)).1 = 0 := by rw [hacc]
  have hq := (write_packet_queues cfg s skb hret).1
  rw [hacc] at hq
  have hframe : tx_frame s skb
      = { data := (stamp_checksum skb.mem).take skb.len,
          tailroom := (stamp_checksum skb.mem).drop skb.len } := by
    unfold tx_frame
    rw [if_pos hcap]
  have hmemf : (tx_frame s skb).mem = stamp_checksum skb.mem := by
    rw [hframe]
    unfold SkBuff.mem
    exact List.take_append_drop _ _
  have hlenle : skb.len ≤ (stamp_checksum skb.mem).length := by
    rw [length_stamp_checksum]
    unfold SkBuff.len SkBuff.mem
    simp
  have hlenf : (tx_frame s skb).len = skb.len := by
    rw [hframe]
    unfold SkBuff.len at hlenle ⊢
    simp only [List.length_take]
    omega
  have hsum : hdr_checksum (tx_frame s skb).mem
      = index_sum (set_hdr_checksum skb.mem 0)
          ((hdr_len skb.mem + hdr_offset skb.mem) % U16_MOD) % U16_MOD := by
    rw [hmemf, hdr_checksum_stamp_checksum _ hmem, compute_checksum_eq_index_sum]
  have hdata : ∀ i : Nat, i < skb.len → (tx_frame s skb).data[i]? = (tx_frame s skb).mem[i]? := by
    intro i hi
    have hi2 : i < (tx_frame s skb).data.length := by
      have := hlenf
      unfold SkBuff.len at this hi
      omega
    unfold SkBuff.mem
    rw [List.getElem?_append_left hi2]
  refine ⟨hq, hlenf, ?_, ?_, ?_, hsum, ?_, ?_⟩
  · rw [hmemf]
    exact length_stamp_checksum skb.mem
  · intro i h6 h7
    rw [hmemf]
    exact getElem?_stamp_checksum skb.mem i h6 h7
  · intro i h6 h7
    by_cases hi : i < skb.len
    · rw [hdata i hi, hmemf, getElem?_stamp_checksum skb.mem i h6 h7]
      unfold SkBuff.mem
      unfold SkBuff.len at hi
      rw [List.getElem?_append_left hi]
    · have h1 : (tx_frame s skb).data.length ≤ i := by
        have := hlenf
        unfold SkBuff.len at this hi
        omega
      have h2 : skb.data.length ≤ i := by
        unfold SkBuff.len at hi
        omega
      rw [List.getElem?_eq_none h1, List.getElem?_eq_none h2]
  · intro hreg h16
    rw [hsum]
    have hregion : (hdr_len skb.mem + hdr_offset skb.mem) % U16_MOD
        = hdr_offset skb.mem + hdr_len skb.mem := by
      rw [Nat.add_comm]
      exact Nat.mod_eq_of_lt h16
    rw [hregion, index_sum_eq_byte_sum_take]
    · rfl
    · simp only [set_hdr_checksum, length_set_le16]
      exact hreg
  · intro h8
    have hb : ∀ i : Nat, i < skb.len →
        byte_at (tx_frame s skb).data i = byte_at (tx_frame s skb).mem i := by
      intro i hi
      unfold byte_at
      rw [List.getD_eq_getElem?_getD, List.getD_eq_getElem?_getD, hdata i hi]
    simp only [hdr_checksum, le16_at]
    rw [hb 6 (by omega), hb (6 + 1) (by omega)]

/-- Witness of C4: the frame that the reallocation branch of `esp_bt_send_frame` builds for
the one-octet HCI payload `AA`: `skb->len` is 1 and the other 15 written octets follow it.
Written with the checksum capability set, its checksum field receives the sum of the 16
octets of the header-plus-payload region. -/
theorem write_packet_stores_checksum_witness :
    esp_bt_send_frame sample_cfg true [] 1 [0xAA]
      = Except.ok { data := [3], tailroom := [0, 1, 0, 15, 0, 0, 0, 0, 0, 0, 0, 0, 0, 1, 0xAA] } ∧
    hdr_checksum (tx_frame { open_state with capabilities := 128 }
        { data := [3], tailroom := [0, 1, 0, 15, 0, 0, 0, 0, 0, 0, 0, 0, 0, 1, 0xAA] }).mem
      = byte_sum ((set_hdr_checksum
          (SkBuff.mem
            { data := [3], tailroom := [0, 1, 0, 15, 0, 0, 0, 0, 0, 0, 0, 0, 0, 1, 0xAA] }) 0).take
          (hdr_offset (SkBuff.mem
              { data := [3], tailroom := [0, 1, 0, 15, 0, 0, 0, 0, 0, 0, 0, 0, 0, 1, 0xAA] })
            + hdr_len (SkBuff.mem
              { data := [3], tailroom := [0, 1, 0, 15, 0, 0, 0, 0, 0, 0, 0, 0, 0, 1, 0xAA] })))
        % 65536 ∧
    hdr_checksum (tx_frame { open_state with capabilities := 128 }
        { data := [3], tailroom := [0, 1, 0, 15, 0, 0, 0, 0, 0, 0, 0, 0, 0, 1, 0xAA] }).mem
      = 190 :=
  ⟨rfl,
   (write_packet_stores_checksum sample_cfg { open_state with capabilities := 128 }
      (write_packet sample_cfg { open_state with capabilities := 128 }
        (some { data := [3],
                tailroom := [0, 1, 0, 15, 0, 0, 0, 0, 0, 0, 0, 0, 0, 1, 0xAA] })).2
      { data := [3], tailroom := [0, 1, 0, 15, 0, 0, 0, 0, 0, 0, 0, 0, 0, 1, 0xAA] }
      (by decide) (by decide) (by decide)).2.2.2.2.2.2.1 (by decide) (by decide),
   by decide⟩

/-- C7, counterexample: with no checksum capability, `write_packet` accepts a Serial-class
frame whose checksum field holds 0x1234 and queues it with that field still 0x1234, not
zero. -/
theorem write_packet_checksum_disabled_not_zeroed :
    open_state.capabilities &&& ESP_CHECKSUM_ENABLED = 0 ∧
    (write_packet sample_cfg open_state
        (some { data := [2, 0, 1, 0, 12, 0, 0x34, 0x12, 0, 0, 0, 0, 0xAA] })).1 = 0 ∧
    (write_packet sample_cfg open_state
        (some { data := [2, 0, 1, 0, 12, 0, 0x34, 0x12, 0, 0, 0, 0, 0xAA] })).2.tx_q.serial
      = [{ data := [2, 0, 1, 0, 12, 0, 0x34, 0x12, 0, 0, 0, 0, 0xAA] }] ∧
    hdr_checksum [2, 0, 1, 0, 12, 0, 0x34, 0x12, 0, 0, 0, 0, 0xAA] = 0x1234 ∧
    hdr_checksum [2, 0, 1, 0, 12, 0, 0x34, 0x12, 0, 0, 0, 0, 0xAA] ≠ 0 := by
  decide

/-- C7, amended: when `ESP_CHECKSUM_ENABLED` is not among the capabilities, a frame accepted
by `write_packet` is queued exactly as it was passed in, so its checksum field keeps the
value it held (it is zero precisely when the caller passed zero). -/
theorem write_packet_checksum_disabled_keeps_frame (cfg : Config) (s s' : SpiState)
    (skb : SkBuff)
    (hcap : s.capabilities &&& ESP_CHECKSUM_ENABLED = 0)
    (hacc : write_packet cfg s (some skb) = (0, s')) :
    tx_frame s skb = skb ∧
    s'.tx_q = s.tx_q.enqueue (prio_of_if_type (hdr_if_type skb.data)) skb ∧
    hdr_checksum (tx_frame s skb).data = hdr_checksum skb.data ∧
    (hdr_checksum (tx_frame s skb).data = 0 ↔ hdr_checksum skb.data = 0) := by
  have hret : (write_packet cfg s (some skb)).1 = 0 := by rw [hacc]
  have hq := (write_packet_queues cfg s skb hret).1
  rw [hacc] at hq
  have hframe : tx_frame s skb = skb := by
    unfold tx_frame
    rw [if_neg (by simp [hcap])]
  rw [hframe] at hq ⊢
  exact ⟨rfl, hq, rfl, Iff.rfl⟩

/-- Witness of C7 (amended): the frame of the counterexample is queued unchanged. -/
theorem write_packet_checksum_disabled_keeps_frame_witness :
    tx_frame open_state (SkBuff.mk [2, 0, 1, 0, 12, 0, 0x34, 0x12, 0, 0, 0, 0, 0xAA] [])
      = SkBuff.mk [2, 0, 1, 0, 12, 0, 0x34, 0x12, 0, 0, 0, 0, 0xAA] [] ∧
    ({ open_state with
          tx_q := { serial := [{ data := [2, 0, 1, 0, 12, 0, 0x34, 0x12, 0, 0, 0, 0, 0xAA] }],
                    bt := [], others := [] }
          events := [Event.sem_up] } : SpiState).tx_q
      = open_state.tx_q.enqueue
          (prio_of_if_type (hdr_if_type
            (SkBuff.mk [2, 0, 1, 0, 12, 0, 0x34, 0x12, 0, 0, 0, 0, 0xAA] []).data))
          (SkBuff.mk [2, 0, 1, 0, 12, 0, 0x34, 0x12, 0, 0, 0, 0, 0xAA] []) ∧
    hdr_checksum (tx_frame open_state
        (SkBuff.mk [2, 0, 1, 0, 12, 0, 0x34, 0x12, 0, 0, 0, 0, 0xAA] [])).data
      = hdr_checksum (SkBuff.mk [2, 0, 1, 0, 12, 0, 0x34, 0x12, 0, 0, 0, 0, 0xAA] []).data ∧
    (hdr_checksum (tx_frame open_state
        (SkBuff.mk [2, 0, 1, 0, 12, 0, 0x34, 0x12, 0, 0, 0, 0, 0xAA] [])).data = 0
      ↔ hdr_checksum (SkBuff.mk [2, 0, 1, 0, 12, 0, 0x34, 0x12, 0, 0, 0, 0, 0xAA] []).data = 0) :=
  write_packet_checksum_disabled_keeps_frame sample_cfg open_state _
    (SkBuff.mk [2, 0, 1, 0, 12, 0, 0x34, 0x12, 0, 0, 0, 0, 0xAA] []) (by decide) (by decide)

/-- C9: a frame accepted by `write_packet` is appended, in the form `tx_frame s skb` (same
`if_type` as the frame passed in), at the tail of exactly one transmit queue: the Serial
queue for `ESP_SERIAL_IF`, the Control/BT queue for `ESP_HCI_IF`, the Other queue for
every other `if_type`; the other two transmit queues and the three receive queues are
unchanged. -/
theorem write_packet_enqueues_by_class (cfg : Config) (s s' : SpiState) (skb : SkBuff)
    (hacc : write_packet cfg s (some skb) = (0, s')) :
    hdr_if_type (tx_frame s skb).data = hdr_if_type skb.data ∧
    (hdr_if_type skb.data = ESP_SERIAL_IF →
      s'.tx_q.serial = s.tx_q.serial ++ [tx_frame s skb] ∧
      s'.tx_q.bt = s.tx_q.bt ∧ s'.tx_q.others = s.tx_q.others) ∧
    (hdr_if_type skb.data = ESP_HCI_IF →
      s'.tx_q.bt = s.tx_q.bt ++ [tx_frame s skb] ∧
      s'.tx_q.serial = s.tx_q.serial ∧ s'.tx_q.others = s.tx_q.others) ∧
    (hdr_if_type skb.data ≠ ESP_SERIAL_IF → hdr_if_type skb.data ≠ ESP_HCI_IF →
      s'.tx_q.others = s.tx_q.others ++ [tx_frame s skb] ∧
      s'.tx_q.serial = s.tx_q.serial ∧ s'.tx_q.bt = s.tx_q.bt) ∧
    s'.rx_q = s.rx_q := by
  have hret : (write_packet cfg s (some skb)).1 = 0 := by rw [hacc]
  obtain ⟨hq, hr⟩ := write_packet_queues cfg s skb hret
  rw [hacc] at hq hr
  refine ⟨hdr_if_type_tx_frame s skb, ?_, ?_, ?_, hr⟩
  · intro hs
    rw [hq]
    simp [PrioQueues.enqueue, prio_of_if_type, hs, skb_queue_tail]
  · intro hb
    rw [hq]
    simp [PrioQueues.enqueue, prio_of_if_type, hb, skb_queue_tail, ESP_HCI_IF, ESP_SERIAL_IF,
      PRIO_Q_BT, PRIO_Q_SERIAL]
  · intro hs hb
    rw [hq]
    simp [PrioQueues.enqueue, prio_of_if_type, hs, hb, skb_queue_tail, PRIO_Q_OTHERS,
      PRIO_Q_BT, PRIO_Q_SERIAL]

/-! ## Facts about `process_rx_buf` shared by several claims -/

theorem process_rx_buf_accept_iff (cfg : Config) (s : SpiState) (skb : SkBuff) :
    (process_rx_buf cfg s (some skb)).1 = 0 ↔
      hdr_if_type skb.data < ESP_MAX_IF ∧ hdr_len skb.data ≠ 0 ∧
      hdr_offset skb.data = HEADER_SIZE ∧
      (hdr_len skb.data + HEADER_SIZE) % U16_MOD ≤ cfg.SPI_BUF_SIZE ∧
      s.data_path = true := by
  unfold process_rx_buf
  by_cases h1 : hdr_if_type skb.data ≥ ESP_MAX_IF
  · simp [h1, EINVAL]
  · by_cases h2 : hdr_len skb.data = 0
    · simp [h1, h2, EINVAL]
    · by_cases h3 : hdr_offset skb.data = HEADER_SIZE
      · by_cases h4 : (hdr_len skb.data + HEADER_SIZE) % U16_MOD > cfg.SPI_BUF_SIZE
        · simp [h1, h2, h3, h4, EINVAL]
        · by_cases h5 : s.data_path = true
          · simp [h1, h2, h3, h4, h5]
            omega
          · simp [h1, h2, h3, h4, h5, EPERM]
      · simp [h1, h2, h3, EINVAL]

theorem byte_at_of_length_le (buf : List Byte) (i : Nat) (h : buf.length ≤ i) :
    byte_at buf i = 0 := by
  simp [byte_at, List.getD_eq_getElem?_getD, List.getElem?_eq_none h]

theorem byte_at_zero_checksum (buf : List Byte) (i : Nat) :
    byte_at (set_hdr_checksum buf 0) i = if i = 6 ∨ i = 7 then 0 else byte_at buf i := by
  unfold set_hdr_checksum set_le16
  rw [byte_at_set, byte_at_set]
  by_cases h6 : i = 6
  · subst h6
    by_cases hl : 6 < buf.length
    · simp [hl, to_byte]
    · simp [hl, byte_at_of_length_le buf 6 (by omega)]
  · by_cases h7 : i = 7
    · subst h7
      by_cases hl : 7 < buf.length
      · simp [hl, to_byte]
      · simp [hl, byte_at_of_length_le buf 7 (by omega)]
    · simp [h6, h7]

/-! ## Sums of buffers that differ in one octet -/

theorem index_sum_congr (a b : List Byte) (n : Nat)
    (h : ∀ i, i < n → byte_at a i = byte_at b i) : index_sum a n = index_sum b n := by
  induction n with
  | zero => rfl
  | succ n ih =>
    rw [index_sum_succ, index_sum_succ, ih (fun i hi => h i (by omega)), h n (by omega)]

theorem index_sum_differ_at (a b : List Byte) (j : Nat)
    (h : ∀ i, i ≠ j → byte_at a i = byte_at b i) :
    ∀ n, j < n → index_sum a n + byte_at b j = index_sum b n + byte_at a j := by
  intro n
  induction n with
  | zero => intro hj; omega
  | succ n ih =>
    intro hj
    rw [index_sum_succ, index_sum_succ]
    by_cases hjn : j = n
    · subst hjn
      rw [index_sum_congr a b j (fun i hi => h i (by omega))]
      omega
    · have := ih (by omega)
      rw [h n (fun hn => hjn hn.symm)]
      omega

theorem flip_bit_ne_fin : ∀ k : Fin 8, ∀ b : Byte, flip_bit b k.val ≠ b := by
  decide

theorem flip_bit_ne (b : Byte) (k : Nat) (hk : k < 8) : flip_bit b k ≠ b :=
  flip_bit_ne_fin ⟨k, hk⟩ b

theorem flip_bit_val_ne (b : Byte) (k : Nat) (hk : k < 8) : (flip_bit b k).val ≠ b.val :=
  fun h => flip_bit_ne b k hk (Fin.ext h)

/-- C5, counterexample: with `ESP_CHECKSUM_ENABLED` set, a received 1600-octet buffer whose
stored checksum 0x1234 differs from the recomputed sum 183 is accepted by `process_rx_buf`
(return value 0) and placed in the Other receive queue. -/
theorem process_rx_buf_accepts_bad_checksum :
    ({ open_state with capabilities := 128 } : SpiState).capabilities
        &&& ESP_CHECKSUM_ENABLED ≠ 0 ∧
    hdr_checksum (rx_buffer [0, 0, 1, 0, 12, 0, 0x34, 0x12, 0, 0, 0, 0, 0xAA]).data = 0x1234 ∧
    compute_checksum
        (set_hdr_checksum (rx_buffer [0, 0, 1, 0, 12, 0, 0x34, 0x12, 0, 0, 0, 0, 0xAA]).data 0)
        (hdr_len (rx_buffer [0, 0, 1, 0, 12, 0, 0x34, 0x12, 0, 0, 0, 0, 0xAA]).data
          + hdr_offset (rx_buffer [0, 0, 1, 0, 12, 0, 0x34, 0x12, 0, 0, 0, 0, 0xAA]).data)
      = 183 ∧
    (process_rx_buf sample_cfg { open_state with capabilities := 128 }
        (some (rx_buffer [0, 0, 1, 0, 12, 0, 0x34, 0x12, 0, 0, 0, 0, 0xAA]))).1 = 0 ∧
    (process_rx_buf sample_cfg { open_state with capabilities := 128 }
        (some (rx_buffer [0, 0, 1, 0, 12, 0, 0x34, 0x12, 0, 0, 0, 0, 0xAA]))).2.rx_q.others
      = [{ data := [0, 0, 1, 0, 12, 0, 0x34, 0x12, 0, 0, 0, 0, 0xAA] }] := by
  decide

/-- C6: take any frame that holds a whole header and store its checksum as `write_packet`
does. Inverting any one bit of any octet inside the summed region (so in particular of any
payload octet in it) gives a frame for which `compute_checksum` over the same region, with
the checksum field zeroed, differs from the checksum stored in the frame. For an octet
behind the header the fields `len`, `offset` and `checksum` of the damaged frame are those
of the encoded frame. -/
theorem checksum_detects_bit_flip (data : List Byte) (j k : Nat)
    (hhdr : HEADER_SIZE ≤ data.length)
    (hk : k < 8)
    (hj : j < data.length)
    (hreg : j < (hdr_len data + hdr_offset data) % U16_MOD) :
    compute_checksum (set_hdr_checksum (flip_bit_at (stamp_checksum data) j k) 0)
        (hdr_len (stamp_checksum data) + hdr_offset (stamp_checksum data))
      ≠ hdr_checksum (flip_bit_at (stamp_checksum data) j k) ∧
    (HEADER_SIZE ≤ j →
      hdr_len (flip_bit_at (stamp_checksum data) j k) = hdr_len (stamp_checksum data) ∧
      hdr_offset (flip_bit_at (stamp_checksum data) j k) = hdr_offset (stamp_checksum data) ∧
      hdr_checksum (flip_bit_at (stamp_checksum data) j k)
        = hdr_checksum (stamp_checksum data)) := by
  have hlen8 : 8 ≤ data.length := by
    unfold HEADER_SIZE at hhdr
    omega
  have hjenc : j < (stamp_checksum data).length := by
    rw [length_stamp_checksum]
    exact hj
  -- octets of the damaged frame
  have hbad : ∀ i, byte_at (flip_bit_at (stamp_checksum data) j k) i
      = if i = j then (flip_bit ((stamp_checksum data).getD j 0) k).val
        else byte_at (stamp_checksum data) i := by
    intro i
    unfold flip_bit_at
    rw [byte_at_set]
    simp [hjenc]
  have hflip : (flip_bit ((stamp_checksum data).getD j 0) k).val
      ≠ byte_at (stamp_checksum data) j :=
    flip_bit_val_ne _ k hk
  have hlt : (flip_bit ((stamp_checksum data).getD j 0) k).val < 256 := Fin.isLt _
  -- the header fields that fix the region are not touched by the stamping
  have hlen_enc : hdr_len (stamp_checksum data) = hdr_len data := by
    simp only [hdr_len, le16_at]
    rw [byte_at_stamp_checksum _ 2 (by decide) (by decide),
      byte_at_stamp_checksum _ 3 (by decide) (by decide)]
  have hoff_enc : hdr_offset (stamp_checksum data) = hdr_offset data := by
    simp only [hdr_offset, le16_at]
    rw [byte_at_stamp_checksum _ 4 (by decide) (by decide),
      byte_at_stamp_checksum _ 5 (by decide) (by decide)]
  have hstored : hdr_checksum (stamp_checksum data)
      = index_sum (set_hdr_checksum data 0) ((hdr_len data + hdr_offset data) % U16_MOD)
          % U16_MOD := by
    rw [hdr_checksum_stamp_checksum data hlen8, compute_checksum_eq_index_sum]
  constructor
  · rw [compute_checksum_eq_index_sum, hlen_enc, hoff_enc]
    by_cases h67 : j = 6 ∨ j = 7
    · -- the flipped octet belongs to the checksum field
      have hsame : index_sum (set_hdr_checksum (flip_bit_at (stamp_checksum data) j k) 0)
            ((hdr_len data + hdr_offset data) % U16_MOD)
          = index_sum (set_hdr_checksum data 0) ((hdr_len data + hdr_offset data) % U16_MOD) := by
        apply index_sum_congr
        intro i _
        rw [byte_at_zero_checksum, byte_at_zero_checksum]
        by_cases hi : i = 6 ∨ i = 7
        · simp [hi]
        · have hij : i ≠ j := by omega
          have hi6 : i ≠ 6 := by omega
          have hi7 : i ≠ 7 := by omega
          simp only [hi, if_false]
          rw [hbad i, if_neg hij, byte_at_stamp_checksum data i hi6 hi7]
      rw [hsame, ← hstored]
      have hb6 := byte_at_lt (stamp_checksum data) 6
      have hb7 := byte_at_lt (stamp_checksum data) 7
      have hck_bad : hdr_checksum (flip_bit_at (stamp_checksum data) j k)
          = byte_at (flip_bit_at (stamp_checksum data) j k) 6
            + 256 * byte_at (flip_bit_at (stamp_checksum data) j k) 7 := rfl
      have hck_enc : hdr_checksum (stamp_checksum data)
          = byte_at (stamp_checksum data) 6 + 256 * byte_at (stamp_checksum data) 7 := rfl
      rw [hck_bad, hck_enc]
      rcases h67 with h | h
      · subst h
        rw [hbad 6, hbad 7, if_pos rfl, if_neg (by decide)]
        omega
      · subst h
        rw [hbad 6, hbad 7, if_pos rfl, if_neg (by decide)]
        omega
    · -- the flipped octet is outside the checksum field
      have hj6 : j ≠ 6 := by omega
      have hj7 : j ≠ 7 := by omega
      have hck : hdr_checksum (flip_bit_at (stamp_checksum data) j k)
          = hdr_checksum (stamp_checksum data) := by
        simp only [hdr_checksum, le16_at]
        rw [hbad 6, hbad 7, if_neg (Ne.symm hj6), if_neg (Ne.symm hj7)]
      rw [hck, hstored]
      have hdiff := index_sum_differ_at
        (set_hdr_checksum (flip_bit_at (stamp_checksum data) j k) 0)
        (set_hdr_checksum data 0) j
        (by
          intro i hij
          rw [byte_at_zero_checksum, byte_at_zero_checksum]
          by_cases hi : i = 6 ∨ i = 7
          · simp [hi]
          · have hi6 : i ≠ 6 := by omega
            have hi7 : i ≠ 7 := by omega
            simp only [hi, if_false]
            rw [hbad i, if_neg hij, byte_at_stamp_checksum data i hi6 hi7])
        _ hreg
      rw [byte_at_zero_checksum, byte_at_zero_checksum, if_neg h67, if_neg h67, hbad j,
        if_pos rfl] at hdiff
      have henc := byte_at_stamp_checksum data j hj6 hj7
      have hb := byte_at_lt data j
      rw [henc] at hflip
      unfold U16_MOD at hdiff ⊢
      omega
  · intro hpay
    unfold HEADER_SIZE at hpay
    simp only [hdr_len, hdr_offset, hdr_checksum, le16_at]
    rw [hbad 2, hbad 3, hbad 4, hbad 5, hbad 6, hbad 7]
    rw [if_neg (by omega), if_neg (by omega), if_neg (by omega), if_neg (by omega),
      if_neg (by omega), if_neg (by omega)]
    exact ⟨rfl, rfl, rfl⟩

/-! ## Facts about `esp_bt_send_frame` -/

theorem byte_at_memset_zero (buf : List Byte) (n i : Nat) (h : n ≤ buf.length) :
    byte_at (memset_zero buf n) i = if i < n then 0 else byte_at buf i := by
  unfold memset_zero byte_at
  rw [Nat.min_eq_left h]
  by_cases hi : i < n
  · simp [hi, List.getD_eq_getElem?_getD, List.getElem?_append_left, List.getElem?_replicate]
  · simp [hi, List.getD_eq_getElem?_getD]
    rw [List.getElem?_append_right (by simp; omega)]
    simp
    have hni : n + (i - n) = i := by omega
    rw [hni]

theorem length_memset_zero (buf : List Byte) (n : Nat) (h : n ≤ buf.length) :
    (memset_zero buf n).length = buf.length := by
  unfold memset_zero
  rw [Nat.min_eq_left h]
  simp
  omega

theorem esp_bt_pad_len_eq (cfg : Config) (len : Nat)
    (hA : 0 < cfg.SKB_DATA_ADDR_ALIGNMENT)
    (hA2 : cfg.SKB_DATA_ADDR_ALIGNMENT + HEADER_SIZE < 256) :
    esp_bt_pad_len cfg len
        = HEADER_SIZE + (cfg.SKB_DATA_ADDR_ALIGNMENT
            - (len + HEADER_SIZE) % cfg.SKB_DATA_ADDR_ALIGNMENT) ∧
    HEADER_SIZE < esp_bt_pad_len cfg len ∧ esp_bt_pad_len cfg len < 256 := by
  have hmod : (len + HEADER_SIZE) % cfg.SKB_DATA_ADDR_ALIGNMENT < cfg.SKB_DATA_ADDR_ALIGNMENT :=
    Nat.mod_lt _ hA
  have hlt : HEADER_SIZE + (cfg.SKB_DATA_ADDR_ALIGNMENT
      - (len + HEADER_SIZE) % cfg.SKB_DATA_ADDR_ALIGNMENT) < 256 := by omega
  have heq : esp_bt_pad_len cfg len
      = HEADER_SIZE + (cfg.SKB_DATA_ADDR_ALIGNMENT
          - (len + HEADER_SIZE) % cfg.SKB_DATA_ADDR_ALIGNMENT) := by
    unfold esp_bt_pad_len
    exact Nat.mod_eq_of_lt hlt
  refine ⟨heq, ?_, ?_⟩
  · rw [heq]; omega
  · rw [heq]; exact hlt

theorem byte_at_esp_bt_frame (headroom : List Byte) (pkt_type : Byte) (payload : List Byte)
    (pad_len : Nat) (hp : HEADER_SIZE < pad_len) :
    byte_at (esp_bt_frame headroom pkt_type payload pad_len) 0 = ESP_HCI_IF ∧
    byte_at (esp_bt_frame headroom pkt_type payload pad_len) 1 = 0 ∧
    byte_at (esp_bt_frame headroom pkt_type payload pad_len) 2 = payload.length % 256 ∧
    byte_at (esp_bt_frame headroom pkt_type payload pad_len) 3 = payload.length / 256 % 256 ∧
    byte_at (esp_bt_frame headroom pkt_type payload pad_len) 4 = pad_len % 256 ∧
    byte_at (esp_bt_frame headroom pkt_type payload pad_len) 5 = pad_len / 256 % 256 := by
  have hpushed : HEADER_SIZE ≤
      ((List.range pad_len).map (fun i => headroom.getD i 0) ++ payload).length := by
    simp
    omega
  have hL := length_memset_zero _ HEADER_SIZE hpushed
  have hz := fun i => byte_at_memset_zero _ HEADER_SIZE i hpushed
  simp only [HEADER_SIZE] at hp hpushed hL hz
  have hlen : ((List.range pad_len).map (fun i => headroom.getD i 0) ++ payload).length
      = pad_len + payload.length := by simp
  have e0 : ¬ (0 = pad_len - 1) := by omega
  have e1 : ¬ (1 = pad_len - 1) := by omega
  have e2 : ¬ (2 = pad_len - 1) := by omega
  have e3 : ¬ (3 = pad_len - 1) := by omega
  have e4 : ¬ (4 = pad_len - 1) := by omega
  have e5 : ¬ (5 = pad_len - 1) := by omega
  have l0 : 0 < pad_len + payload.length := by omega
  have l2 : 2 < pad_len + payload.length := by omega
  have l3 : 3 < pad_len + payload.length := by omega
  have l4 : 4 < pad_len + payload.length := by omega
  have l5 : 5 < pad_len + payload.length := by omega
  simp only [esp_bt_frame, set_le16, set_hdr_if_num, set_hdr_if_type, byte_at_set,
    List.length_set, HEADER_SIZE, hL, hz, hlen]
  refine ⟨?_, ?_, ?_, ?_, ?_, ?_⟩
  · simp [to_byte, ESP_HCI_IF, e0, l0]
    rfl
  · simp [e1]
  · simp [to_byte, e2, l2]
  · simp [to_byte, e3, l3]
  · simp [to_byte, e4, l4]
  · simp [to_byte, e5, l5]

theorem length_esp_bt_frame (headroom : List Byte) (pkt_type : Byte) (payload : List Byte)
    (pad_len : Nat) (hp : HEADER_SIZE < pad_len) :
    (esp_bt_frame headroom pkt_type payload pad_len).length = pad_len + payload.length := by
  have hpushed : HEADER_SIZE ≤
      ((List.range pad_len).map (fun i => headroom.getD i 0) ++ payload).length := by
    simp
    omega
  simp only [esp_bt_frame, set_le16, set_hdr_if_num, set_hdr_if_type, List.length_set]
  rw [length_memset_zero _ HEADER_SIZE hpushed]
  simp

theorem byte_at_append_left (a rest : List Byte) (i : Nat) (h : i < a.length) :
    byte_at (a ++ rest) i = byte_at a i := by
  simp [byte_at, List.getD_eq_getElem?_getD, List.getElem?_append_left h]

/-- C8, amended: for a configuration with `0 < SKB_DATA_ADDR_ALIGNMENT` and
`SKB_DATA_ADDR_ALIGNMENT + 12 < 256`, and every HCI payload of 1 to `SPI_BUF_SIZE - 12`
octets, `esp_bt_send_frame` hands on a frame (all that it wrote in the `skb_push` branch,
the first `len` octets of it, followed in memory by the rest, in the reallocation branch)
in which the header it wrote has
`offset` equal to the header size plus the alignment pad
`SKB_DATA_ADDR_ALIGNMENT - ((len + 12) mod SKB_DATA_ADDR_ALIGNMENT)`, so strictly more than
the header size; the header reads back as `if_type = ESP_HCI_IF`, `if_num = 0`,
`flags = 0`, `len` = payload length; and the header checks of `process_rx_buf` reject
every buffer that starts with the written octets, with `-EINVAL` and no change of state. -/
theorem esp_bt_send_frame_header (cfg : Config) (s : SpiState) (realloc_skb : Bool)
    (headroom : List Byte) (pkt_type : Byte) (payload : List Byte)
    (hA : 0 < cfg.SKB_DATA_ADDR_ALIGNMENT)
    (hA2 : cfg.SKB_DATA_ADDR_ALIGNMENT + HEADER_SIZE < 256)
    (hbuf : cfg.SPI_BUF_SIZE < U16_MOD)
    (h1 : 1 ≤ payload.length)
    (h2 : payload.length + HEADER_SIZE ≤ cfg.SPI_BUF_SIZE) :
    ∃ written : List Byte,
      written = esp_bt_frame headroom pkt_type payload (esp_bt_pad_len cfg payload.length) ∧
      esp_bt_send_frame cfg realloc_skb headroom pkt_type payload
        = Except.ok
            (if realloc_skb then
              { data := written.take payload.length, tailroom := written.drop payload.length }
             else { data := written }) ∧
      hdr_offset written
        = HEADER_SIZE + (cfg.SKB_DATA_ADDR_ALIGNMENT
            - (payload.length + HEADER_SIZE) % cfg.SKB_DATA_ADDR_ALIGNMENT) ∧
      HEADER_SIZE < hdr_offset written ∧
      hdr_if_type written = ESP_HCI_IF ∧
      hdr_if_num written = 0 ∧
      hdr_flags written = 0 ∧
      hdr_len written = payload.length ∧
      ∀ rest : List Byte,
        process_rx_buf cfg s (some (SkBuff.mk (written ++ rest) [])) = (-EINVAL, s) := by
  obtain ⟨hpad, hpadgt, hpadlt⟩ := esp_bt_pad_len_eq cfg payload.length hA hA2
  have hne : payload.length ≠ 0 := by omega
  have hlen16 : payload.length < 65536 := by
    unfold U16_MOD at hbuf
    omega
  obtain ⟨b0, b1, b2, b3, b4, b5⟩ :=
    byte_at_esp_bt_frame headroom pkt_type payload _ hpadgt
  have hlength := length_esp_bt_frame headroom pkt_type payload _ hpadgt
  have hsend : esp_bt_send_frame cfg realloc_skb headroom pkt_type payload
      = Except.ok
          (if realloc_skb then
            { data := (esp_bt_frame headroom pkt_type payload
                (esp_bt_pad_len cfg payload.length)).take payload.length,
              tailroom := (esp_bt_frame headroom pkt_type payload
                (esp_bt_pad_len cfg payload.length)).drop payload.length }
           else
            { data := (esp_bt_frame headroom pkt_type payload
                (esp_bt_pad_len cfg payload.length)) }) := by
    unfold esp_bt_send_frame
    simp only [hne, if_false]
  generalize esp_bt_frame headroom pkt_type payload (esp_bt_pad_len cfg payload.length) = frame
    at b0 b1 b2 b3 b4 b5 hsend hlength
  have hoff : hdr_offset frame = esp_bt_pad_len cfg payload.length := by
    simp only [hdr_offset, le16_at]
    rw [b4, b5]
    omega
  have hlenf : hdr_len frame = payload.length := by
    simp only [hdr_len, le16_at]
    rw [b2, b3]
    omega
  have hgt : HEADER_SIZE < hdr_offset frame := by
    rw [hoff]
    exact hpadgt
  have htype : hdr_if_type frame = ESP_HCI_IF := by
    simp only [hdr_if_type]
    rw [b0]
    rfl
  have hnum : hdr_if_num frame = 0 := by
    simp only [hdr_if_num]
    rw [b0]
    rfl
  have hflags : hdr_flags frame = 0 := by
    simp only [hdr_flags]
    rw [b1]
  have hrej : ∀ rest : List Byte,
      process_rx_buf cfg s (some (SkBuff.mk (frame ++ rest) [])) = (-EINVAL, s) := by
    intro rest
    have hl4 : 4 < frame.length := by
      unfold HEADER_SIZE at hpadgt
      omega
    have hl5 : 5 < frame.length := by
      unfold HEADER_SIZE at hpadgt
      omega
    have hoff2 : hdr_offset (frame ++ rest) = hdr_offset frame := by
      simp only [hdr_offset, le16_at]
      rw [byte_at_append_left frame rest 4 hl4, byte_at_append_left frame rest 5 hl5]
    have hneq : hdr_offset (SkBuff.mk (frame ++ rest) []).data ≠ HEADER_SIZE := by
      show hdr_offset (frame ++ rest) ≠ HEADER_SIZE
      rw [hoff2]
      exact fun h => absurd hgt (by rw [h]; exact Nat.lt_irrefl _)
    exact process_rx_buf_rejects_malformed_state cfg s (SkBuff.mk (frame ++ rest) [])
      (Or.inr (Or.inr hneq))
  exact ⟨frame, rfl, hsend, hoff.trans hpad, hgt, htype, hnum, hflags, hlenf, hrej⟩

/-- Witness of C8 (amended): a one-octet HCI payload with the sample configuration, in the
`skb_push` branch. -/
theorem esp_bt_send_frame_header_witness :
    ∃ written : List Byte,
      written = esp_bt_frame [] 1 [0xAA]
        (esp_bt_pad_len sample_cfg ([0xAA] : List Byte).length) ∧
      esp_bt_send_frame sample_cfg false [] 1 [0xAA]
        = Except.ok
            (if false = true then
              { data := written.take ([0xAA] : List Byte).length,
                tailroom := written.drop ([0xAA] : List Byte).length }
             else { data := written }) ∧
      hdr_offset written
        = HEADER_SIZE + (sample_cfg.SKB_DATA_ADDR_ALIGNMENT
            - (([0xAA] : List Byte).length + HEADER_SIZE) % sample_cfg.SKB_DATA_ADDR_ALIGNMENT) ∧
      HEADER_SIZE < hdr_offset written ∧
      hdr_if_type written = ESP_HCI_IF ∧
      hdr_if_num written = 0 ∧
      hdr_flags written = 0 ∧
      hdr_len written = ([0xAA] : List Byte).length ∧
      ∀ rest : List Byte,
        process_rx_buf sample_cfg open_state (some (SkBuff.mk (written ++ rest) []))
          = (-EINVAL, open_state) :=
  esp_bt_send_frame_header sample_cfg open_state false [] 1 [0xAA]
    (by decide) (by decide) (by decide) (by decide) (by decide)

/-- C8, counterexample: for the one-octet HCI payload `AA` of packet type 1 and an alignment
of 4, `esp_bt_send_frame` (in the `skb_push` branch) builds the 16-octet frame
`sample_hci_frame`, whose `offset` is 15 and not the header size 12, and `process_rx_buf`
rejects the 1600-octet buffer that starts with that frame with `-EINVAL`. -/
theorem esp_bt_send_frame_offset_not_header_size :
    esp_bt_send_frame sample_cfg false [] 1 [0xAA] = Except.ok { data := sample_hci_frame } ∧
    hdr_offset sample_hci_frame = 15 ∧
    hdr_offset sample_hci_frame ≠ HEADER_SIZE ∧
    (process_rx_buf sample_cfg open_state (some (rx_buffer sample_hci_frame))).1 = -EINVAL ∧
    (process_rx_buf sample_cfg open_state (some (rx_buffer sample_hci_frame))).1 ≠ 0 :=
  ⟨rfl, by decide, by decide, by decide, by decide⟩

/-- Witness of C6: bit 0 of the first payload octet of a 14-octet Serial frame. -/
theorem checksum_detects_bit_flip_witness :
    compute_checksum (set_hdr_checksum (flip_bit_at (stamp_checksum sample_serial_frame) 12 0) 0)
        (hdr_len (stamp_checksum sample_serial_frame)
          + hdr_offset (stamp_checksum sample_serial_frame))
      ≠ hdr_checksum (flip_bit_at (stamp_checksum sample_serial_frame) 12 0) ∧
    (HEADER_SIZE ≤ 12 →
      hdr_len (flip_bit_at (stamp_checksum sample_serial_frame) 12 0)
        = hdr_len (stamp_checksum sample_serial_frame) ∧
      hdr_offset (flip_bit_at (stamp_checksum sample_serial_frame) 12 0)
        = hdr_offset (stamp_checksum sample_serial_frame) ∧
      hdr_checksum (flip_bit_at (stamp_checksum sample_serial_frame) 12 0)
        = hdr_checksum (stamp_checksum sample_serial_frame)) :=
  checksum_detects_bit_flip sample_serial_frame 12 0 (by decide) (by decide) (by decide)
    (by decide)

/-- Witness of C9: an Other-class frame written to the open, empty state. -/
theorem write_packet_enqueues_by_class_witness :
    write_packet sample_cfg open_state (some { data := sample_sta_frame })
      = (0, { open_state with
                tx_q := { serial := [], bt := [], others := [{ data := sample_sta_frame }] }
                tx_pending := 1
                events := [Event.sem_up] }) ∧
    ({ open_state with
          tx_q := { serial := [], bt := [], others := [{ data := sample_sta_frame }] }
          tx_pending := 1
          events := [Event.sem_up] } : SpiState).tx_q.others
      = open_state.tx_q.others ++ [tx_frame open_state { data := sample_sta_frame }] ∧
    ({ open_state with
          tx_q := { serial := [], bt := [], others := [{ data := sample_sta_frame }] }
          tx_pending := 1
          events := [Event.sem_up] } : SpiState).rx_q = open_state.rx_q :=
  ⟨by decide,
    ((write_packet_enqueues_by_class sample_cfg open_state _ { data := sample_sta_frame }
      (by decide)).2.2.2.1 (by decide) (by decide)).1,
    (write_packet_enqueues_by_class sample_cfg open_state _ { data := sample_sta_frame }
      (by decide)).2.2.2.2⟩

/-! ## Facts about the queues shared by several claims -/

theorem write_packet_keeps (cfg : Config) (s : SpiState) (skb : Option SkBuff) :
    (write_packet cfg s skb).2.data_path = s.data_path ∧
    (write_packet cfg s skb).2.capabilities = s.capabilities ∧
    (write_packet cfg s skb).2.esp_spi_dev = s.esp_spi_dev ∧
    (write_packet cfg s skb).2.rx_q = s.rx_q := by
  unfold write_packet
  cases skb with
  | none => simp
  | some skb =>
    simp only
    split_ifs <;> simp

theorem process_rx_buf_keeps (cfg : Config) (s : SpiState) (skb : Option SkBuff) :
    (process_rx_buf cfg s skb).2.data_path = s.data_path ∧
    (process_rx_buf cfg s skb).2.capabilities = s.capabilities ∧
    (process_rx_buf cfg s skb).2.esp_spi_dev = s.esp_spi_dev ∧
    (process_rx_buf cfg s skb).2.tx_q = s.tx_q ∧
    (process_rx_buf cfg s skb).2.tx_pending = s.tx_pending ∧
    (∀ e, e ∈ s.events → e ∈ (process_rx_buf cfg s skb).2.events) := by
  unfold process_rx_buf
  cases skb with
  | none => simp
  | some skb =>
    simp only
    split_ifs <;> simp
    intro e he
    exact Or.inl he

theorem process_rx_buf_queues (cfg : Config) (s : SpiState) (skb : SkBuff)
    (hacc : (process_rx_buf cfg s (some skb)).1 = 0) :
    (process_rx_buf cfg s (some skb)).2.rx_q
      = s.rx_q.enqueue (prio_of_if_type (hdr_if_type skb.data))
          (skb_trim skb ((hdr_len skb.data + HEADER_SIZE) % U16_MOD)) := by
  obtain ⟨h1, h2, h3, h4, h5⟩ := (process_rx_buf_accept_iff cfg s skb).1 hacc
  have h1n : ¬ hdr_if_type skb.data ≥ ESP_MAX_IF := by omega
  have h4n : ¬ (hdr_len skb.data + HEADER_SIZE) % U16_MOD > cfg.SPI_BUF_SIZE := by omega
  unfold process_rx_buf
  simp [h1n, h2, h3, h4n, h5]

theorem tx_frame_congr (s1 s2 : SpiState) (h : s1.capabilities = s2.capabilities)
    (f : SkBuff) : tx_frame s1 f = tx_frame s2 f := by
  unfold tx_frame
  rw [h]

theorem write_packets_tx_q (cfg : Config) :
    ∀ (fs : List SkBuff) (s : SpiState), s.data_path = true →
      (∀ f ∈ fs, f.len ≠ 0 ∧ f.len ≤ cfg.SPI_BUF_SIZE) →
      (write_packets cfg s fs).tx_q
          = fs.foldl (fun q f => q.enqueue (prio_of_if_type (hdr_if_type f.data)) (tx_frame s f))
              s.tx_q ∧
      (write_packets cfg s fs).data_path = true := by
  intro fs
  induction fs with
  | nil => intro s hd _; exact ⟨rfl, hd⟩
  | cons f fs ih =>
    intro s hd hok
    obtain ⟨hf0, hf1⟩ := hok f (List.mem_cons_self f fs)
    have hacc : (write_packet cfg s (some f)).1 = 0 :=
      (write_packet_accept_iff cfg s f).2 ⟨hf0, hf1, hd⟩
    obtain ⟨kd, kc, _, _⟩ := write_packet_keeps cfg s (some f)
    have hq := (write_packet_queues cfg s f hacc).1
    have hrec := ih (write_packet cfg s (some f)).2 (by rw [kd]; exact hd)
      (fun g hg => hok g (List.mem_cons_of_mem f hg))
    have hfun : (fun (q : PrioQueues) (g : SkBuff) =>
          q.enqueue (prio_of_if_type (hdr_if_type g.data))
            (tx_frame (write_packet cfg s (some f)).2 g))
        = (fun (q : PrioQueues) (g : SkBuff) =>
          q.enqueue (prio_of_if_type (hdr_if_type g.data)) (tx_frame s g)) := by
      funext q g
      rw [tx_frame_congr _ s kc g]
    rw [hfun, hq] at hrec
    exact ⟨hrec.1, hrec.2⟩

theorem process_rx_bufs_rx_q (cfg : Config) :
    ∀ (bs : List SkBuff) (s : SpiState), s.data_path = true →
      (∀ b ∈ bs, hdr_if_type b.data < ESP_MAX_IF ∧ hdr_len b.data ≠ 0 ∧
        hdr_offset b.data = HEADER_SIZE ∧
        (hdr_len b.data + HEADER_SIZE) % U16_MOD ≤ cfg.SPI_BUF_SIZE) →
      (process_rx_bufs cfg s bs).rx_q
          = bs.foldl (fun q b => q.enqueue (prio_of_if_type (hdr_if_type b.data))
              (skb_trim b ((hdr_len b.data + HEADER_SIZE) % U16_MOD))) s.rx_q ∧
      (process_rx_bufs cfg s bs).data_path = true ∧
      (process_rx_bufs cfg s bs).esp_spi_dev = s.esp_spi_dev := by
  intro bs
  induction bs with
  | nil => intro s hd _; exact ⟨rfl, hd, rfl⟩
  | cons b bs ih =>
    intro s hd hok
    obtain ⟨h1, h2, h3, h4⟩ := hok b (List.mem_cons_self b bs)
    have hacc : (process_rx_buf cfg s (some b)).1 = 0 :=
      (process_rx_buf_accept_iff cfg s b).2 ⟨h1, h2, h3, h4, hd⟩
    obtain ⟨kd, _, ke, _, _, _⟩ := process_rx_buf_keeps cfg s (some b)
    have hq := process_rx_buf_queues cfg s b hacc
    have hrec := ih (process_rx_buf cfg s (some b)).2 (by rw [kd]; exact hd)
      (fun g hg => hok g (List.mem_cons_of_mem b hg))
    rw [hq, ke] at hrec
    exact hrec

theorem esp_spi_transaction_dequeue_open (cfg : Config) (s : SpiState)
    (hd : s.data_path = true) :
    (esp_spi_transaction_dequeue cfg s).1 = s.tx_q.dequeue.1 ∧
    (esp_spi_transaction_dequeue cfg s).2.tx_q = s.tx_q.dequeue.2 ∧
    (esp_spi_transaction_dequeue cfg s).2.data_path = true ∧
    (esp_spi_transaction_dequeue cfg s).2.rx_q = s.rx_q := by
  unfold esp_spi_transaction_dequeue
  simp only [hd, if_true]
  split_ifs <;> simp [hd]

theorem tx_dequeues_eq_drain (cfg : Config) :
    ∀ (n : Nat) (s : SpiState), s.data_path = true → tx_dequeues cfg s n = s.tx_q.drain n := by
  intro n
  induction n with
  | zero => intro s _; rfl
  | succ n ih =>
    intro s hd
    obtain ⟨h1, h2, h3, _⟩ := esp_spi_transaction_dequeue_open cfg s hd
    simp only [tx_dequeues, PrioQueues.drain]
    rw [h1, ih _ h3, h2]

theorem read_packet_open (s : SpiState) (hd : s.data_path = true)
    (he : s.esp_spi_dev = true) :
    read_packet s = (s.rx_q.dequeue.1, { s with rx_q := s.rx_q.dequeue.2 }) := by
  unfold read_packet
  simp [hd, he]

theorem read_packets_eq_drain :
    ∀ (n : Nat) (s : SpiState), s.data_path = true → s.esp_spi_dev = true →
      read_packets s n = s.rx_q.drain n := by
  intro n
  induction n with
  | zero => intro s _ _; rfl
  | succ n ih =>
    intro s hd he
    simp only [read_packets, PrioQueues.drain]
    rw [read_packet_open s hd he]
    show s.rx_q.dequeue.1 :: read_packets { s with rx_q := s.rx_q.dequeue.2 } n = _
    rw [ih { s with rx_q := s.rx_q.dequeue.2 } hd he]

theorem drain_serial_other_control (g1 g2 g3 g4 g5 : SkBuff) :
    PrioQueues.drain { serial := [g1, g5], bt := [g3], others := [g2, g4] } 6
      = [some g1, some g5, some g3, some g2, some g4, none] := by
  rfl

theorem enqueue_serial_other_control (x1 x2 x3 x4 x5 : SkBuff) (t1 t2 t3 t4 t5 : Nat)
    (h1 : t1 = ESP_SERIAL_IF) (h2 : t2 ≠ ESP_SERIAL_IF ∧ t2 ≠ ESP_HCI_IF)
    (h3 : t3 = ESP_HCI_IF) (h4 : t4 ≠ ESP_SERIAL_IF ∧ t4 ≠ ESP_HCI_IF)
    (h5 : t5 = ESP_SERIAL_IF) :
    (((((PrioQueues.empty.enqueue (prio_of_if_type t1) x1).enqueue (prio_of_if_type t2) x2).enqueue
        (prio_of_if_type t3) x3).enqueue (prio_of_if_type t4) x4).enqueue
        (prio_of_if_type t5) x5)
      = { serial := [x1, x5], bt := [x3], others := [x2, x4] } := by
  have p2 : prio_of_if_type t2 = PRIO_Q_OTHERS := by
    unfold prio_of_if_type
    rw [if_neg h2.1, if_neg h2.2]
  have p4 : prio_of_if_type t4 = PRIO_Q_OTHERS := by
    unfold prio_of_if_type
    rw [if_neg h4.1, if_neg h4.2]
  subst h1 h3 h5
  rw [p2, p4]
  rfl

theorem process_rx_buf_tx_q (cfg : Config) (s : SpiState) (skb : Option SkBuff) :
    (process_rx_buf cfg s skb).2.tx_q = s.tx_q :=
  (process_rx_buf_keeps cfg s skb).2.2.2.1

theorem process_rx_buf_events_mem (cfg : Config) (s : SpiState) (skb : Option SkBuff)
    (e : Event) (he : e ∈ s.events) : e ∈ (process_rx_buf cfg s skb).2.events :=
  (process_rx_buf_keeps cfg s skb).2.2.2.2.2 e he

theorem esp_spi_transaction_tx (cfg : Config) (s : SpiState) (hw : SpiHw)
    (hd : s.data_path = true) (hh : hw.handshake = true) :
    (esp_spi_transaction cfg s hw).tx_q = s.tx_q.dequeue.2 ∧
    ∀ f, s.tx_q.dequeue.1 = some f →
      Event.spi_sync_transfer f.data cfg.SPI_BUF_SIZE ∈ (esp_spi_transaction cfg s hw).events := by
  obtain ⟨h1, h2, _, _⟩ := esp_spi_transaction_dequeue_open cfg s hd
  unfold esp_spi_transaction
  simp only [hh, Bool.not_true, Bool.false_eq_true, if_false]
  rw [h1]
  constructor
  · split_ifs <;> simp only [process_rx_buf_tx_q, h2]
  · intro f hf
    rw [hf]
    simp only [Option.isNone_some, Bool.and_false, Bool.false_eq_true, if_false]
    split_ifs <;>
      first
        | exact List.mem_append_right _ (List.mem_singleton.2 rfl)
        | exact process_rx_buf_events_mem _ _ _ _
            (List.mem_append_right _ (List.mem_singleton.2 rfl))
        | exact List.mem_append_left _ (process_rx_buf_events_mem _ _ _ _
            (List.mem_append_right _ (List.mem_singleton.2 rfl)))

theorem dequeue_law (q : PrioQueues) :
    q.dequeue.1
        = (if q.serial ≠ [] then q.serial.head?
           else if q.bt ≠ [] then q.bt.head? else q.others.head?) ∧
    q.dequeue.2
        = (if q.serial ≠ [] then { q with serial := q.serial.tail }
           else if q.bt ≠ [] then { q with bt := q.bt.tail }
           else { q with others := q.others.tail }) := by
  obtain ⟨qs, qb, qo⟩ := q
  cases qs with
  | cons x r => simp [PrioQueues.dequeue, skb_dequeue]
  | nil =>
    cases qb with
    | cons x r => simp [PrioQueues.dequeue, skb_dequeue]
    | nil =>
      cases qo with
      | cons x r => simp [PrioQueues.dequeue, skb_dequeue]
      | nil => simp [PrioQueues.dequeue, skb_dequeue]

/-- C10: the dequeue cascade is strict priority with FIFO inside a class. For every queue
set it yields the head of the Serial queue if that queue is not empty, else the head of
the Control/BT queue if that is not empty, else the head of the Other queue, else nothing,
and removes just that frame. `read_packet` (data path open, device present) returns exactly
this for the receive queues, and the transmit dequeue of `esp_spi_transaction` (data path
open, handshake asserted) takes exactly this from the transmit queues and hands it to the
transfer. Consequently five frames of classes Serial, Other, Control, Other, Serial
enqueued by `write_packet` (or received through `process_rx_buf`) into empty queues come
out of six successive dequeues in the order first, fifth, third, second, fourth, and then
nothing. -/
theorem strict_priority_dequeue :
    (∀ q : PrioQueues,
      q.dequeue.1
          = (if q.serial ≠ [] then q.serial.head?
             else if q.bt ≠ [] then q.bt.head? else q.others.head?) ∧
      q.dequeue.2
          = (if q.serial ≠ [] then { q with serial := q.serial.tail }
             else if q.bt ≠ [] then { q with bt := q.bt.tail }
             else { q with others := q.others.tail })) ∧
    (∀ s : SpiState, s.data_path = true → s.esp_spi_dev = true →
      read_packet s = (s.rx_q.dequeue.1, { s with rx_q := s.rx_q.dequeue.2 })) ∧
    (∀ (cfg : Config) (s : SpiState) (hw : SpiHw), s.data_path = true → hw.handshake = true →
      (esp_spi_transaction_dequeue cfg s).1 = s.tx_q.dequeue.1 ∧
      (esp_spi_transaction_dequeue cfg s).2.tx_q = s.tx_q.dequeue.2 ∧
      (esp_spi_transaction cfg s hw).tx_q = s.tx_q.dequeue.2 ∧
      ∀ f, s.tx_q.dequeue.1 = some f →
        Event.spi_sync_transfer f.data cfg.SPI_BUF_SIZE
          ∈ (esp_spi_transaction cfg s hw).events) ∧
    (∀ (cfg : Config) (s : SpiState) (f1 f2 f3 f4 f5 : SkBuff),
      s.data_path = true → s.tx_q = PrioQueues.empty →
      (∀ f ∈ [f1, f2, f3, f4, f5], f.len ≠ 0 ∧ f.len ≤ cfg.SPI_BUF_SIZE) →
      hdr_if_type f1.data = ESP_SERIAL_IF →
      (hdr_if_type f2.data ≠ ESP_SERIAL_IF ∧ hdr_if_type f2.data ≠ ESP_HCI_IF) →
      hdr_if_type f3.data = ESP_HCI_IF →
      (hdr_if_type f4.data ≠ ESP_SERIAL_IF ∧ hdr_if_type f4.data ≠ ESP_HCI_IF) →
      hdr_if_type f5.data = ESP_SERIAL_IF →
      tx_dequeues cfg (write_packets cfg s [f1, f2, f3, f4, f5]) 6
        = [some (tx_frame s f1), some (tx_frame s f5), some (tx_frame s f3),
            some (tx_frame s f2), some (tx_frame s f4), none]) ∧
    (∀ (cfg : Config) (s : SpiState) (b1 b2 b3 b4 b5 : SkBuff),
      s.data_path = true → s.esp_spi_dev = true → s.rx_q = PrioQueues.empty →
      (∀ b ∈ [b1, b2, b3, b4, b5], hdr_if_type b.data < ESP_MAX_IF ∧ hdr_len b.data ≠ 0 ∧
        hdr_offset b.data = HEADER_SIZE ∧
        (hdr_len b.data + HEADER_SIZE) % U16_MOD ≤ cfg.SPI_BUF_SIZE) →
      hdr_if_type b1.data = ESP_SERIAL_IF →
      (hdr_if_type b2.data ≠ ESP_SERIAL_IF ∧ hdr_if_type b2.data ≠ ESP_HCI_IF) →
      hdr_if_type b3.data = ESP_HCI_IF →
      (hdr_if_type b4.data ≠ ESP_SERIAL_IF ∧ hdr_if_type b4.data ≠ ESP_HCI_IF) →
      hdr_if_type b5.data = ESP_SERIAL_IF →
      read_packets (process_rx_bufs cfg s [b1, b2, b3, b4, b5]) 6
        = [some (skb_trim b1 ((hdr_len b1.data + HEADER_SIZE) % U16_MOD)),
            some (skb_trim b5 ((hdr_len b5.data + HEADER_SIZE) % U16_MOD)),
            some (skb_trim b3 ((hdr_len b3.data + HEADER_SIZE) % U16_MOD)),
            some (skb_trim b2 ((hdr_len b2.data + HEADER_SIZE) % U16_MOD)),
            some (skb_trim b4 ((hdr_len b4.data + HEADER_SIZE) % U16_MOD)), none]) := by
  refine ⟨dequeue_law, fun s hd he => read_packet_open s hd he, ?_, ?_, ?_⟩
  · intro cfg s hw hd hh
    obtain ⟨h1, h2, _, _⟩ := esp_spi_transaction_dequeue_open cfg s hd
    obtain ⟨h3, h4⟩ := esp_spi_transaction_tx cfg s hw hd hh
    exact ⟨h1, h2, h3, h4⟩
  · intro cfg s f1 f2 f3 f4 f5 hd hq hok t1 t2 t3 t4 t5
    obtain ⟨hw, hdp⟩ := write_packets_tx_q cfg [f1, f2, f3, f4, f5] s hd hok
    rw [tx_dequeues_eq_drain cfg 6 _ hdp, hw, hq]
    simp only [List.foldl]
    rw [enqueue_serial_other_control _ _ _ _ _ _ _ _ _ _ t1 t2 t3 t4 t5]
    exact drain_serial_other_control _ _ _ _ _
  · intro cfg s b1 b2 b3 b4 b5 hd he hq hok t1 t2 t3 t4 t5
    obtain ⟨hw, hdp, hdev⟩ := process_rx_bufs_rx_q cfg [b1, b2, b3, b4, b5] s hd hok
    rw [read_packets_eq_drain 6 _ hdp (by rw [hdev]; exact he), hw, hq]
    simp only [List.foldl]
    rw [enqueue_serial_other_control _ _ _ _ _ _ _ _ _ _ t1 t2 t3 t4 t5]
    exact drain_serial_other_control _ _ _ _ _

/-- Witness of C10: the transmit scenario with five concrete frames of 13 octets (classes
Serial, Other, Control, Other, Serial, told apart by their payload octet). -/
theorem strict_priority_dequeue_witness :
    tx_dequeues sample_cfg
        (write_packets sample_cfg open_state
          [{ data := [2, 0, 1, 0, 12, 0, 0, 0, 0, 0, 0, 0, 1] },
           { data := [0, 0, 1, 0, 12, 0, 0, 0, 0, 0, 0, 0, 2] },
           { data := [3, 0, 1, 0, 12, 0, 0, 0, 0, 0, 0, 0, 3] },
           { data := [1, 0, 1, 0, 12, 0, 0, 0, 0, 0, 0, 0, 4] },
           { data := [2, 0, 1, 0, 12, 0, 0, 0, 0, 0, 0, 0, 5] }]) 6
      = [some (tx_frame open_state { data := [2, 0, 1, 0, 12, 0, 0, 0, 0, 0, 0, 0, 1] }),
         some (tx_frame open_state { data := [2, 0, 1, 0, 12, 0, 0, 0, 0, 0, 0, 0, 5] }),
         some (tx_frame open_state { data := [3, 0, 1, 0, 12, 0, 0, 0, 0, 0, 0, 0, 3] }),
         some (tx_frame open_state { data := [0, 0, 1, 0, 12, 0, 0, 0, 0, 0, 0, 0, 2] }),
         some (tx_frame open_state { data := [1, 0, 1, 0, 12, 0, 0, 0, 0, 0, 0, 0, 4] }),
         none] :=
  strict_priority_dequeue.2.2.2.1 sample_cfg open_state _ _ _ _ _
    (by decide) (by decide) (by decide) (by decide) (by decide) (by decide) (by decide)
    (by decide)

/-! ## Routing of received frames -/

theorem process_rx_buf_accepted_state (cfg : Config) (s : SpiState) (skb : SkBuff)
    (hacc : (process_rx_buf cfg s (some skb)).1 = 0) :
    process_rx_buf cfg s (some skb)
      = (0, { s with
                rx_q := s.rx_q.enqueue (prio_of_if_type (hdr_if_type skb.data))
                  (skb_trim skb ((hdr_len skb.data + HEADER_SIZE) % U16_MOD))
                events := s.events ++ [Event.new_packet_intr] }) := by
  obtain ⟨h1, h2, h3, h4, h5⟩ := (process_rx_buf_accept_iff cfg s skb).1 hacc
  have h1n : ¬ hdr_if_type skb.data ≥ ESP_MAX_IF := by omega
  have h4n : ¬ (hdr_len skb.data + HEADER_SIZE) % U16_MOD > cfg.SPI_BUF_SIZE := by omega
  unfold process_rx_buf
  simp [h1n, h2, h3, h4n, h5]

theorem skb_trim_len (skb : SkBuff) (n : Nat) (h : n ≤ skb.len) : (skb_trim skb n).len = n := by
  unfold skb_trim
  by_cases hlt : skb.len > n
  · rw [if_pos hlt]
    unfold SkBuff.len at h ⊢
    simp [List.length_take]
    exact h
  · rw [if_neg hlt]
    omega

theorem process_rx_buf_routes (cfg : Config) (s : SpiState) (skb : SkBuff)
    (hacc : (process_rx_buf cfg s (some skb)).1 = 0)
    (hlen : hdr_len skb.data + HEADER_SIZE ≤ skb.len) (h16 : skb.len < U16_MOD) :
    ∃ frame : SkBuff,
      frame.len = HEADER_SIZE + hdr_len skb.data ∧
      frame.data = skb.data.take (HEADER_SIZE + hdr_len skb.data) ∧
      process_rx_buf cfg s (some skb)
        = (0, { s with
                  rx_q := s.rx_q.enqueue (prio_of_if_type (hdr_if_type skb.data)) frame
                  events := s.events ++ [Event.new_packet_intr] }) := by
  have hmod : (hdr_len skb.data + HEADER_SIZE) % U16_MOD = HEADER_SIZE + hdr_len skb.data := by
    rw [Nat.add_comm]
    exact Nat.mod_eq_of_lt (by omega)
  refine ⟨skb_trim skb (HEADER_SIZE + hdr_len skb.data), skb_trim_len _ _ (by omega), ?_, ?_⟩
  · unfold skb_trim
    by_cases hlt : skb.len > HEADER_SIZE + hdr_len skb.data
    · rw [if_pos hlt]
    · rw [if_neg hlt]
      have : skb.data.length ≤ HEADER_SIZE + hdr_len skb.data := by
        unfold SkBuff.len at hlt
        omega
      rw [List.take_of_length_le this]
  · rw [process_rx_buf_accepted_state cfg s skb hacc, hmod]

/-- C11: evaluation at the failing input. A 1600-octet received buffer whose header has
`if_type` 0, `len` 65530 and `offset` 12 passes the header checks of `process_rx_buf` with
the data path open. It is appended to the Other receive queue only and the new-packet hook
is signalled once, but the frame is trimmed to 6 octets, not to header size + `len` =
65542: the trim length is the wrapped `u16` sum. -/
theorem process_rx_buf_trims_to_wrapped_len :
    process_rx_buf sample_cfg open_state
        (some (rx_buffer [0, 0, 0xFA, 0xFF, 12, 0, 0, 0, 0, 0, 0, 0]))
      = (0, { open_state with
                rx_q := { serial := [], bt := [],
                          others := [{ data := [0, 0, 0xFA, 0xFF, 12, 0] }] }
                events := [Event.new_packet_intr] }) ∧
    hdr_len (rx_buffer [0, 0, 0xFA, 0xFF, 12, 0, 0, 0, 0, 0, 0, 0]).data = 65530 ∧
    (SkBuff.mk [0, 0, 0xFA, 0xFF, 12, 0] []).len = 6 ∧
    (SkBuff.mk [0, 0, 0xFA, 0xFF, 12, 0] []).len
      ≠ HEADER_SIZE + hdr_len (rx_buffer [0, 0, 0xFA, 0xFF, 12, 0, 0, 0, 0, 0, 0, 0]).data := by
  decide

/-! ## The pending counter in `write_packet` -/

theorem write_packet_counter (cfg : Config) (s : SpiState) (f : SkBuff)
    (hacc : (write_packet cfg s (some f)).1 = 0) :
    ((hdr_if_type f.data ≠ ESP_SERIAL_IF ∧ hdr_if_type f.data ≠ ESP_HCI_IF) →
      (write_packet cfg s (some f)).2.tx_pending = s.tx_pending + 1 ∧
      (write_packet cfg s (some f)).2.events
        = s.events
          ++ (if s.tx_pending + 1 ≥ (cfg.TX_MAX_PENDING_COUNT : Int) then [Event.tx_pause]
              else [])
          ++ [Event.sem_up]) ∧
    ((hdr_if_type f.data = ESP_SERIAL_IF ∨ hdr_if_type f.data = ESP_HCI_IF) →
      (write_packet cfg s (some f)).2.tx_pending = s.tx_pending ∧
      (write_packet cfg s (some f)).2.events = s.events ++ [Event.sem_up]) := by
  obtain ⟨h0, h1, h2⟩ := (write_packet_accept_iff cfg s f).1 hacc
  have h1n : ¬ f.len > cfg.SPI_BUF_SIZE := by omega
  unfold write_packet
  simp only [h0, h1n, h2, if_false, Bool.not_true, Bool.false_eq_true, hdr_if_type_tx_frame]
  constructor
  · rintro ⟨hs, hb⟩
    simp only [hs, hb, if_false]
    constructor
    · trivial
    · by_cases hp : s.tx_pending + 1 ≥ (cfg.TX_MAX_PENDING_COUNT : Int)
      · simp [hp]
      · simp [hp]
  · rintro (hs | hb)
    · simp [hs]
    · have hne : ¬ (ESP_HCI_IF = ESP_SERIAL_IF) := by decide
      simp [hb, hne]

theorem write_packets_append (cfg : Config) (f : SkBuff) :
    ∀ (fs : List SkBuff) (s : SpiState),
      write_packets cfg s (fs ++ [f])
        = (write_packet cfg (write_packets cfg s fs) (some f)).2 := by
  intro fs
  induction fs with
  | nil => intro s; rfl
  | cons g gs ih =>
    intro s
    simp only [List.cons_append, write_packets]
    exact ih _

theorem write_packets_others (cfg : Config) :
    ∀ (fs : List SkBuff) (s : SpiState), s.data_path = true →
      (∀ f ∈ fs, (f.len ≠ 0 ∧ f.len ≤ cfg.SPI_BUF_SIZE) ∧
        hdr_if_type f.data ≠ ESP_SERIAL_IF ∧ hdr_if_type f.data ≠ ESP_HCI_IF) →
      (write_packets cfg s fs).data_path = true ∧
      (write_packets cfg s fs).tx_pending = s.tx_pending + fs.length ∧
      (write_packets cfg s fs).tx_q.serial = s.tx_q.serial ∧
      (write_packets cfg s fs).tx_q.bt = s.tx_q.bt ∧
      (write_packets cfg s fs).tx_q.others.length = s.tx_q.others.length + fs.length := by
  intro fs
  induction fs with
  | nil => intro s hd _; simp [write_packets, hd]
  | cons f fs ih =>
    intro s hd hok
    obtain ⟨⟨hf0, hf1⟩, hcls⟩ := hok f (List.mem_cons_self f fs)
    have hacc : (write_packet cfg s (some f)).1 = 0 :=
      (write_packet_accept_iff cfg s f).2 ⟨hf0, hf1, hd⟩
    obtain ⟨kd, _, _, _⟩ := write_packet_keeps cfg s (some f)
    obtain ⟨hp, _⟩ := (write_packet_counter cfg s f hacc).1 hcls
    have hq := (write_packet_queues cfg s f hacc).1
    obtain ⟨r1, r2, r3, r4, r5⟩ := ih (write_packet cfg s (some f)).2 (by rw [kd]; exact hd)
      (fun g hg => hok g (List.mem_cons_of_mem f hg))
    have hprio : prio_of_if_type (hdr_if_type f.data) = PRIO_Q_OTHERS := by
      unfold prio_of_if_type
      rw [if_neg hcls.1, if_neg hcls.2]
    rw [hprio] at hq
    have hqs : (write_packet cfg s (some f)).2.tx_q.serial = s.tx_q.serial := by
      rw [hq]; rfl
    have hqb : (write_packet cfg s (some f)).2.tx_q.bt = s.tx_q.bt := by
      rw [hq]; rfl
    have hqo : (write_packet cfg s (some f)).2.tx_q.others.length
        = s.tx_q.others.length + 1 := by
      rw [hq]
      simp [PrioQueues.enqueue, PRIO_Q_OTHERS, PRIO_Q_SERIAL, PRIO_Q_BT, skb_queue_tail]
    simp only [write_packets, List.length_cons]
    refine ⟨r1, ?_, r3.trans hqs, r4.trans hqb, ?_⟩
    · rw [r2, hp]
      push_cast
      omega
    · rw [r5, hqo]
      omega

theorem write_packets_run (cfg : Config) (s : SpiState) (fs : List SkBuff)
    (hd : s.data_path = true) (hp0 : s.tx_pending = 0)
    (hok : ∀ f ∈ fs, (f.len ≠ 0 ∧ f.len ≤ cfg.SPI_BUF_SIZE) ∧
      hdr_if_type f.data ≠ ESP_SERIAL_IF ∧ hdr_if_type f.data ≠ ESP_HCI_IF) :
    (∀ (k : Nat) (hk : k < fs.length),
      (write_packet cfg (write_packets cfg s (fs.take k)) (some (fs.get ⟨k, hk⟩))).1 = 0 ∧
      (write_packet cfg (write_packets cfg s (fs.take k)) (some (fs.get ⟨k, hk⟩))).2.events
        = (write_packets cfg s (fs.take k)).events
          ++ (if k + 1 ≥ cfg.TX_MAX_PENDING_COUNT then [Event.tx_pause] else [])
          ++ [Event.sem_up]) ∧
    (1 ≤ cfg.TX_MAX_PENDING_COUNT → ∀ n, n ≤ fs.length →
      tx_pause_count (write_packets cfg s (fs.take n))
        = tx_pause_count s + (n + 1 - cfg.TX_MAX_PENDING_COUNT)) := by
  have hstep : ∀ (k : Nat) (hk : k < fs.length),
      (write_packet cfg (write_packets cfg s (fs.take k)) (some (fs.get ⟨k, hk⟩))).1 = 0 ∧
      (write_packet cfg (write_packets cfg s (fs.take k)) (some (fs.get ⟨k, hk⟩))).2.events
        = (write_packets cfg s (fs.take k)).events
          ++ (if k + 1 ≥ cfg.TX_MAX_PENDING_COUNT then [Event.tx_pause] else [])
          ++ [Event.sem_up] := by
    intro k hk
    have hoktake : ∀ f ∈ fs.take k, (f.len ≠ 0 ∧ f.len ≤ cfg.SPI_BUF_SIZE) ∧
        hdr_if_type f.data ≠ ESP_SERIAL_IF ∧ hdr_if_type f.data ≠ ESP_HCI_IF :=
      fun f hf => hok f (List.mem_of_mem_take hf)
    obtain ⟨kd, kp, _, _, _⟩ := write_packets_others cfg (fs.take k) s hd hoktake
    have hmem : fs.get ⟨k, hk⟩ ∈ fs := List.get_mem fs k hk
    obtain ⟨⟨hf0, hf1⟩, hcls⟩ := hok _ hmem
    have hacc : (write_packet cfg (write_packets cfg s (fs.take k))
        (some (fs.get ⟨k, hk⟩))).1 = 0 :=
      (write_packet_accept_iff cfg _ _).2 ⟨hf0, hf1, kd⟩
    refine ⟨hacc, ?_⟩
    rw [((write_packet_counter cfg _ _ hacc).1 hcls).2, kp, hp0]
    have hlen : (fs.take k).length = k := by
      rw [List.length_take]
      omega
    rw [hlen]
    by_cases hge : k + 1 ≥ cfg.TX_MAX_PENDING_COUNT
    · have : (0 : Int) + (k : Int) + 1 ≥ (cfg.TX_MAX_PENDING_COUNT : Int) := by omega
      rw [if_pos this, if_pos hge]
    · have : ¬ ((0 : Int) + (k : Int) + 1 ≥ (cfg.TX_MAX_PENDING_COUNT : Int)) := by omega
      rw [if_neg this, if_neg hge]
  refine ⟨hstep, ?_⟩
  intro hH n
  induction n with
  | zero =>
    intro _
    have : 0 + 1 - cfg.TX_MAX_PENDING_COUNT = 0 := by omega
    simp [write_packets, this]
  | succ n ih =>
    intro hn
    have hk : n < fs.length := by omega
    have htake : fs.take (n + 1) = fs.take n ++ [fs.get ⟨n, hk⟩] := by
      rw [List.take_succ, List.getElem?_eq_getElem hk]
      rfl
    rw [htake, write_packets_append]
    unfold tx_pause_count at ih ⊢
    rw [(hstep n hk).2]
    have ih2 := ih (by omega)
    by_cases hge : n + 1 ≥ cfg.TX_MAX_PENDING_COUNT
    · rw [if_pos hge]
      simp only [List.count_append, ih2]
      have c1 : List.count Event.tx_pause [Event.tx_pause] = 1 := by decide
      have c2 : List.count Event.tx_pause [Event.sem_up] = 0 := by decide
      rw [c1, c2]
      omega
    · rw [if_neg hge]
      simp only [List.count_append, ih2]
      have c1 : List.count Event.tx_pause ([] : List Event) = 0 := by decide
      have c2 : List.count Event.tx_pause [Event.sem_up] = 0 := by decide
      rw [c1, c2]
      omega

/-- C12: an accepted Other-class frame increments the pending counter and `write_packet`
calls `esp_tx_pause` exactly when the counter after the increment is at least
`TX_MAX_PENDING_COUNT` = H; an accepted Serial or Control frame leaves the counter alone
and never calls it. Hence, with the counter at 0 and no dequeue in between, the enqueue
number k + 1 of a run of Other-class frames calls `esp_tx_pause` exactly when k + 1 ≥ H:
the H-th does and none of the first H - 1 does, so that (for H ≥ 1) the number of calls
after n enqueues is n + 1 - H, truncated at 0. -/
theorem write_packet_backpressure (cfg : Config) :
    (∀ (s : SpiState) (f : SkBuff), (write_packet cfg s (some f)).1 = 0 →
      ((hdr_if_type f.data ≠ ESP_SERIAL_IF ∧ hdr_if_type f.data ≠ ESP_HCI_IF) →
        (write_packet cfg s (some f)).2.tx_pending = s.tx_pending + 1 ∧
        (write_packet cfg s (some f)).2.events
          = s.events
            ++ (if s.tx_pending + 1 ≥ (cfg.TX_MAX_PENDING_COUNT : Int) then [Event.tx_pause]
                else [])
            ++ [Event.sem_up]) ∧
      ((hdr_if_type f.data = ESP_SERIAL_IF ∨ hdr_if_type f.data = ESP_HCI_IF) →
        (write_packet cfg s (some f)).2.tx_pending = s.tx_pending ∧
        (write_packet cfg s (some f)).2.events = s.events ++ [Event.sem_up])) ∧
    (∀ (s : SpiState) (fs : List SkBuff), s.data_path = true → s.tx_pending = 0 →
      (∀ f ∈ fs, (f.len ≠ 0 ∧ f.len ≤ cfg.SPI_BUF_SIZE) ∧
        hdr_if_type f.data ≠ ESP_SERIAL_IF ∧ hdr_if_type f.data ≠ ESP_HCI_IF) →
      (∀ (k : Nat) (hk : k < fs.length),
        (write_packet cfg (write_packets cfg s (fs.take k)) (some (fs.get ⟨k, hk⟩))).1 = 0 ∧
        (write_packet cfg (write_packets cfg s (fs.take k)) (some (fs.get ⟨k, hk⟩))).2.events
          = (write_packets cfg s (fs.take k)).events
            ++ (if k + 1 ≥ cfg.TX_MAX_PENDING_COUNT then [Event.tx_pause] else [])
            ++ [Event.sem_up]) ∧
      (1 ≤ cfg.TX_MAX_PENDING_COUNT → ∀ n, n ≤ fs.length →
        tx_pause_count (write_packets cfg s (fs.take n))
          = tx_pause_count s + (n + 1 - cfg.TX_MAX_PENDING_COUNT))) :=
  ⟨fun s f hacc => write_packet_counter cfg s f hacc,
    fun s fs hd hp0 hok => write_packets_run cfg s fs hd hp0 hok⟩

/-- Witness of C12: the first Other-class frame written to the open, empty state raises the
counter to 1 and, with H = 100, does not call `esp_tx_pause`. -/
theorem write_packet_backpressure_witness :
    (write_packet sample_cfg open_state (some { data := sample_sta_frame })).2.tx_pending
      = open_state.tx_pending + 1 ∧
    (write_packet sample_cfg open_state (some { data := sample_sta_frame })).2.events
      = open_state.events
        ++ (if open_state.tx_pending + 1 ≥ (sample_cfg.TX_MAX_PENDING_COUNT : Int)
            then [Event.tx_pause] else [])
        ++ [Event.sem_up] :=
  ((write_packet_backpressure sample_cfg).1 open_state { data := sample_sta_frame }
    (by decide)).1 (by decide)

/-! ## The pending counter in the transmit dequeue -/

theorem esp_spi_transaction_dequeue_pop (cfg : Config) (s : SpiState) (f : SkBuff)
    (hd : s.data_path = true) (hf : s.tx_q.dequeue.1 = some f) (hp : s.tx_pending ≠ 0) :
    esp_spi_transaction_dequeue cfg s
      = (some f, { s with
          tx_q := s.tx_q.dequeue.2
          tx_pending := s.tx_pending - 1
          events := s.events ++
            (if s.tx_pending - 1 < (TX_RESUME_THRESHOLD cfg : Int) then [Event.tx_resume]
             else []) }) := by
  unfold esp_spi_transaction_dequeue
  simp only [hd, if_true, hf, Option.isSome_some, Bool.true_and, decide_eq_true_eq]
  rw [if_pos hp]
  by_cases hlt : s.tx_pending - 1 < (TX_RESUME_THRESHOLD cfg : Int)
  · simp [hlt]
  · simp [hlt]

theorem process_rx_buf_events (cfg : Config) (s : SpiState) (skb : Option SkBuff) :
    (process_rx_buf cfg s skb).2.events = s.events ∨
    (process_rx_buf cfg s skb).2.events = s.events ++ [Event.new_packet_intr] := by
  unfold process_rx_buf
  cases skb with
  | none => simp
  | some skb =>
    simp only
    split_ifs <;> simp

theorem process_rx_buf_counts (cfg : Config) (s : SpiState) (skb : Option SkBuff) :
    tx_resume_count (process_rx_buf cfg s skb).2 = tx_resume_count s ∧
    tx_pause_count (process_rx_buf cfg s skb).2 = tx_pause_count s := by
  unfold tx_resume_count tx_pause_count
  rcases process_rx_buf_events cfg s skb with h | h
  · rw [h]
    exact ⟨rfl, rfl⟩
  · rw [h]
    simp [List.count_append]

theorem esp_spi_transaction_counter (cfg : Config) (s : SpiState) (hw : SpiHw)
    (hh : hw.handshake = true) :
    (esp_spi_transaction cfg s hw).tx_pending
        = (esp_spi_transaction_dequeue cfg s).2.tx_pending ∧
    tx_resume_count (esp_spi_transaction cfg s hw)
        = tx_resume_count (esp_spi_transaction_dequeue cfg s).2 ∧
    tx_pause_count (esp_spi_transaction cfg s hw)
        = tx_pause_count (esp_spi_transaction_dequeue cfg s).2 := by
  unfold esp_spi_transaction
  simp only [hh, Bool.not_true, Bool.false_eq_true, if_false]
  have hp := fun (t : SpiState) (b : Option SkBuff) => (process_rx_buf_keeps cfg t b).2.2.2.2.1
  have hc1 : ∀ (t : SpiState) (b : Option SkBuff),
      List.count Event.tx_resume (process_rx_buf cfg t b).2.events
        = List.count Event.tx_resume t.events :=
    fun t b => (process_rx_buf_counts cfg t b).1
  have hc2 : ∀ (t : SpiState) (b : Option SkBuff),
      List.count Event.tx_pause (process_rx_buf cfg t b).2.events
        = List.count Event.tx_pause t.events :=
    fun t b => (process_rx_buf_counts cfg t b).2
  split_ifs <;>
    simp [hp, hc1, hc2, tx_resume_count, tx_pause_count, List.count_append]

theorem others_dequeue (q : PrioQueues) (hs : q.serial = []) (hb : q.bt = []) :
    q.dequeue.1 = q.others.head? ∧ q.dequeue.2.serial = [] ∧ q.dequeue.2.bt = [] ∧
    q.dequeue.2.others = q.others.tail := by
  obtain ⟨h1, h2⟩ := dequeue_law q
  rw [h1, h2]
  simp [hs, hb]

theorem tx_dequeue_others_step (cfg : Config) (s : SpiState) (p : Nat)
    (hd : s.data_path = true) (hs : s.tx_q.serial = []) (hb : s.tx_q.bt = [])
    (ho : s.tx_q.others.length = p + 1) (hp : s.tx_pending = ((p + 1 : Nat) : Int)) :
    (esp_spi_transaction_dequeue cfg s).2.data_path = true ∧
    (esp_spi_transaction_dequeue cfg s).2.tx_q.serial = [] ∧
    (esp_spi_transaction_dequeue cfg s).2.tx_q.bt = [] ∧
    (esp_spi_transaction_dequeue cfg s).2.tx_q.others.length = p ∧
    (esp_spi_transaction_dequeue cfg s).2.tx_pending = (p : Int) ∧
    (esp_spi_transaction_dequeue cfg s).2.events
      = s.events ++
          (if (p : Int) < (TX_RESUME_THRESHOLD cfg : Int) then [Event.tx_resume] else []) := by
  obtain ⟨q1, q2, q3, q4⟩ := others_dequeue s.tx_q hs hb
  obtain ⟨f, r, hfr⟩ : ∃ f r, s.tx_q.others = f :: r := by
    cases hc : s.tx_q.others with
    | nil => rw [hc] at ho; simp at ho
    | cons f r => exact ⟨f, r, rfl⟩
  have hf : s.tx_q.dequeue.1 = some f := by rw [q1, hfr]; rfl
  have hne : s.tx_pending ≠ 0 := by rw [hp]; push_cast; omega
  rw [esp_spi_transaction_dequeue_pop cfg s f hd hf hne]
  have hsub : s.tx_pending - 1 = (p : Int) := by rw [hp]; push_cast; omega
  refine ⟨hd, q2, q3, ?_, hsub, ?_⟩
  · show s.tx_q.dequeue.2.others.length = p
    rw [q4, hfr]
    rw [hfr] at ho
    simpa using ho
  · show s.events ++ _ = _
    rw [hsub]

theorem tx_dequeue_n_above_low (cfg : Config) :
    ∀ (k : Nat) (s : SpiState) (p : Nat), s.data_path = true → s.tx_q.serial = [] →
      s.tx_q.bt = [] → s.tx_q.others.length = p → s.tx_pending = (p : Int) →
      k + TX_RESUME_THRESHOLD cfg ≤ p →
      (tx_dequeue_n cfg s k).data_path = true ∧
      (tx_dequeue_n cfg s k).tx_q.serial = [] ∧
      (tx_dequeue_n cfg s k).tx_q.bt = [] ∧
      (tx_dequeue_n cfg s k).tx_q.others.length = p - k ∧
      (tx_dequeue_n cfg s k).tx_pending = ((p - k : Nat) : Int) ∧
      (tx_dequeue_n cfg s k).events = s.events := by
  intro k
  induction k with
  | zero =>
    intro s p hd hs hb ho hp _
    exact ⟨hd, hs, hb, ho, hp, rfl⟩
  | succ k ih =>
    intro s p hd hs hb ho hp hk
    obtain ⟨p', rfl⟩ : ∃ p', p = p' + 1 := ⟨p - 1, by omega⟩
    obtain ⟨d1, d2, d3, d4, d5, d6⟩ := tx_dequeue_others_step cfg s p' hd hs hb ho hp
    have hnot : ¬ ((p' : Int) < (TX_RESUME_THRESHOLD cfg : Int)) := by omega
    rw [if_neg hnot, List.append_nil] at d6
    obtain ⟨r1, r2, r3, r4, r5, r6⟩ :=
      ih (esp_spi_transaction_dequeue cfg s).2 p' d1 d2 d3 d4 d5 (by omega)
    have hsub : p' + 1 - (k + 1) = p' - k := by omega
    simp only [tx_dequeue_n]
    rw [hsub]
    exact ⟨r1, r2, r3, r4, r5, r6.trans d6⟩

theorem tx_dequeue_n_succ (cfg : Config) :
    ∀ (k : Nat) (s : SpiState),
      tx_dequeue_n cfg s (k + 1) = (esp_spi_transaction_dequeue cfg (tx_dequeue_n cfg s k)).2 := by
  intro k
  induction k with
  | zero => intro s; rfl
  | succ k ih =>
    intro s
    show tx_dequeue_n cfg (esp_spi_transaction_dequeue cfg s).2 (k + 1) = _
    rw [ih]
    rfl

/-- C14, counterexample: with H = 100 and L = 20, after 100 Other-class frames were
enqueued from the open, empty state (`esp_tx_pause` called once) and 80 of them dequeued,
exactly L = 20 frames remain pending and `esp_tx_resume` has not been called. -/
theorem tx_resume_not_raised_at_low_watermark :
    tx_pause_count
        (write_packets sample_cfg open_state (List.replicate 100 { data := sample_sta_frame }))
      = 1 ∧
    (tx_dequeue_n sample_cfg
        (write_packets sample_cfg open_state (List.replicate 100 { data := sample_sta_frame }))
        80).tx_pending = 20 ∧
    (tx_dequeue_n sample_cfg
        (write_packets sample_cfg open_state (List.replicate 100 { data := sample_sta_frame }))
        80).tx_q.others.length = 20 ∧
    TX_RESUME_THRESHOLD sample_cfg = 20 ∧
    tx_resume_count
        (tx_dequeue_n sample_cfg
          (write_packets sample_cfg open_state
            (List.replicate 100 { data := sample_sta_frame })) 80)
      = 0 := by
  decide

/-- C14, amended: after H = `TX_MAX_PENDING_COUNT` ≥ 1 Other-class frames were enqueued from
the open, empty state (`esp_tx_pause` called once, on the last one), dequeuing k frames
with H - k ≥ L = H / 5 leaves H - k frames pending and calls no `esp_tx_resume`, also
when exactly L remain; `esp_tx_resume` is called by the next dequeue, the one that brings
the pending count to L - 1 (there is one when L ≥ 1). -/
theorem tx_resume_below_low_watermark (cfg : Config) (s : SpiState) (fs : List SkBuff)
    (hd : s.data_path = true) (hq : s.tx_q = PrioQueues.empty) (hp0 : s.tx_pending = 0)
    (hH : 1 ≤ cfg.TX_MAX_PENDING_COUNT) (hlen : fs.length = cfg.TX_MAX_PENDING_COUNT)
    (hok : ∀ f ∈ fs, (f.len ≠ 0 ∧ f.len ≤ cfg.SPI_BUF_SIZE) ∧
      hdr_if_type f.data ≠ ESP_SERIAL_IF ∧ hdr_if_type f.data ≠ ESP_HCI_IF) :
    tx_pause_count (write_packets cfg s fs) = tx_pause_count s + 1 ∧
    (∀ k, k + TX_RESUME_THRESHOLD cfg ≤ cfg.TX_MAX_PENDING_COUNT →
      (tx_dequeue_n cfg (write_packets cfg s fs) k).tx_pending
          = ((cfg.TX_MAX_PENDING_COUNT - k : Nat) : Int) ∧
      (tx_dequeue_n cfg (write_packets cfg s fs) k).events = (write_packets cfg s fs).events) ∧
    (1 ≤ TX_RESUME_THRESHOLD cfg →
      (tx_dequeue_n cfg (write_packets cfg s fs)
          (cfg.TX_MAX_PENDING_COUNT - TX_RESUME_THRESHOLD cfg + 1)).tx_pending
        = ((TX_RESUME_THRESHOLD cfg - 1 : Nat) : Int) ∧
      (tx_dequeue_n cfg (write_packets cfg s fs)
          (cfg.TX_MAX_PENDING_COUNT - TX_RESUME_THRESHOLD cfg + 1)).events
        = (write_packets cfg s fs).events ++ [Event.tx_resume]) := by
  obtain ⟨kd, kp, ks, kb, ko⟩ := write_packets_others cfg fs s hd hok
  rw [hq] at ks kb ko
  have ho : (write_packets cfg s fs).tx_q.others.length = cfg.TX_MAX_PENDING_COUNT := by
    rw [ko, hlen]
    simp [PrioQueues.empty]
  have hp : (write_packets cfg s fs).tx_pending = (cfg.TX_MAX_PENDING_COUNT : Int) := by
    rw [kp, hp0, hlen]
    simp
  have hLH : TX_RESUME_THRESHOLD cfg < cfg.TX_MAX_PENDING_COUNT := by
    unfold TX_RESUME_THRESHOLD
    omega
  refine ⟨?_, ?_, ?_⟩
  · have hrun := (write_packets_run cfg s fs hd hp0 hok).2 hH fs.length (Nat.le_refl _)
    rw [List.take_length] at hrun
    rw [hrun, hlen]
    omega
  · intro k hk
    obtain ⟨_, _, _, _, r5, r6⟩ :=
      tx_dequeue_n_above_low cfg k _ _ kd ks kb ho hp hk
    exact ⟨r5, r6⟩
  · intro hL
    obtain ⟨r1, r2, r3, r4, r5, r6⟩ :=
      tx_dequeue_n_above_low cfg (cfg.TX_MAX_PENDING_COUNT - TX_RESUME_THRESHOLD cfg) _ _
        kd ks kb ho hp (by omega)
    have hsub : cfg.TX_MAX_PENDING_COUNT
        - (cfg.TX_MAX_PENDING_COUNT - TX_RESUME_THRESHOLD cfg)
        = (TX_RESUME_THRESHOLD cfg - 1) + 1 := by omega
    rw [hsub] at r4 r5
    obtain ⟨_, _, _, _, d5, d6⟩ := tx_dequeue_others_step cfg _ _ r1 r2 r3 r4 r5
    rw [tx_dequeue_n_succ]
    refine ⟨d5, ?_⟩
    rw [d6, r6]
    have hlt : ((TX_RESUME_THRESHOLD cfg - 1 : Nat) : Int) < (TX_RESUME_THRESHOLD cfg : Int) := by
      omega
    rw [if_pos hlt]

/-- Witness of C14 (amended): H = 5 and L = 1; after five enqueues and four dequeues one
frame is pending and no `esp_tx_resume` was called. -/
theorem tx_resume_below_low_watermark_witness :
    tx_pause_count
        (write_packets { sample_cfg with TX_MAX_PENDING_COUNT := 5 } open_state
          (List.replicate 5 { data := sample_sta_frame }))
      = tx_pause_count open_state + 1 ∧
    (tx_dequeue_n { sample_cfg with TX_MAX_PENDING_COUNT := 5 }
        (write_packets { sample_cfg with TX_MAX_PENDING_COUNT := 5 } open_state
          (List.replicate 5 { data := sample_sta_frame })) 4).tx_pending = 1 ∧
    (tx_dequeue_n { sample_cfg with TX_MAX_PENDING_COUNT := 5 }
        (write_packets { sample_cfg with TX_MAX_PENDING_COUNT := 5 } open_state
          (List.replicate 5 { data := sample_sta_frame })) 4).events
      = (write_packets { sample_cfg with TX_MAX_PENDING_COUNT := 5 } open_state
          (List.replicate 5 { data := sample_sta_frame })).events :=
  ⟨(tx_resume_below_low_watermark { sample_cfg with TX_MAX_PENDING_COUNT := 5 } open_state
      (List.replicate 5 { data := sample_sta_frame })
      (by decide) (by decide) (by decide) (by decide) (by decide) (by decide)).1,
   ((tx_resume_below_low_watermark { sample_cfg with TX_MAX_PENDING_COUNT := 5 } open_state
      (List.replicate 5 { data := sample_sta_frame })
      (by decide) (by decide) (by decide) (by decide) (by decide) (by decide)).2.1 4
      (by decide)).1,
   ((tx_resume_below_low_watermark { sample_cfg with TX_MAX_PENDING_COUNT := 5 } open_state
      (List.replicate 5 { data := sample_sta_frame })
      (by decide) (by decide) (by decide) (by decide) (by decide) (by decide)).2.1 4
      (by decide)).2⟩

/-- C15: evaluation at the failing input. From the open, empty state, `write_packet` of an
Other-class frame and then of a Serial-class frame leaves the counter at 1 with one frame
in the Other queue. One `esp_spi_transaction` then takes the Serial frame (it is the
transmit buffer of the transfer) and decrements the counter all the same: afterwards the
Other queue still holds its frame while `tx_pending` is 0. -/
theorem tx_pending_drops_on_serial_dequeue :
    (write_packets sample_cfg open_state
        [{ data := sample_sta_frame }, { data := sample_serial_frame }]).tx_pending = 1 ∧
    (write_packets sample_cfg open_state
        [{ data := sample_sta_frame }, { data := sample_serial_frame }]).tx_q.others
      = [{ data := sample_sta_frame }] ∧
    Event.spi_sync_transfer sample_serial_frame 1600
      ∈ (esp_spi_transaction sample_cfg
          (write_packets sample_cfg open_state
            [{ data := sample_sta_frame }, { data := sample_serial_frame }])
          sample_hw).events ∧
    (esp_spi_transaction sample_cfg
        (write_packets sample_cfg open_state
          [{ data := sample_sta_frame }, { data := sample_serial_frame }])
        sample_hw).tx_q.others = [{ data := sample_sta_frame }] ∧
    (esp_spi_transaction sample_cfg
        (write_packets sample_cfg open_state
          [{ data := sample_sta_frame }, { data := sample_serial_frame }])
        sample_hw).tx_pending = 0 := by
  decide

/-! ## The scan loop of `process_init_event` on a stream of records -/

theorem byte_at_append_right (a b : List Byte) (i : Nat) :
    byte_at (a ++ b) (a.length + i) = byte_at b i := by
  simp [byte_at, List.getD_eq_getElem?_getD, List.getElem?_append_right]

theorem tlv_total_cons_le (r : TlvRecord) (rs : List TlvRecord)
    (h : tlv_total (r :: rs) ≤ 255) : r.value.length ≤ 253 ∧ tlv_total rs ≤ 255 := by
  simp only [tlv_total, TlvRecord.size] at h
  omega

theorem init_event_step_eq_scan_record (env : InitEnv) (pre after : List Byte)
    (r : TlvRecord) (sc : InitScan)
    (hpos : sc.pos = pre.length) (hlen : r.value.length ≤ 253)
    (hleft : r.size ≤ sc.len_left) (hleft2 : sc.len_left ≤ 255) :
    init_event_step env (pre ++ (r.encode ++ after)) sc = scan_record env sc r after := by
  have e0 : byte_at (pre ++ (r.encode ++ after)) sc.pos = r.tag.val := by
    rw [hpos]
    have := byte_at_append_right pre (r.encode ++ after) 0
    rw [Nat.add_zero] at this
    rw [this]
    rfl
  have e1 : byte_at (pre ++ (r.encode ++ after)) (sc.pos + 1) = r.value.length := by
    rw [hpos, byte_at_append_right]
    show (to_byte r.value.length).val = r.value.length
    show r.value.length % 256 = r.value.length
    omega
  have e2 : byte_at (pre ++ (r.encode ++ after)) (sc.pos + 2) = byte_at (r.value ++ after) 0 := by
    rw [hpos, byte_at_append_right]
    rfl
  have e3 : ((pre ++ (r.encode ++ after)).drop (sc.pos + 2)).take r.value.length = r.value := by
    rw [hpos]
    have hd : (pre ++ (r.encode ++ after)).drop (pre.length + 2) = r.value ++ after := by
      rw [List.drop_append]
      rfl
    rw [hd, List.take_left']
    rfl
  have e4 : (sc.len_left + 512 - (r.value.length + 2)) % 256 = sc.len_left - r.size := by
    unfold TlvRecord.size at hleft ⊢
    omega
  have e5 : sc.pos + (r.value.length + 2) = sc.pos + r.size := by
    unfold TlvRecord.size
    omega
  unfold init_event_step scan_record
  simp only [e0, e1, e2, e3, e4, e5]

theorem scan_record_next (env : InitEnv) (sc : InitScan) (r : TlvRecord) (after : List Byte)
    (h : (scan_record env sc r after).2 = false) :
    (scan_record env sc r after).1.pos = sc.pos + r.size ∧
    (scan_record env sc r after).1.len_left = sc.len_left - r.size ∧
    (scan_record env sc r after).1.visited = sc.visited ++ [sc.pos] := by
  unfold scan_record at h ⊢
  simp only at h ⊢
  split_ifs at h ⊢ <;> simp_all

theorem process_init_event_loop_eq_scan (env : InitEnv) (rest : List Byte) :
    ∀ (rs : List TlvRecord) (pre : List Byte) (sc : InitScan) (fuel : Nat),
      sc.pos = pre.length → sc.len_left = tlv_total rs → tlv_total rs ≤ 255 →
      rs.length < fuel →
      process_init_event_loop env (pre ++ (tlv_stream rs ++ rest)) fuel sc
        = some (scan_records env sc rs rest) := by
  intro rs
  induction rs with
  | nil =>
    intro pre sc fuel _ hleft _ hf
    obtain ⟨f, rfl⟩ : ∃ f, fuel = f + 1 := ⟨fuel - 1, by simp at hf; omega⟩
    have h0 : sc.len_left = 0 := hleft
    simp [process_init_event_loop, scan_records, h0]
  | cons r rs ih =>
    intro pre sc fuel hpos hleft htot hf
    obtain ⟨f, rfl⟩ : ∃ f, fuel = f + 1 := ⟨fuel - 1, by simp at hf; omega⟩
    obtain ⟨hv, htot'⟩ := tlv_total_cons_le r rs htot
    have hsize : r.size ≤ sc.len_left := by
      rw [hleft]
      simp [tlv_total]
    have hne : sc.len_left ≠ 0 := by
      unfold TlvRecord.size at hsize
      omega
    have hbuf : pre ++ (tlv_stream (r :: rs) ++ rest)
        = pre ++ (r.encode ++ (tlv_stream rs ++ rest)) := by
      simp [tlv_stream]
    have hstep := init_event_step_eq_scan_record env pre (tlv_stream rs ++ rest) r sc hpos hv
      hsize (by omega)
    rw [process_init_event_loop, if_neg hne]
    simp only
    rw [hbuf, hstep]
    simp only [scan_records]
    by_cases hfail : (scan_record env sc r (tlv_stream rs ++ rest)).2 = true
    · simp [hfail]
    · have hfalse : (scan_record env sc r (tlv_stream rs ++ rest)).2 = false := by
        simpa using hfail
      obtain ⟨n1, n2, _⟩ := scan_record_next env sc r (tlv_stream rs ++ rest) hfalse
      simp only [hfalse, Bool.false_eq_true, if_false]
      have hbuf2 : pre ++ (r.encode ++ (tlv_stream rs ++ rest))
          = (pre ++ r.encode) ++ (tlv_stream rs ++ rest) := by
        simp
      rw [hbuf2]
      apply ih (pre ++ r.encode) _ f
      · rw [n1, hpos]
        simp [TlvRecord.encode, TlvRecord.size]
        omega
      · rw [n2, hleft]
        simp [tlv_total]
      · exact htot'
      · simp at hf
        omega

theorem process_init_event_eq_scan (fuel : Nat) (env : InitEnv) (s : SpiState)
    (rs : List TlvRecord) (rest : List Byte)
    (htot : tlv_total rs ≤ 255) (hf : rs.length < fuel) :
    process_init_event fuel env s (some (tlv_stream rs ++ rest)) (tlv_total rs)
      = some (process_init_event_return env
          (scan_records env
            { pos := 0, len_left := tlv_total rs, fw_version_checked := false, state := s,
              visited := [] } rs rest)) := by
  have hmod : tlv_total rs % 256 = tlv_total rs := Nat.mod_eq_of_lt (by omega)
  have hloop := process_init_event_loop_eq_scan env rest rs []
    { pos := 0, len_left := tlv_total rs, fw_version_checked := false, state := s,
      visited := [] } fuel rfl rfl htot hf
  rw [List.nil_append] at hloop
  unfold process_init_event
  simp only [hmod, hloop, Option.map_some']

theorem scan_record_effect (env : InitEnv) (sc : InitScan) (r : TlvRecord)
    (after : List Byte) :
    (scan_record env sc r after).1.state.capabilities
        = (if r.tag.val = ESP_PRIV_CAPABILITY then byte_at (r.value ++ after) 0
           else sc.state.capabilities) ∧
    ((scan_record env sc r after).2 = true →
      r.tag.val = ESP_PRIV_FW_DATA ∧ env.process_fw_data r.value ≠ 0 ∧
      (scan_record env sc r after).1 = { sc with visited := sc.visited ++ [sc.pos] }) := by
  unfold scan_record
  simp only
  split_ifs <;> simp_all [ESP_PRIV_CAPABILITY, ESP_PRIV_FIRMWARE_CHIP_ID, ESP_PRIV_TEST_RAW_TP,
    ESP_PRIV_FW_DATA]

theorem byte_at_value (value after : List Byte) (h : value ≠ []) :
    byte_at (value ++ after) 0 = (value.getD 0 0).val := by
  cases value with
  | nil => exact absurd rfl h
  | cons v vs => rfl

theorem process_init_event_finish_capabilities (env : InitEnv) (r : InitScan × Bool) :
    (process_init_event_return env r).state.capabilities = r.1.state.capabilities ∧
    (process_init_event_return env r).visited = r.1.visited := by
  unfold process_init_event_return process_init_event_finish spi_exit
  simp only
  split_ifs <;> simp

/-- C16: evaluation at the failing input. The event `malformed_event` is declared with
`len` 6 and its second record (at offset 3, length 5) runs past the declared end.
`process_init_event` does not abort: the `u8` subtraction wraps `len_left` to 252, the loop
reads a further record at offset 10 (beyond the declared 6 octets), applies it
(`capabilities` becomes 7F), and the card is added with return value 0. -/
theorem process_init_event_reads_past_end :
    process_init_event 4 sample_env open_state (some malformed_event) 6
      = some { ret := 0
               state := { open_state with
                 capabilities := 0x7F
                 hardware_type := 0
                 first_esp_bootup_over := 1
                 events := [Event.add_card, Event.process_capabilities 0x7F] }
               visited := [0, 3, 10] } ∧
    3 + (2 + byte_at malformed_event 4) > 6 ∧
    (10 : Nat) ≥ 6 := by
  decide

/-- C17: a stream that holds only one Chip-identity record with value `v`. If `v` is none of
the seven supported identifiers, `process_init_event` returns -1 and changes nothing but
`hardware_type` (set to `ESP_PRIV_FIRMWARE_CHIP_UNRECOGNIZED`): `capabilities`,
`first_esp_bootup_over` and the event log are as before, so no card is added and no
reinit scheduled. If `v` is one of the seven, `{0x0, 0x2, 0x5, 0x9, 0xC, 0xD, 0x17}`, the
call gets past the check: it schedules the reinit work and returns 0, or calls
`esp_add_card` and returns 0 or the error of `esp_add_card`. -/
theorem unknown_chip_identity_rejected (fuel : Nat) (env : InitEnv) (s : SpiState) (v : Byte)
    (rest : List Byte) (hf : 2 ≤ fuel) :
    (chip_unrecognized v.val = true →
      ∃ res, process_init_event fuel env s (some ([2, 1, v] ++ rest)) 3 = some res ∧
        res.ret = -1 ∧
        res.state = { s with hardware_type := ESP_PRIV_FIRMWARE_CHIP_UNRECOGNIZED } ∧
        res.state.capabilities = s.capabilities ∧
        res.state.first_esp_bootup_over = s.first_esp_bootup_over ∧
        res.state.events = s.events) ∧
    (chip_unrecognized v.val = false →
      ∃ res, process_init_event fuel env s (some ([2, 1, v] ++ rest)) 3 = some res ∧
        ((res.ret = 0 ∧ res.state.events = s.events ++ [Event.schedule_reinit_work]) ∨
         (res.ret = env.esp_add_card ∧
          ∃ more, res.state.events = s.events ++ Event.add_card :: more))) ∧
    (chip_unrecognized v.val = false ↔
      v.val = 0x0 ∨ v.val = 0x2 ∨ v.val = 0x5 ∨ v.val = 0x9 ∨ v.val = 0xC ∨ v.val = 0xD
        ∨ v.val = 0x17) := by
  have hstream : tlv_stream [⟨2, [v]⟩] = [2, 1, v] := rfl
  have hcall : process_init_event fuel env s (some ([2, 1, v] ++ rest)) 3
      = some (process_init_event_finish env
          { pos := 3, len_left := 0, fw_version_checked := false,
            state := { s with hardware_type := v.val }, visited := [0] }) := by
    have htot : tlv_total [(⟨2, [v]⟩ : TlvRecord)] = 3 := rfl
    have h := process_init_event_eq_scan fuel env s [⟨2, [v]⟩] rest
      (by rw [htot]; decide) (by simpa using hf)
    rw [hstream, htot] at h
    rw [h]
    rfl
  refine ⟨?_, ?_, ?_⟩
  · intro hu
    refine ⟨_, hcall, ?_⟩
    simp [process_init_event_finish, hu]
  · intro hu
    refine ⟨_, hcall, ?_⟩
    by_cases hb : s.first_esp_bootup_over ≠ 0
    · left
      simp [process_init_event_finish, hu, hb]
    · right
      by_cases ha : env.esp_add_card ≠ 0
      · simp [process_init_event_finish, hu, hb, ha, spi_exit]
      · have ha0 : env.esp_add_card = 0 := by
          by_contra h
          exact ha h
        simp [process_init_event_finish, hu, hb, ha0]
  · simp [chip_unrecognized, ESP_PRIV_FIRMWARE_CHIP_ESP32, ESP_PRIV_FIRMWARE_CHIP_ESP32S2,
      ESP_PRIV_FIRMWARE_CHIP_ESP32C2, ESP_PRIV_FIRMWARE_CHIP_ESP32C3,
      ESP_PRIV_FIRMWARE_CHIP_ESP32C5, ESP_PRIV_FIRMWARE_CHIP_ESP32C6,
      ESP_PRIV_FIRMWARE_CHIP_ESP32S3]
    omega

/-- Witness of C17: the unsupported chip identity EE, sent to the open, empty state. -/
theorem unknown_chip_identity_rejected_witness :
    ∃ res, process_init_event 2 sample_env open_state (some ([2, 1, 0xEE] ++ [])) 3 = some res ∧
      res.ret = -1 ∧
      res.state = { open_state with hardware_type := ESP_PRIV_FIRMWARE_CHIP_UNRECOGNIZED } ∧
      res.state.capabilities = open_state.capabilities ∧
      res.state.first_esp_bootup_over = open_state.first_esp_bootup_over ∧
      res.state.events = open_state.events :=
  (unknown_chip_identity_rejected 2 sample_env open_state 0xEE [] (by decide)).1 (by decide)

/-- C18, counterexample: on the stream Capability 80, Chip-identity EE (unsupported),
`process_init_event` returns -1 and `capabilities`, 0 before the call, is 0x80 after
it. -/
theorem capabilities_changed_on_failure :
    open_state.capabilities = 0 ∧
    process_init_event 3 sample_env open_state (some (tlv_stream unknown_chip_stream))
        (tlv_total unknown_chip_stream)
      = some { ret := -1
               state := { open_state with
                 capabilities := 0x80
                 hardware_type := ESP_PRIV_FIRMWARE_CHIP_UNRECOGNIZED }
               visited := [0, 3] } := by
  decide

theorem scan_records_stopped (env : InitEnv) (rest : List Byte) :
    ∀ (rs : List TlvRecord) (sc : InitScan),
      (∀ r ∈ rs, r.tag.val = ESP_PRIV_CAPABILITY → r.value ≠ []) →
      ∃ n, n ≤ rs.length ∧
        (scan_records env sc rs rest).1.visited = sc.visited ++ tlv_offsets sc.pos (rs.take n) ∧
        (scan_records env sc rs rest).1.state.capabilities
          = last_capability sc.state.capabilities (rs.take n) ∧
        ((scan_records env sc rs rest).2 = false → n = rs.length) ∧
        ((scan_records env sc rs rest).2 = true →
          0 < n ∧ ∃ r, rs[n - 1]? = some r ∧ r.tag.val = ESP_PRIV_FW_DATA ∧
            env.process_fw_data r.value ≠ 0) := by
  intro rs
  induction rs with
  | nil =>
    intro sc _
    exact ⟨0, Nat.le_refl _, by simp [scan_records, tlv_offsets], rfl, fun _ => rfl,
      fun h => by simp [scan_records] at h⟩
  | cons r rs ih =>
    intro sc hcap
    obtain ⟨hc, hfw⟩ := scan_record_effect env sc r (tlv_stream rs ++ rest)
    have hcapr := hcap r (List.mem_cons_self r rs)
    by_cases hfail : (scan_record env sc r (tlv_stream rs ++ rest)).2 = true
    · obtain ⟨htag, hrefused, hsc⟩ := hfw hfail
      have hnc : ¬ r.tag.val = ESP_PRIV_CAPABILITY := by
        rw [htag]
        decide
      refine ⟨1, by simp, ?_, ?_, ?_, ?_⟩
      · simp only [scan_records, hfail, if_true]
        rw [hsc]
        simp [tlv_offsets]
      · simp only [scan_records, hfail, if_true]
        rw [hsc]
        simp [last_capability, hnc]
      · intro h
        simp only [scan_records, hfail, if_true] at h
        exact absurd h (by decide)
      · intro _
        exact ⟨Nat.one_pos, r, by simp, htag, hrefused⟩
    · have hfalse : (scan_record env sc r (tlv_stream rs ++ rest)).2 = false := by
        simpa using hfail
      obtain ⟨n1, _, n3⟩ := scan_record_next env sc r (tlv_stream rs ++ rest) hfalse
      obtain ⟨n, hn, hv, hcaps, hall, hstop⟩ :=
        ih (scan_record env sc r (tlv_stream rs ++ rest)).1
          (fun x hx => hcap x (List.mem_cons_of_mem r hx))
      refine ⟨n + 1, by simp; omega, ?_, ?_, ?_, ?_⟩
      · simp only [scan_records, hfalse, Bool.false_eq_true, if_false]
        rw [hv, n1, n3]
        simp [tlv_offsets]
      · simp only [scan_records, hfalse, Bool.false_eq_true, if_false]
        rw [hcaps, hc]
        by_cases hcp : r.tag.val = ESP_PRIV_CAPABILITY
        · simp only [List.take_succ_cons, last_capability, hcp, if_true]
          rw [byte_at_value _ _ (hcapr hcp)]
        · simp only [List.take_succ_cons, last_capability, hcp, if_false]
      · intro h
        simp only [scan_records, hfalse, Bool.false_eq_true, if_false] at h
        rw [hall h]
        simp
      · intro h
        simp only [scan_records, hfalse, Bool.false_eq_true, if_false] at h
        obtain ⟨hpos, x, hx, hxt, hxr⟩ := hstop h
        refine ⟨Nat.succ_pos n, x, ?_, hxt, hxr⟩
        obtain ⟨m, rfl⟩ : ∃ m, n = m + 1 := ⟨n - 1, by omega⟩
        simpa using hx

/-- C18, amended: `capabilities` is assigned while the stream is scanned, at each Capability
record, and no failure path restores it. For every well-formed stream (declared total at
most 255, every Capability record with its value octet) the call returns, and whatever it
returns, `capabilities` afterwards is the value octet of the last Capability record among
the records that were scanned (the value before the call if none of them is a Capability
record). The scanned records are the first `n` of the stream: all of them, or, when the
call returned -1 at a Firmware-version record that `process_fw_data` refused, the records
up to and including that one. -/
theorem capabilities_published_during_scan (fuel : Nat) (env : InitEnv) (s : SpiState)
    (rs : List TlvRecord) (rest : List Byte)
    (htot : tlv_total rs ≤ 255)
    (hcap : ∀ r ∈ rs, r.tag.val = ESP_PRIV_CAPABILITY → r.value ≠ [])
    (hf : rs.length < fuel) :
    ∃ (res : InitResult) (n : Nat),
      process_init_event fuel env s (some (tlv_stream rs ++ rest)) (tlv_total rs) = some res ∧
      n ≤ rs.length ∧
      res.visited = tlv_offsets 0 (rs.take n) ∧
      res.state.capabilities = last_capability s.capabilities (rs.take n) ∧
      (n < rs.length →
        res.ret = -1 ∧ 0 < n ∧
        ∃ r, rs[n - 1]? = some r ∧ r.tag.val = ESP_PRIV_FW_DATA ∧
          env.process_fw_data r.value ≠ 0) := by
  obtain ⟨n, hn, hv, hc, hall, hstop⟩ := scan_records_stopped env rest rs
    { pos := 0, len_left := tlv_total rs, fw_version_checked := false, state := s,
      visited := [] } hcap
  obtain ⟨k1, k2⟩ := process_init_event_finish_capabilities env
    (scan_records env
      { pos := 0, len_left := tlv_total rs, fw_version_checked := false, state := s,
        visited := [] } rs rest)
  refine ⟨_, n, process_init_event_eq_scan fuel env s rs rest htot hf, hn, ?_, ?_, ?_⟩
  · rw [k2, hv]
    rfl
  · rw [k1, hc]
  · intro hlt
    have hflag : (scan_records env
        { pos := 0, len_left := tlv_total rs, fw_version_checked := false, state := s,
          visited := [] } rs rest).2 = true := by
      by_contra hne
      have hfalse : (scan_records env
          { pos := 0, len_left := tlv_total rs, fw_version_checked := false, state := s,
            visited := [] } rs rest).2 = false := by
        simpa using hne
      have := hall hfalse
      omega
    obtain ⟨hpos, r, hr, htag, hrefused⟩ := hstop hflag
    refine ⟨?_, hpos, r, hr, htag, hrefused⟩
    unfold process_init_event_return
    rw [if_pos hflag]

/-- Witness of C18 (amended): the stream of the counterexample. -/
theorem capabilities_published_during_scan_witness :
    ∃ (res : InitResult) (n : Nat),
      process_init_event 3 sample_env open_state (some (tlv_stream unknown_chip_stream ++ []))
        (tlv_total unknown_chip_stream) = some res ∧
      n ≤ unknown_chip_stream.length ∧
      res.visited = tlv_offsets 0 (unknown_chip_stream.take n) ∧
      res.state.capabilities
        = last_capability open_state.capabilities (unknown_chip_stream.take n) ∧
      (n < unknown_chip_stream.length →
        res.ret = -1 ∧ 0 < n ∧
        ∃ r, unknown_chip_stream[n - 1]? = some r ∧ r.tag.val = ESP_PRIV_FW_DATA ∧
          sample_env.process_fw_data r.value ≠ 0) :=
  capabilities_published_during_scan 3 sample_env open_state unknown_chip_stream []
    (by decide) (by decide) (by decide)

theorem scan_record_core (env : InitEnv) (sc1 sc2 : InitScan) (r : TlvRecord)
    (a1 a2 : List Byte) (hs : sc1.state = sc2.state)
    (hc : sc1.fw_version_checked = sc2.fw_version_checked) (hv : r.has_value) :
    scan_core (scan_record env sc1 r a1) = scan_core (scan_record env sc2 r a2) := by
  have hval : (r.tag.val = ESP_PRIV_CAPABILITY ∨ r.tag.val = ESP_PRIV_FIRMWARE_CHIP_ID
      ∨ r.tag.val = ESP_PRIV_TEST_RAW_TP) →
      byte_at (r.value ++ a1) 0 = byte_at (r.value ++ a2) 0 := by
    intro h
    rw [byte_at_value _ _ (hv h), byte_at_value _ _ (hv h)]
  unfold scan_core scan_record
  simp only
  by_cases h0 : r.tag.val = ESP_PRIV_CAPABILITY
  · simp only [if_pos h0, hs, hc, hval (Or.inl h0)]
  · by_cases h2 : r.tag.val = ESP_PRIV_FIRMWARE_CHIP_ID
    · simp only [if_neg h0, if_pos h2, hs, hc, hval (Or.inr (Or.inl h2))]
    · by_cases h3 : r.tag.val = ESP_PRIV_TEST_RAW_TP
      · simp only [if_neg h0, if_neg h2, if_pos h3, hs, hc, hval (Or.inr (Or.inr h3))]
      · by_cases h4 : r.tag.val = ESP_PRIV_FW_DATA
        · by_cases h5 : env.process_fw_data r.value ≠ 0
          · simp only [if_neg h0, if_neg h2, if_neg h3, if_pos h4, if_pos h5, hs, hc]
          · simp only [if_neg h0, if_neg h2, if_neg h3, if_pos h4, if_neg h5, hs]
        · simp only [if_neg h0, if_neg h2, if_neg h3, if_neg h4, hs, hc]

theorem scan_records_core (env : InitEnv) :
    ∀ (rs : List TlvRecord) (sc1 sc2 : InitScan) (rest1 rest2 : List Byte),
      sc1.state = sc2.state → sc1.fw_version_checked = sc2.fw_version_checked →
      (∀ r ∈ rs, r.has_value) →
      scan_core (scan_records env sc1 rs rest1) = scan_core (scan_records env sc2 rs rest2) := by
  intro rs
  induction rs with
  | nil =>
    intro sc1 sc2 _ _ hs hc _
    simp [scan_records, scan_core, hs, hc]
  | cons r rs ih =>
    intro sc1 sc2 rest1 rest2 hs hc hv
    have hcore := scan_record_core env sc1 sc2 r (tlv_stream rs ++ rest1)
      (tlv_stream rs ++ rest2) hs hc (hv r (List.mem_cons_self r rs))
    have hflag : (scan_record env sc1 r (tlv_stream rs ++ rest1)).2
        = (scan_record env sc2 r (tlv_stream rs ++ rest2)).2 :=
      congrArg (fun c => c.2.2) hcore
    have hst : (scan_record env sc1 r (tlv_stream rs ++ rest1)).1.state
        = (scan_record env sc2 r (tlv_stream rs ++ rest2)).1.state :=
      congrArg (fun c => c.1) hcore
    have hfw : (scan_record env sc1 r (tlv_stream rs ++ rest1)).1.fw_version_checked
        = (scan_record env sc2 r (tlv_stream rs ++ rest2)).1.fw_version_checked :=
      congrArg (fun c => c.2.1) hcore
    simp only [scan_records]
    rw [hflag]
    by_cases hfail : (scan_record env sc2 r (tlv_stream rs ++ rest2)).2 = true
    · simp only [hfail, if_true]
      exact hcore
    · simp only [hfail, if_false]
      exact ih _ _ rest1 rest2 hst hfw (fun x hx => hv x (List.mem_cons_of_mem r hx))

theorem scan_record_unknown (env : InitEnv) (sc : InitScan) (r : TlvRecord)
    (after : List Byte) (hr : r.unknown) :
    (scan_record env sc r after).2 = false ∧
    (scan_record env sc r after).1.state = sc.state ∧
    (scan_record env sc r after).1.fw_version_checked = sc.fw_version_checked := by
  obtain ⟨h0, h2, h3, h4⟩ := hr
  unfold scan_record
  simp only [if_neg h0, if_neg h2, if_neg h3, if_neg h4]
  refine ⟨?_, ?_, ?_⟩ <;> trivial

theorem scan_records_insert_unknown (env : InitEnv) (r : TlvRecord) (post : List TlvRecord)
    (hr : r.unknown) (hpost : ∀ x ∈ post, x.has_value) :
    ∀ (pre : List TlvRecord) (sc1 sc2 : InitScan) (rest1 rest2 : List Byte),
      sc1.state = sc2.state → sc1.fw_version_checked = sc2.fw_version_checked →
      (∀ x ∈ pre, x.has_value) →
      scan_core (scan_records env sc1 (pre ++ r :: post) rest1)
        = scan_core (scan_records env sc2 (pre ++ post) rest2) := by
  intro pre
  induction pre with
  | nil =>
    intro sc1 sc2 rest1 rest2 hs hc _
    obtain ⟨u1, u2, u3⟩ := scan_record_unknown env sc1 r (tlv_stream post ++ rest1) hr
    simp only [List.nil_append, scan_records, u1, Bool.false_eq_true, if_false]
    exact scan_records_core env post _ _ rest1 rest2 (u2.trans hs) (u3.trans hc) hpost
  | cons p pre ih =>
    intro sc1 sc2 rest1 rest2 hs hc hv
    have hcore := scan_record_core env sc1 sc2 p (tlv_stream (pre ++ r :: post) ++ rest1)
      (tlv_stream (pre ++ post) ++ rest2) hs hc (hv p (List.mem_cons_self p pre))
    have hflag : (scan_record env sc1 p (tlv_stream (pre ++ r :: post) ++ rest1)).2
        = (scan_record env sc2 p (tlv_stream (pre ++ post) ++ rest2)).2 :=
      congrArg (fun c => c.2.2) hcore
    have hst : (scan_record env sc1 p (tlv_stream (pre ++ r :: post) ++ rest1)).1.state
        = (scan_record env sc2 p (tlv_stream (pre ++ post) ++ rest2)).1.state :=
      congrArg (fun c => c.1) hcore
    have hfw :
        (scan_record env sc1 p (tlv_stream (pre ++ r :: post) ++ rest1)).1.fw_version_checked
        = (scan_record env sc2 p (tlv_stream (pre ++ post) ++ rest2)).1.fw_version_checked :=
      congrArg (fun c => c.2.1) hcore
    rw [List.cons_append, List.cons_append]
    simp only [scan_records]
    rw [hflag]
    by_cases hfail : (scan_record env sc2 p (tlv_stream (pre ++ post) ++ rest2)).2 = true
    · simp only [hfail, if_true]
      exact hcore
    · simp only [hfail, if_false]
      exact ih _ _ rest1 rest2 hst hfw (fun x hx => hv x (List.mem_cons_of_mem p hx))

theorem process_init_event_return_core (env : InitEnv) (r1 r2 : InitScan × Bool)
    (h : scan_core r1 = scan_core r2) :
    (process_init_event_return env r1).ret = (process_init_event_return env r2).ret ∧
    (process_init_event_return env r1).state = (process_init_event_return env r2).state := by
  have hst : r1.1.state = r2.1.state := congrArg (fun c => c.1) h
  have hflag : r1.2 = r2.2 := congrArg (fun c => c.2.2) h
  unfold process_init_event_return process_init_event_finish
  simp only [hst, hflag]
  split_ifs <;> exact ⟨rfl, rfl⟩

theorem tlv_total_append (a b : List TlvRecord) :
    tlv_total (a ++ b) = tlv_total a + tlv_total b := by
  induction a with
  | nil => simp [tlv_total]
  | cons x xs ih => simp [tlv_total, ih]; omega

/-- C20, counterexample: the stream of a Chip-identity record of length 0 followed by a
Capability record with value 80 (sizes 2 + 3, declared total 5) and the record with tag 1
(SPI clock, none of the four tags that are acted on) and value 00. For the stream itself
`process_init_event` returns 0: the Chip-identity record makes the loop read the octet
after its header, the tag 0 of the next record, which is the identifier of ESP32, and the
card is added. With the record inserted between the two (declared total 8) that octet is
the tag 1, not a supported identifier, and the call returns -1 with the hardware type
unrecognized and no card added. -/
theorem zero_length_chip_record_reads_next_tag :
    tlv_total [⟨2, []⟩, ⟨0, [0x80]⟩] = 5 ∧
    tlv_total [⟨2, []⟩, ⟨1, [0]⟩, ⟨0, [0x80]⟩] = 8 ∧
    TlvRecord.unknown ⟨1, [0]⟩ ∧
    process_init_event 3 sample_env open_state
        (some (tlv_stream [⟨2, []⟩, ⟨0, [0x80]⟩])) 5
      = some { ret := 0
               state := { open_state with
                 capabilities := 0x80
                 hardware_type := ESP_PRIV_FIRMWARE_CHIP_ESP32
                 first_esp_bootup_over := 1
                 events := [Event.add_card, Event.process_capabilities 0x80] }
               visited := [0, 2] } ∧
    process_init_event 4 sample_env open_state
        (some (tlv_stream [⟨2, []⟩, ⟨1, [0]⟩, ⟨0, [0x80]⟩])) 8
      = some { ret := -1
               state := { open_state with
                 capabilities := 0x80
                 hardware_type := ESP_PRIV_FIRMWARE_CHIP_UNRECOGNIZED }
               visited := [0, 2, 5] } := by
  decide

/-- C20, amended: take a well-formed stream `pre ++ post` in which every Capability,
Chip-identity and Raw-throughput-test record carries its value octet (length at least 1),
and a record `r`, of any length, whose tag is none of
Capability, Chip-identity, Raw-throughput-test and Firmware-version, and insert `r` at the
boundary between `pre` and `post`, the total staying within 255. `process_init_event`
returns on both streams, with the same return value and the same resulting state
(capabilities, hardware type, `first_esp_bootup_over`, card added or reinit scheduled):
the record is skipped without any effect. -/
theorem unknown_tag_skipped (fuel : Nat) (env : InitEnv) (s : SpiState)
    (pre post : List TlvRecord) (r : TlvRecord) (rest1 rest2 : List Byte)
    (hr : r.unknown)
    (hwf : ∀ x ∈ pre ++ post, x.has_value)
    (htot : tlv_total (pre ++ r :: post) ≤ 255)
    (hf : (pre ++ r :: post).length < fuel) :
    ∃ res1 res2 : InitResult,
      process_init_event fuel env s (some (tlv_stream (pre ++ post) ++ rest1))
        (tlv_total (pre ++ post)) = some res1 ∧
      process_init_event fuel env s (some (tlv_stream (pre ++ r :: post) ++ rest2))
        (tlv_total (pre ++ r :: post)) = some res2 ∧
      res2.ret = res1.ret ∧
      res2.state = res1.state := by
  have htot1 : tlv_total (pre ++ post) ≤ 255 := by
    rw [tlv_total_append] at htot ⊢
    simp only [tlv_total] at htot
    omega
  have hf1 : (pre ++ post).length < fuel := by
    simp only [List.length_append, List.length_cons] at hf ⊢
    omega
  have hcore := scan_records_insert_unknown env r post hr
    (fun x hx => hwf x (List.mem_append_right pre hx)) pre
    { pos := 0, len_left := tlv_total (pre ++ r :: post), fw_version_checked := false,
      state := s, visited := [] }
    { pos := 0, len_left := tlv_total (pre ++ post), fw_version_checked := false,
      state := s, visited := [] } rest2 rest1 rfl rfl
    (fun x hx => hwf x (List.mem_append_left post hx))
  obtain ⟨hret, hstate⟩ := process_init_event_return_core env _ _ hcore
  exact ⟨_, _, process_init_event_eq_scan fuel env s (pre ++ post) rest1 htot1 hf1,
    process_init_event_eq_scan fuel env s (pre ++ r :: post) rest2 htot hf, hret, hstate⟩

/-- Witness of C20: a record with tag 1 (SPI clock) and two value octets inserted between the
second and the third record of `sample_stream`. -/
theorem unknown_tag_skipped_witness :
    ∃ res1 res2 : InitResult,
      process_init_event 5 sample_env open_state
        (some (tlv_stream (sample_stream.take 2 ++ sample_stream.drop 2) ++ []))
        (tlv_total (sample_stream.take 2 ++ sample_stream.drop 2)) = some res1 ∧
      process_init_event 5 sample_env open_state
        (some (tlv_stream (sample_stream.take 2 ++ ⟨1, [10, 0]⟩ :: sample_stream.drop 2) ++ []))
        (tlv_total (sample_stream.take 2 ++ ⟨1, [10, 0]⟩ :: sample_stream.drop 2)) = some res2 ∧
      res2.ret = res1.ret ∧
      res2.state = res1.state :=
  unknown_tag_skipped 5 sample_env open_state (sample_stream.take 2) (sample_stream.drop 2)
    ⟨1, [10, 0]⟩ [] [] (by decide) (by decide) (by decide) (by decide)

/-! ## The reinit work -/

theorem esp_spi_reinit_work_running (cfg : Config) (add_card_ret : Int) (s : SpiState)
    (h : s.device_state = cfg.SPI_DEVICE_RUNNING) :
    esp_spi_reinit_work cfg add_card_ret s
      = { s with
          tx_q := PrioQueues.empty
          rx_q := PrioQueues.empty
          events := s.events ++ [Event.remove_card, Event.add_card]
          device_state := cfg.SPI_DEVICE_RUNNING } := by
  unfold esp_spi_reinit_work
  simp [h, reinit_purge_queues, reinit_init_queues, skb_queue_purge, skb_queue_head_init,
    PrioQueues.empty]

theorem write_packet_device_state (cfg : Config) (s : SpiState) (skb : Option SkBuff) :
    (write_packet cfg s skb).2.device_state = s.device_state := by
  unfold write_packet
  cases skb with
  | none => simp
  | some skb =>
    simp only
    split_ifs <;> simp

theorem process_rx_buf_device_state (cfg : Config) (s : SpiState) (skb : Option SkBuff) :
    (process_rx_buf cfg s skb).2.device_state = s.device_state := by
  unfold process_rx_buf
  cases skb with
  | none => simp
  | some skb =>
    simp only
    split_ifs <;> simp

theorem write_packets_device_state (cfg : Config) :
    ∀ (fs : List SkBuff) (s : SpiState),
      (write_packets cfg s fs).device_state = s.device_state := by
  intro fs
  induction fs with
  | nil => intro s; rfl
  | cons f fs ih =>
    intro s
    rw [write_packets, ih, write_packet_device_state]

theorem process_rx_bufs_device_state (cfg : Config) :
    ∀ (bs : List SkBuff) (s : SpiState),
      (process_rx_bufs cfg s bs).device_state = s.device_state := by
  intro bs
  induction bs with
  | nil => intro s; rfl
  | cons b bs ih =>
    intro s
    rw [process_rx_bufs, ih, process_rx_buf_device_state]

/-- C22: for every context whose `device_state` is `SPI_DEVICE_RUNNING`, whatever its
queues hold, all six queues are empty when `esp_spi_reinit_work` returns; and when any
frames `fs` are then handed to `write_packet` and any buffers `bs` to `process_rx_buf`, a
second run of `esp_spi_reinit_work` again leaves all six queues empty. -/
theorem reinit_purges_all_queues (cfg : Config) (ret1 ret2 : Int) (s : SpiState)
    (fs bs : List SkBuff) (h : s.device_state = cfg.SPI_DEVICE_RUNNING) :
    (esp_spi_reinit_work cfg ret1 s).tx_q = PrioQueues.empty ∧
    (esp_spi_reinit_work cfg ret1 s).rx_q = PrioQueues.empty ∧
    (esp_spi_reinit_work cfg ret2
      (process_rx_bufs cfg (write_packets cfg (esp_spi_reinit_work cfg ret1 s) fs) bs)).tx_q
      = PrioQueues.empty ∧
    (esp_spi_reinit_work cfg ret2
      (process_rx_bufs cfg (write_packets cfg (esp_spi_reinit_work cfg ret1 s) fs) bs)).rx_q
      = PrioQueues.empty := by
  have h1 := esp_spi_reinit_work_running cfg ret1 s h
  have hd : (process_rx_bufs cfg (write_packets cfg (esp_spi_reinit_work cfg ret1 s) fs)
      bs).device_state = cfg.SPI_DEVICE_RUNNING := by
    rw [process_rx_bufs_device_state, write_packets_device_state, h1]
  have h2 := esp_spi_reinit_work_running cfg ret2 _ hd
  refine ⟨?_, ?_, ?_, ?_⟩
  · rw [h1]
  · rw [h1]
  · rw [h2]
  · rw [h2]

/-- Witness of C22: the running link `busy_state` with frames in four queues; between the
two runs an Other-class and a Serial-class frame are written and one buffer is received. -/
theorem reinit_purges_all_queues_witness :
    (esp_spi_reinit_work sample_cfg 0 busy_state).tx_q = PrioQueues.empty ∧
    (esp_spi_reinit_work sample_cfg 0 busy_state).rx_q = PrioQueues.empty ∧
    (esp_spi_reinit_work sample_cfg (-1)
      (process_rx_bufs sample_cfg
        (write_packets sample_cfg (esp_spi_reinit_work sample_cfg 0 busy_state)
          [{ data := sample_sta_frame }, { data := sample_serial_frame }])
        [rx_buffer sample_sta_frame])).tx_q
      = PrioQueues.empty ∧
    (esp_spi_reinit_work sample_cfg (-1)
      (process_rx_bufs sample_cfg
        (write_packets sample_cfg (esp_spi_reinit_work sample_cfg 0 busy_state)
          [{ data := sample_sta_frame }, { data := sample_serial_frame }])
        [rx_buffer sample_sta_frame])).rx_q
      = PrioQueues.empty :=
  reinit_purges_all_queues sample_cfg 0 (-1) busy_state
    [{ data := sample_sta_frame }, { data := sample_serial_frame }]
    [rx_buffer sample_sta_frame] (by decide)

/-- C23: evaluation at the failing input. The running link `busy_state` has three
Other-class frames queued and `tx_pending` 3. After `esp_spi_reinit_work` the device state
is `SPI_DEVICE_RUNNING` again and all six queues are empty, but `tx_pending` is still 3:
the function never writes the counter. The same holds for every state. -/
theorem reinit_keeps_tx_pending :
    busy_state.device_state = sample_cfg.SPI_DEVICE_RUNNING ∧
    busy_state.tx_pending = 3 ∧
    (esp_spi_reinit_work sample_cfg 0 busy_state).device_state
      = sample_cfg.SPI_DEVICE_RUNNING ∧
    (esp_spi_reinit_work sample_cfg 0 busy_state).tx_q = PrioQueues.empty ∧
    (esp_spi_reinit_work sample_cfg 0 busy_state).rx_q = PrioQueues.empty ∧
    (esp_spi_reinit_work sample_cfg 0 busy_state).tx_pending = 3 ∧
    (∀ (cfg : Config) (ret : Int) (s : SpiState),
      (esp_spi_reinit_work cfg ret s).tx_pending = s.tx_pending) := by
  refine ⟨by decide, by decide, by decide, by decide, by decide, by decide, ?_⟩
  intro cfg ret s
  by_cases h : s.device_state = cfg.SPI_DEVICE_RUNNING
  · rw [esp_spi_reinit_work_running cfg ret s h]
  · unfold esp_spi_reinit_work
    rw [if_pos h]

/-- C24: when `esp_spi_reinit_work` is invoked while `device_state` is not
`SPI_DEVICE_RUNNING`, it returns with the whole state as it was: `device_state`, the six
queues and the call log (no `esp_remove_card`, no `esp_add_card`) are unchanged and the
function passes through no intermediate state. In particular this is so for a context that
a reinit in progress has put in `SPI_DEVICE_RESETTING`, when the two enumerators
differ. -/
theorem reinit_guarded (cfg : Config) (add_card_ret : Int) (s : SpiState)
    (h : s.device_state ≠ cfg.SPI_DEVICE_RUNNING) :
    esp_spi_reinit_work cfg add_card_ret s = s ∧
    (esp_spi_reinit_work cfg add_card_ret s).device_state = s.device_state ∧
    (esp_spi_reinit_work cfg add_card_ret s).tx_q = s.tx_q ∧
    (esp_spi_reinit_work cfg add_card_ret s).rx_q = s.rx_q ∧
    (esp_spi_reinit_work cfg add_card_ret s).events = s.events ∧
    esp_spi_reinit_work_trace cfg add_card_ret s = [] := by
  have hs : esp_spi_reinit_work cfg add_card_ret s = s := by
    unfold esp_spi_reinit_work
    rw [if_pos h]
  have ht : esp_spi_reinit_work_trace cfg add_card_ret s = [] := by
    unfold esp_spi_reinit_work_trace
    rw [if_pos h]
  rw [hs]
  exact ⟨rfl, rfl, rfl, rfl, rfl, ht⟩

/-- Witness of C24: `busy_state` while a reinit is in progress (`device_state` is
`SPI_DEVICE_RESETTING`) keeps its queues and its log. -/
theorem reinit_guarded_witness :
    esp_spi_reinit_work sample_cfg 0
        { busy_state with device_state := sample_cfg.SPI_DEVICE_RESETTING }
      = { busy_state with device_state := sample_cfg.SPI_DEVICE_RESETTING } :=
  (reinit_guarded sample_cfg 0
    { busy_state with device_state := sample_cfg.SPI_DEVICE_RESETTING } (by decide)).1

/-! ## The values of `device_state` -/

theorem esp_spi_reinit_work_trace_last (cfg : Config) (add_card_ret : Int) (s : SpiState) :
    esp_spi_reinit_work cfg add_card_ret s
      = (esp_spi_reinit_work_trace cfg add_card_ret s).getLast?.getD s := by
  unfold esp_spi_reinit_work esp_spi_reinit_work_trace
  by_cases h : s.device_state ≠ cfg.SPI_DEVICE_RUNNING
  · rw [if_pos h, if_pos h]
    rfl
  · rw [if_neg h, if_neg h]
    rfl

theorem esp_spi_reinit_work_trace_states (cfg : Config) (add_card_ret : Int) (s t : SpiState)
    (ht : t ∈ esp_spi_reinit_work_trace cfg add_card_ret s) :
    t.device_state = cfg.SPI_DEVICE_RUNNING ∨ t.device_state = cfg.SPI_DEVICE_RESETTING := by
  unfold esp_spi_reinit_work_trace at ht
  by_cases h : s.device_state ≠ cfg.SPI_DEVICE_RUNNING
  · rw [if_pos h] at ht
    cases ht
  · rw [if_neg h] at ht
    simp only [ite_self, List.mem_cons, List.mem_singleton, List.not_mem_nil, or_false] at ht
    rcases ht with rfl | rfl | rfl | rfl | rfl | rfl
    · exact Or.inr rfl
    · exact Or.inr rfl
    · exact Or.inr rfl
    · exact Or.inr rfl
    · exact Or.inr rfl
    · exact Or.inl rfl

theorem esp_spi_transaction_dequeue_device_state (cfg : Config) (s : SpiState) :
    (esp_spi_transaction_dequeue cfg s).2.device_state = s.device_state := by
  unfold esp_spi_transaction_dequeue
  by_cases hd : s.data_path = true
  · simp only [hd, if_true]
    split_ifs <;> rfl
  · rw [if_neg hd]

theorem esp_spi_transaction_device_state (cfg : Config) (s : SpiState) (hw : SpiHw) :
    (esp_spi_transaction cfg s hw).device_state = s.device_state := by
  unfold esp_spi_transaction
  simp only
  split_ifs <;>
    simp only [process_rx_buf_device_state, esp_spi_transaction_dequeue_device_state]

theorem spi_init_success (cfg : Config) (env : SpiInitEnv) (s : SpiState)
    (h : (spi_init cfg env s).1 = 0) :
    (spi_init cfg env s).2
      = { s with
          device_state := cfg.SPI_DEVICE_RUNNING
          tx_q := PrioQueues.empty
          rx_q := PrioQueues.empty
          esp_spi_dev := true
          tx_pending := 0
          data_path := true } := by
  unfold spi_init at h ⊢
  by_cases hw : env.worker_created = true
  · simp only [hw, Bool.not_true, Bool.false_eq_true, if_false] at h ⊢
    unfold spi_dev_init at h ⊢
    by_cases hd : env.spi_dev_status ≠ 0
    · rw [if_pos hd] at h
      simp only [if_pos hd] at h
      exact absurd h hd
    · rw [if_neg hd] at h ⊢
      have h00 : ¬ ((0 : Int) ≠ 0) := fun hne => hne rfl
      simp only [if_neg h00] at h ⊢
      by_cases hs : env.esp_serial_init ≠ 0
      · rw [if_pos hs] at h
        exact absurd h hs
      · rw [if_neg hs]
        simp [open_data_path, reinit_init_queues, skb_queue_head_init, PrioQueues.empty]
  · have hw2 : env.worker_created = false := by simpa using hw
    simp only [hw2, Bool.not_false, if_true] at h
    split_ifs at h <;> simp [EFAULT] at h

/-- C25: for every context whose `device_state` is `SPI_DEVICE_RUNNING`, `device_state` is
`SPI_DEVICE_RUNNING` again when `esp_spi_reinit_work` returns, whatever `esp_add_card`
returned (the result does not depend on it), and in every state the function passes
through `device_state` is `SPI_DEVICE_RUNNING` or `SPI_DEVICE_RESETTING`. A successful
`spi_init` leaves `SPI_DEVICE_RUNNING`, and `write_packet`, `process_rx_buf`, `read_packet`
and `esp_spi_transaction` do not change `device_state`: running and resetting are the only
values it takes between `spi_init` and `spi_exit`. -/
theorem device_state_running_or_resetting (cfg : Config) :
    (∀ (s : SpiState) (ret : Int), s.device_state = cfg.SPI_DEVICE_RUNNING →
      (esp_spi_reinit_work cfg ret s).device_state = cfg.SPI_DEVICE_RUNNING ∧
      esp_spi_reinit_work cfg ret s
        = (esp_spi_reinit_work_trace cfg ret s).getLast?.getD s ∧
      (esp_spi_reinit_work_trace cfg ret s).length = 6 ∧
      ∀ t ∈ esp_spi_reinit_work_trace cfg ret s,
        t.device_state = cfg.SPI_DEVICE_RUNNING ∨
        t.device_state = cfg.SPI_DEVICE_RESETTING) ∧
    (∀ (s : SpiState) (ret1 ret2 : Int),
      esp_spi_reinit_work cfg ret1 s = esp_spi_reinit_work cfg ret2 s) ∧
    (∀ (env : SpiInitEnv) (s : SpiState), (spi_init cfg env s).1 = 0 →
      (spi_init cfg env s).2.device_state = cfg.SPI_DEVICE_RUNNING) ∧
    (∀ (s : SpiState) (skb : Option SkBuff),
      (write_packet cfg s skb).2.device_state = s.device_state ∧
      (process_rx_buf cfg s skb).2.device_state = s.device_state) ∧
    (∀ (s : SpiState), (read_packet s).2.device_state = s.device_state) ∧
    (∀ (s : SpiState) (hw : SpiHw),
      (esp_spi_transaction cfg s hw).device_state = s.device_state) := by
  refine ⟨?_, ?_, ?_, ?_, ?_, ?_⟩
  · intro s ret h
    refine ⟨?_, esp_spi_reinit_work_trace_last cfg ret s, ?_,
      fun t ht => esp_spi_reinit_work_trace_states cfg ret s t ht⟩
    · rw [esp_spi_reinit_work_running cfg ret s h]
    · unfold esp_spi_reinit_work_trace
      have hn : ¬ s.device_state ≠ cfg.SPI_DEVICE_RUNNING := fun hne => hne h
      rw [if_neg hn]
      rfl
  · intro s ret1 ret2
    unfold esp_spi_reinit_work
    simp only [ite_self]
  · intro env s h
    rw [spi_init_success cfg env s h]
  · intro s skb
    exact ⟨write_packet_device_state cfg s skb, process_rx_buf_device_state cfg s skb⟩
  · intro s
    unfold read_packet
    split_ifs <;> rfl
  · intro s hw
    exact esp_spi_transaction_device_state cfg s hw

/-- Witness of C25: the running link `busy_state`, with `esp_add_card` reporting the error
-1. -/
theorem device_state_running_or_resetting_witness :
    (esp_spi_reinit_work sample_cfg (-1) busy_state).device_state
      = sample_cfg.SPI_DEVICE_RUNNING :=
  ((device_state_running_or_resetting sample_cfg).1 busy_state (-1) (by decide)).1

/-! ## Boot paths of `process_init_event` -/

theorem init_event_step_keeps (env : InitEnv) (evt_buf : List Byte) (sc : InitScan) :
    (init_event_step env evt_buf sc).1.state.first_esp_bootup_over
      = sc.state.first_esp_bootup_over ∧
    (init_event_step env evt_buf sc).1.state.device_state = sc.state.device_state ∧
    (init_event_step env evt_buf sc).1.state.events.count Event.add_card
      = sc.state.events.count Event.add_card ∧
    (init_event_step env evt_buf sc).1.state.events.count Event.schedule_reinit_work
      = sc.state.events.count Event.schedule_reinit_work := by
  unfold init_event_step
  simp only
  split_ifs <;> simp [List.count_append]

theorem process_init_event_loop_keeps (env : InitEnv) (evt_buf : List Byte) :
    ∀ (fuel : Nat) (sc : InitScan) (r : InitScan × Bool),
      process_init_event_loop env evt_buf fuel sc = some r →
      r.1.state.first_esp_bootup_over = sc.state.first_esp_bootup_over ∧
      r.1.state.device_state = sc.state.device_state ∧
      r.1.state.events.count Event.add_card = sc.state.events.count Event.add_card ∧
      r.1.state.events.count Event.schedule_reinit_work
        = sc.state.events.count Event.schedule_reinit_work := by
  intro fuel
  induction fuel with
  | zero =>
    intro sc r h
    simp [process_init_event_loop] at h
  | succ fuel ih =>
    intro sc r h
    rw [process_init_event_loop] at h
    by_cases h0 : sc.len_left = 0
    · rw [if_pos h0] at h
      cases h
      exact ⟨rfl, rfl, rfl, rfl⟩
    · rw [if_neg h0] at h
      obtain ⟨k1, k2, k3, k4⟩ := init_event_step_keeps env evt_buf sc
      by_cases hr : (init_event_step env evt_buf sc).2 = true
      · simp only [hr, if_true] at h
        cases h
        exact ⟨k1, k2, k3, k4⟩
      · simp only [hr, if_false] at h
        obtain ⟨j1, j2, j3, j4⟩ := ih _ r h
        exact ⟨j1.trans k1, j2.trans k2, j3.trans k3, j4.trans k4⟩

theorem process_init_event_finish_first_boot (env : InitEnv) (sc : InitScan)
    (hchip : chip_unrecognized sc.state.hardware_type = false)
    (hb : sc.state.first_esp_bootup_over = 0) :
    (process_init_event_finish env sc).ret = env.esp_add_card ∧
    (process_init_event_finish env sc).state.events.count Event.add_card
      = sc.state.events.count Event.add_card + 1 ∧
    (process_init_event_finish env sc).state.events.count Event.schedule_reinit_work
      = sc.state.events.count Event.schedule_reinit_work ∧
    ((process_init_event_finish env sc).state.first_esp_bootup_over = 1
      ↔ env.esp_add_card = 0) := by
  unfold process_init_event_finish
  by_cases ha : env.esp_add_card ≠ 0
  · simp [hchip, hb, ha, spi_exit, List.count_append]
  · have ha0 : env.esp_add_card = 0 := by
      by_contra h
      exact ha h
    simp [hchip, hb, ha0, List.count_append]

theorem process_init_event_finish_later_boot (env : InitEnv) (sc : InitScan)
    (hchip : chip_unrecognized sc.state.hardware_type = false)
    (hb : sc.state.first_esp_bootup_over ≠ 0) :
    (process_init_event_finish env sc).ret = 0 ∧
    (process_init_event_finish env sc).state
      = { sc.state with events := sc.state.events ++ [Event.schedule_reinit_work] } := by
  unfold process_init_event_finish
  simp [hchip, hb]

theorem process_init_event_finish_schedules (env : InitEnv) (sc : InitScan)
    (h : (process_init_event_finish env sc).state.events.count Event.schedule_reinit_work
      ≠ sc.state.events.count Event.schedule_reinit_work) :
    sc.state.first_esp_bootup_over ≠ 0 := by
  intro hb
  apply h
  unfold process_init_event_finish
  by_cases hchip : chip_unrecognized sc.state.hardware_type = true
  · simp [hchip]
  · have hc : chip_unrecognized sc.state.hardware_type = false := by simpa using hchip
    by_cases ha : env.esp_add_card ≠ 0
    · simp [hc, hb, ha, spi_exit, List.count_append]
    · have ha0 : env.esp_add_card = 0 := by
        by_contra h
        exact ha h
      simp [hc, hb, ha0, List.count_append]

/-- C21: take an init event on which the scan loop of `process_init_event` ends without an
incompatible firmware record (`hloop`) and whose chip identity is supported (`hchip`).
Then the call returns, and: if `first_esp_bootup_over` is 0, `esp_add_card` is called once
and the reinit work is not scheduled, the return value is that of `esp_add_card`, and
`first_esp_bootup_over` is 1 afterwards if and only if `esp_add_card` returned 0; if
`first_esp_bootup_over` is not 0, the reinit work is scheduled once, `esp_add_card` is not
called, `first_esp_bootup_over` is unchanged and 0 is returned. Moreover no call of
`process_init_event` whatever (any event, any outcome) schedules the reinit work when
`first_esp_bootup_over` is 0, and the flag becomes non-zero only in a call that called
`esp_add_card` with success: the reinit work runs only for an init event seen after a
successful first boot. -/
theorem init_event_boot_paths (fuel : Nat) (env : InitEnv) (s : SpiState) :
    (∀ (buf : List Byte) (len : Nat) (sc : InitScan),
      process_init_event_loop env buf fuel
          { pos := 0, len_left := len % 256, fw_version_checked := false, state := s,
            visited := [] } = some (sc, false) →
      chip_unrecognized sc.state.hardware_type = false →
      ∃ res, process_init_event fuel env s (some buf) len = some res ∧
        (s.first_esp_bootup_over = 0 →
          res.ret = env.esp_add_card ∧
          res.state.events.count Event.add_card = s.events.count Event.add_card + 1 ∧
          res.state.events.count Event.schedule_reinit_work
            = s.events.count Event.schedule_reinit_work ∧
          (res.state.first_esp_bootup_over = 1 ↔ env.esp_add_card = 0)) ∧
        (s.first_esp_bootup_over ≠ 0 →
          res.ret = 0 ∧
          res.state.events.count Event.schedule_reinit_work
            = s.events.count Event.schedule_reinit_work + 1 ∧
          res.state.events.count Event.add_card = s.events.count Event.add_card ∧
          res.state.first_esp_bootup_over = s.first_esp_bootup_over)) ∧
    (∀ (evt_buf : Option (List Byte)) (len : Nat) (res : InitResult),
      process_init_event fuel env s evt_buf len = some res →
      (res.state.events.count Event.schedule_reinit_work
          ≠ s.events.count Event.schedule_reinit_work →
        s.first_esp_bootup_over ≠ 0) ∧
      (res.state.first_esp_bootup_over ≠ s.first_esp_bootup_over →
        res.state.first_esp_bootup_over = 1 ∧ env.esp_add_card = 0 ∧
        res.state.events.count Event.add_card = s.events.count Event.add_card + 1)) := by
  constructor
  · intro buf len sc hloop hchip
    obtain ⟨k1, _, k3, k4⟩ := process_init_event_loop_keeps env buf fuel _ _ hloop
    have k1 : sc.state.first_esp_bootup_over = s.first_esp_bootup_over := k1
    have k3 : sc.state.events.count Event.add_card = s.events.count Event.add_card := k3
    have k4 : sc.state.events.count Event.schedule_reinit_work
        = s.events.count Event.schedule_reinit_work := k4
    refine ⟨process_init_event_finish env sc, ?_, ?_, ?_⟩
    · unfold process_init_event
      simp only [hloop, Option.map_some']
      rfl
    · intro hb
      obtain ⟨j1, j2, j3, j4⟩ :=
        process_init_event_finish_first_boot env sc hchip (k1.trans hb)
      exact ⟨j1, j2.trans (by rw [k3]), j3.trans k4, j4⟩
    · intro hb
      obtain ⟨j1, j2⟩ := process_init_event_finish_later_boot env sc hchip
        (fun h => hb (k1.symm.trans h))
      rw [j2]
      refine ⟨j1, ?_, ?_, k1⟩
      · simp [List.count_append, k4]
      · simp [List.count_append, k3]
  · intro evt_buf len res hres
    cases evt_buf with
    | none =>
      simp only [process_init_event, Option.some.injEq] at hres
      subst hres
      exact ⟨fun h => absurd rfl h, fun h => absurd rfl h⟩
    | some buf =>
      simp only [process_init_event, Option.map_eq_some'] at hres
      obtain ⟨r, hloop, hret⟩ := hres
      obtain ⟨k1, _, k3, k4⟩ := process_init_event_loop_keeps env buf fuel _ _ hloop
      have k1 : r.1.state.first_esp_bootup_over = s.first_esp_bootup_over := k1
      have k3 : r.1.state.events.count Event.add_card = s.events.count Event.add_card := k3
      have k4 : r.1.state.events.count Event.schedule_reinit_work
          = s.events.count Event.schedule_reinit_work := k4
      subst hret
      unfold process_init_event_return
      by_cases hr : r.2 = true
      · simp only [hr, if_true]
        exact ⟨fun h => absurd k4 h, fun h => absurd k1 h⟩
      · simp only [hr, if_false]
        constructor
        · intro h
          rw [← k4] at h
          rw [← k1]
          exact process_init_event_finish_schedules env r.1 h
        · intro h
          rw [← k1] at h
          rw [← k3]
          revert h
          unfold process_init_event_finish
          by_cases hchip : chip_unrecognized r.1.state.hardware_type = true
          · simp [hchip]
          · have hc : chip_unrecognized r.1.state.hardware_type = false := by simpa using hchip
            by_cases hb : r.1.state.first_esp_bootup_over ≠ 0
            · simp [hc, hb]
            · have hb0 : r.1.state.first_esp_bootup_over = 0 := by
                by_contra h
                exact hb h
              by_cases ha : env.esp_add_card ≠ 0
              · simp [hc, hb0, ha, spi_exit]
              · have ha0 : env.esp_add_card = 0 := by
                  by_contra h
                  exact ha h
                simp [hc, hb0, ha0, List.count_append]

/-- Witness of C21: the three-record stream `sample_stream` (chip ESP32-C3) sent to a link
whose first boot is over: the reinit work is scheduled once, `esp_add_card` is not called
and 0 is returned. -/
theorem init_event_boot_paths_witness :
    ∃ res, process_init_event 4 sample_env { open_state with first_esp_bootup_over := 1 }
        (some (tlv_stream sample_stream)) 9 = some res ∧
      res.ret = 0 ∧
      res.state.events.count Event.schedule_reinit_work = 1 ∧
      res.state.events.count Event.add_card = 0 ∧
      res.state.first_esp_bootup_over = 1 :=
  let ⟨res, h1, _, h3⟩ :=
    (init_event_boot_paths 4 sample_env { open_state with first_esp_bootup_over := 1 }).1
      (tlv_stream sample_stream) 9
      { pos := 9, len_left := 0, fw_version_checked := false,
        state := { open_state with
          first_esp_bootup_over := 1, capabilities := 0xA0, hardware_type := 5 },
        visited := [0, 3, 6] }
      (by decide) (by decide)
  ⟨res, h1, h3 (by decide)⟩

/-! ## Idle cycles and failed transfers -/

theorem esp_spi_transaction_dequeue_empty (cfg : Config) (s : SpiState)
    (hq : s.tx_q = PrioQueues.empty) :
    esp_spi_transaction_dequeue cfg s = (none, s) := by
  obtain ⟨dp, dev, caps, txq, rxq, p, ev, hwt, fbo, ds⟩ := s
  simp only at hq
  subst hq
  cases dp <;>
    simp [esp_spi_transaction_dequeue, PrioQueues.empty, PrioQueues.dequeue, skb_dequeue]

theorem transfer_count_append (s : SpiState) (l : List Event) :
    transfer_count { s with events := s.events ++ l }
      = transfer_count s + transfer_count { s with events := l } := by
  simp [transfer_count, List.filter_append]

theorem process_rx_buf_transfer_count (cfg : Config) (s : SpiState) (skb : Option SkBuff) :
    transfer_count (process_rx_buf cfg s skb).2 = transfer_count s := by
  unfold transfer_count
  rcases process_rx_buf_events cfg s skb with h | h
  · rw [h]
  · rw [h]
    simp [List.filter_append]

/-- C26, counterexample: kernel-thread variant, data path open, all three transmit queues
empty, peer-ready line high and peer-has-data line low. `esp_spi_transaction` returns with
the state as it was: no `spi_sync_transfer` is made. -/
theorem idle_cycle_makes_no_transfer :
    sample_hw.handshake = true ∧
    sample_hw.dataready = false ∧
    open_state.tx_q = PrioQueues.empty ∧
    esp_spi_transaction sample_cfg open_state sample_hw = open_state ∧
    transfer_count (esp_spi_transaction sample_cfg open_state sample_hw) = 0 := by
  decide

/-- C26, amended: kernel-thread variant, peer-ready line high, no frame in any of the three
transmit queues. If the peer-has-data line is high, `esp_spi_transaction` makes exactly one
`spi_sync_transfer`, of `SPI_BUF_SIZE` octets, with a transmit buffer of `SPI_BUF_SIZE`
zero octets. If the peer-has-data line is low, it returns with the state as it was and
makes no transfer. -/
theorem idle_cycle_transfers_when_data_ready (cfg : Config) (s : SpiState) (hw : SpiHw)
    (hv : cfg.USE_WORKQUEUE = false) (hh : hw.handshake = true)
    (hq : s.tx_q = PrioQueues.empty) :
    (hw.dataready = true →
      (∃ tail, (esp_spi_transaction cfg s hw).events
          = s.events
            ++ Event.spi_sync_transfer (List.replicate cfg.SPI_BUF_SIZE 0) cfg.SPI_BUF_SIZE
              :: tail) ∧
      transfer_count (esp_spi_transaction cfg s hw) = transfer_count s + 1) ∧
    (hw.dataready = false →
      esp_spi_transaction cfg s hw = s ∧
      transfer_count (esp_spi_transaction cfg s hw) = transfer_count s) := by
  have hdq := esp_spi_transaction_dequeue_empty cfg s hq
  constructor
  · intro hr
    have hstep : esp_spi_transaction cfg s hw
        = (if hw.xfer_ret ≠ 0 then
            { s with events := s.events
                ++ [Event.spi_sync_transfer (List.replicate cfg.SPI_BUF_SIZE 0) cfg.SPI_BUF_SIZE] }
          else
            (process_rx_buf cfg
              { s with events := s.events
                ++ [Event.spi_sync_transfer (List.replicate cfg.SPI_BUF_SIZE 0)
                      cfg.SPI_BUF_SIZE] }
              (some { data := (hw.xfer_rx ++ List.replicate cfg.SPI_BUF_SIZE 0).take
                                cfg.SPI_BUF_SIZE })).2) := by
      unfold esp_spi_transaction
      simp [hh, hv, hr, hdq]
    have hone : transfer_count
        { s with events := s.events
            ++ [Event.spi_sync_transfer (List.replicate cfg.SPI_BUF_SIZE 0) cfg.SPI_BUF_SIZE] }
        = transfer_count s + 1 := by
      simp [transfer_count, List.filter_append]
    rw [hstep]
    by_cases hx : hw.xfer_ret ≠ 0
    · rw [if_pos hx]
      exact ⟨⟨[], rfl⟩, hone⟩
    · rw [if_neg hx]
      constructor
      · rcases process_rx_buf_events cfg
          { s with events := s.events
              ++ [Event.spi_sync_transfer (List.replicate cfg.SPI_BUF_SIZE 0)
                    cfg.SPI_BUF_SIZE] }
          (some { data := (hw.xfer_rx ++ List.replicate cfg.SPI_BUF_SIZE 0).take
                            cfg.SPI_BUF_SIZE }) with h | h
        · exact ⟨[], h⟩
        · refine ⟨[Event.new_packet_intr], ?_⟩
          rw [h]
          simp
      · rw [process_rx_buf_transfer_count, hone]
  · intro hr
    have hstep : esp_spi_transaction cfg s hw = s := by
      unfold esp_spi_transaction
      simp [hh, hv, hr, hdq]
    rw [hstep]
    exact ⟨rfl, rfl⟩

/-- Witness of C26 (amended): the open, empty link with the peer-has-data line high makes
one transfer. -/
theorem idle_cycle_transfers_when_data_ready_witness :
    transfer_count (esp_spi_transaction sample_cfg open_state { sample_hw with dataready := true })
      = transfer_count open_state + 1 :=
  ((idle_cycle_transfers_when_data_ready sample_cfg open_state
    { sample_hw with dataready := true } (by decide) (by decide) (by decide)).1
    (by decide)).2

/-- C27: when `spi_sync_transfer` reports failure, `esp_spi_transaction` does nothing
beyond the transmit dequeue and the transfer itself: the state is the one after the
dequeue with the transfer appended to the log. So the receive queues, `device_state` and
the number of new-packet signals are as before the call, and the transmit queues are the
ones left by the dequeue: the frame taken for the cycle is in none of them. This holds
for both variants (in the work-queue variant no further work is queued either). -/
theorem failed_transfer_ends_cycle (cfg : Config) (s : SpiState) (hw : SpiHw)
    (hh : hw.handshake = true) (hx : hw.xfer_ret ≠ 0)
    (ht : transfer_count (esp_spi_transaction cfg s hw) ≠ transfer_count s) :
    (∃ tx_buf, esp_spi_transaction cfg s hw
      = { (esp_spi_transaction_dequeue cfg s).2 with
          events := (esp_spi_transaction_dequeue cfg s).2.events
            ++ [Event.spi_sync_transfer tx_buf cfg.SPI_BUF_SIZE] }) ∧
    (esp_spi_transaction cfg s hw).rx_q = s.rx_q ∧
    (esp_spi_transaction cfg s hw).events.count Event.new_packet_intr
      = s.events.count Event.new_packet_intr ∧
    (esp_spi_transaction cfg s hw).events.count Event.queue_work
      = s.events.count Event.queue_work ∧
    (esp_spi_transaction cfg s hw).device_state = s.device_state ∧
    (esp_spi_transaction cfg s hw).tx_q = (esp_spi_transaction_dequeue cfg s).2.tx_q ∧
    (s.data_path = true → (esp_spi_transaction cfg s hw).tx_q = s.tx_q.dequeue.2) := by
  have hrx : (esp_spi_transaction_dequeue cfg s).2.rx_q = s.rx_q := by
    unfold esp_spi_transaction_dequeue
    by_cases hd : s.data_path = true
    · simp only [hd, if_true]
      split_ifs <;> rfl
    · rw [if_neg hd]
  have hev : (esp_spi_transaction_dequeue cfg s).2.events = s.events ∨
      (esp_spi_transaction_dequeue cfg s).2.events = s.events ++ [Event.tx_resume] := by
    unfold esp_spi_transaction_dequeue
    by_cases hd : s.data_path = true
    · simp only [hd, if_true]
      split_ifs
      · exact Or.inr rfl
      · exact Or.inl rfl
      · exact Or.inl rfl
    · rw [if_neg hd]
      exact Or.inl rfl
  have hcases : esp_spi_transaction cfg s hw = (esp_spi_transaction_dequeue cfg s).2 ∨
      ∃ tx_buf, esp_spi_transaction cfg s hw
        = { (esp_spi_transaction_dequeue cfg s).2 with
            events := (esp_spi_transaction_dequeue cfg s).2.events
              ++ [Event.spi_sync_transfer tx_buf cfg.SPI_BUF_SIZE] } := by
    unfold esp_spi_transaction
    simp only [hh, Bool.not_true, Bool.false_eq_true, if_false, hx, ne_eq, not_false_eq_true,
      if_true]
    split_ifs <;> first | exact Or.inl rfl | exact Or.inr ⟨_, rfl⟩
  have hnone : esp_spi_transaction cfg s hw ≠ (esp_spi_transaction_dequeue cfg s).2 := by
    intro heq
    apply ht
    rw [heq]
    unfold transfer_count
    rcases hev with h | h
    · rw [h]
    · rw [h]
      simp [List.filter_append]
  rcases hcases with h | ⟨tx_buf, h⟩
  · exact absurd h hnone
  · refine ⟨⟨tx_buf, h⟩, ?_, ?_, ?_, ?_, ?_, ?_⟩
    · rw [h]
      exact hrx
    · rw [h]
      rcases hev with h2 | h2
      · simp [h2, List.count_append]
      · simp [h2, List.count_append]
    · rw [h]
      rcases hev with h2 | h2
      · simp [h2, List.count_append]
      · simp [h2, List.count_append]
    · exact esp_spi_transaction_device_state cfg s hw
    · rw [h]
    · intro hd
      rw [h]
      exact (esp_spi_transaction_dequeue_open cfg s hd).2.1

/-- Witness of C27: the running link `busy_state` in a cycle whose transfer fails with -5:
the Serial frame taken for the cycle is gone from the transmit queues and the receive
queues are as before. -/
theorem failed_transfer_ends_cycle_witness :
    (esp_spi_transaction sample_cfg busy_state { sample_hw with xfer_ret := -5 }).rx_q
      = busy_state.rx_q ∧
    (esp_spi_transaction sample_cfg busy_state { sample_hw with xfer_ret := -5 }).tx_q
      = busy_state.tx_q.dequeue.2 :=
  ⟨(failed_transfer_ends_cycle sample_cfg busy_state { sample_hw with xfer_ret := -5 }
      (by decide) (by decide) (by decide)).2.1,
   (failed_transfer_ends_cycle sample_cfg busy_state { sample_hw with xfer_ret := -5 }
      (by decide) (by decide) (by decide)).2.2.2.2.2.2 (by decide)⟩

/-! ## Validation in `esp_hci_rx` -/

theorem skb_pull_le (skb : SkBuff) (n : Nat) (h : n ≤ skb.len) :
    skb_pull skb n = { data := skb.data.drop n } ∧ (skb_pull skb n).len = skb.len - n := by
  unfold skb_pull
  have hn : ¬ n > skb.len := by omega
  rw [if_neg hn]
  exact ⟨rfl, by simp [SkBuff.len]⟩

theorem byte_at_drop (buf : List Byte) (n i : Nat) :
    byte_at (buf.drop n) i = byte_at buf (n + i) := by
  unfold byte_at
  simp [List.getD_eq_getElem?_getD, List.getElem?_drop]

theorem esp_hci_rx_accept_iff (skb : SkBuff) (rx_ready hcidev : Bool)
    (hn : skb.len < U32_MOD) :
    (esp_hci_rx rx_ready hcidev (some skb)).isSome = true ↔
      rx_ready = true ∧ hcidev = true ∧
      1 ≤ hdr_offset skb.data ∧ 1 ≤ hdr_len skb.data ∧
      hdr_offset skb.data + hdr_len skb.data ≤ skb.len ∧
      2 ≤ skb.len - hdr_offset skb.data := by
  have ho : hdr_offset skb.data < 65536 := by
    have h1 := byte_at_lt skb.data 4
    have h2 := byte_at_lt skb.data (4 + 1)
    unfold hdr_offset le16_at
    omega
  unfold esp_hci_rx
  simp only
  by_cases h0 : skb.len = 0
  · simp only [h0, if_true]
    constructor
    · intro h
      cases h
    · rintro ⟨_, _, _, _, _, h⟩
      omega
  · rw [if_neg h0]
    cases rx_ready with
    | false => simp
    | true =>
      cases hcidev with
      | false => simp
      | true =>
        simp only [Bool.not_true, Bool.false_eq_true, if_false, true_and]
        by_cases hlt : skb.len < hdr_offset skb.data + 1
        · -- the buffer does not reach beyond `offset`: dropped by the first or second check
          have hrhs : ¬ (1 ≤ hdr_offset skb.data ∧ 1 ≤ hdr_len skb.data ∧
              hdr_offset skb.data + hdr_len skb.data ≤ skb.len ∧
              2 ≤ skb.len - hdr_offset skb.data) := by
            rintro ⟨_, _, _, h⟩
            omega
          simp only [hlt, if_true, ite_self, hrhs, iff_false]
          simp
        · rw [if_neg hlt]
          have hle : hdr_offset skb.data ≤ skb.len := by omega
          have hsub : (skb.len + U32_MOD - hdr_offset skb.data) % U32_MOD
              = skb.len - hdr_offset skb.data := by
            have : skb.len + U32_MOD - hdr_offset skb.data
                = (skb.len - hdr_offset skb.data) + U32_MOD := by omega
            rw [this, Nat.add_mod_right]
            exact Nat.mod_eq_of_lt (by omega)
          rw [hsub, (skb_pull_le skb _ hle).2]
          by_cases hc : hdr_offset skb.data = 0 ∨ hdr_len skb.data = 0
              ∨ hdr_len skb.data > skb.len - hdr_offset skb.data
          · rw [if_pos hc]
            constructor
            · intro h
              cases h
            · rintro ⟨h1, h2, h3, _⟩
              rcases hc with hc | hc | hc <;> omega
          · rw [if_neg hc]
            by_cases h1 : skb.len - hdr_offset skb.data ≤ 1
            · rw [if_pos h1]
              constructor
              · intro h
                cases h
              · rintro ⟨_, _, _, h⟩
                omega
            · rw [if_neg h1]
              constructor
              · intro _
                refine ⟨?_, ?_, ?_, ?_⟩ <;> omega
              · intro _
                rfl

theorem esp_hci_rx_accepted (skb : SkBuff) (rx_ready hcidev : Bool) (res : Nat × SkBuff)
    (h : esp_hci_rx rx_ready hcidev (some skb) = some res) :
    1 ≤ hdr_offset skb.data ∧ 1 ≤ hdr_len skb.data ∧
    hdr_offset skb.data + hdr_len skb.data ≤ skb.len ∧
    2 ≤ skb.len - hdr_offset skb.data ∧
    res.1 = byte_at skb.data (hdr_offset skb.data) ∧
    res.2 = { data := skb.data.drop (hdr_offset skb.data + 1) } := by
  unfold esp_hci_rx at h
  simp only at h
  split_ifs at h with h0 h1 h2 hc hlt hs
  have hle : hdr_offset skb.data ≤ skb.len := by omega
  have hp := skb_pull_le skb _ hle
  have hmod : (skb.len + U32_MOD - hdr_offset skb.data) % U32_MOD
      ≤ skb.len - hdr_offset skb.data := by
    have : skb.len + U32_MOD - hdr_offset skb.data
        = (skb.len - hdr_offset skb.data) + U32_MOD := by omega
    rw [this, Nat.add_mod_right]
    exact Nat.mod_le _ _
  rw [hp.2] at hs
  have h1p : 1 ≤ (skb_pull skb (hdr_offset skb.data)).len := by
    rw [hp.2]
    omega
  have hp1 := (skb_pull_le (skb_pull skb (hdr_offset skb.data)) 1 h1p).1
  simp only [Option.some.injEq] at h
  subst h
  refine ⟨by omega, by omega, by omega, by omega, ?_, ?_⟩
  · simp only [hp.1, byte_at_drop]
    rfl
  · rw [hp1, hp.1]
    simp [List.drop_drop, Nat.add_comm]

/-- C28: for every received buffer of length n < 2^32, whose header holds the 16-bit
values `offset` and `len`: whenever `esp_hci_rx` hands the frame to `hci_recv_frame`, then
`offset` ≥ 1, `len` ≥ 1, `offset + len` ≤ n and n - `offset` ≥ 2, so both `skb_pull`
calls stay inside the buffer; the packet type is the octet at index `offset` and the buffer
delivered holds the octets from index `offset + 1` to the end. With the adapter ready and
an HCI device present these four conditions are also sufficient. A buffer with `offset` >
n, for which `skb->len - offset` wraps, is dropped. -/
theorem esp_hci_rx_validates (skb : SkBuff) (rx_ready hcidev : Bool)
    (hn : skb.len < U32_MOD) :
    (∀ res, esp_hci_rx rx_ready hcidev (some skb) = some res →
      1 ≤ hdr_offset skb.data ∧ 1 ≤ hdr_len skb.data ∧
      hdr_offset skb.data + hdr_len skb.data ≤ skb.len ∧
      2 ≤ skb.len - hdr_offset skb.data ∧
      (skb_pull skb (hdr_offset skb.data)).data = skb.data.drop (hdr_offset skb.data) ∧
      res.1 = byte_at skb.data (hdr_offset skb.data) ∧
      res.2.data = skb.data.drop (hdr_offset skb.data + 1) ∧
      res.2.len = skb.len - (hdr_offset skb.data + 1)) ∧
    ((esp_hci_rx rx_ready hcidev (some skb)).isSome = true ↔
      rx_ready = true ∧ hcidev = true ∧
      1 ≤ hdr_offset skb.data ∧ 1 ≤ hdr_len skb.data ∧
      hdr_offset skb.data + hdr_len skb.data ≤ skb.len ∧
      2 ≤ skb.len - hdr_offset skb.data) ∧
    (skb.len < hdr_offset skb.data → esp_hci_rx rx_ready hcidev (some skb) = none) := by
  refine ⟨?_, esp_hci_rx_accept_iff skb rx_ready hcidev hn, ?_⟩
  · intro res h
    obtain ⟨h1, h2, h3, h4, h5, h6⟩ := esp_hci_rx_accepted skb rx_ready hcidev res h
    refine ⟨h1, h2, h3, h4, ?_, h5, ?_, ?_⟩
    · rw [(skb_pull_le skb _ (by omega)).1]
    · rw [h6]
    · rw [h6]
      simp [SkBuff.len]
  · intro hlt
    cases hres : esp_hci_rx rx_ready hcidev (some skb) with
    | none => rfl
    | some res =>
      obtain ⟨_, _, h3, _⟩ := esp_hci_rx_accepted skb rx_ready hcidev res hres
      omega

/-- Witness of C28: a buffer of 15 octets with `offset` 12 and `len` 3: packet type 4, two
octets delivered. -/
theorem esp_hci_rx_validates_witness :
    esp_hci_rx true true (some { data := [3, 0, 3, 0, 12, 0, 0, 0, 0, 0, 0, 0, 4, 0x0E, 0] })
      = some (4, { data := [0x0E, 0] }) ∧
    1 ≤ hdr_offset [3, 0, 3, 0, 12, 0, 0, 0, 0, 0, 0, 0, 4, 0x0E, 0] ∧
    1 ≤ hdr_len [3, 0, 3, 0, 12, 0, 0, 0, 0, 0, 0, 0, 4, 0x0E, 0] :=
  ⟨by decide,
   ((esp_hci_rx_validates { data := [3, 0, 3, 0, 12, 0, 0, 0, 0, 0, 0, 0, 4, 0x0E, 0] }
      true true (by decide)).1 (4, { data := [0x0E, 0] }) (by decide)).1,
   ((esp_hci_rx_validates { data := [3, 0, 3, 0, 12, 0, 0, 0, 0, 0, 0, 0, 4, 0x0E, 0] }
      true true (by decide)).1 (4, { data := [0x0E, 0] }) (by decide)).2.1⟩

/-! ## Return values of `write_packet` -/

theorem write_packet_rejected (cfg : Config) (s : SpiState) (skb : SkBuff)
    (h : (write_packet cfg s (some skb)).1 ≠ 0) :
    (write_packet cfg s (some skb)).2 = s := by
  have hiff := write_packet_accept_iff cfg s skb
  unfold write_packet
  by_cases h0 : skb.len = 0
  · simp [h0]
  · by_cases h1 : skb.len > cfg.SPI_BUF_SIZE
    · simp [h0, h1]
    · by_cases h2 : s.data_path = true
      · exact absurd (hiff.2 ⟨h0, by omega, h2⟩) h
      · simp [h0, h1, h2]

theorem write_packet_return (cfg : Config) (s : SpiState) (skb : SkBuff) :
    (skb.len = 0 → (write_packet cfg s (some skb)).1 = -EINVAL) ∧
    (skb.len ≠ 0 → (skb.len > cfg.SPI_BUF_SIZE ∨ s.data_path = false) →
      (write_packet cfg s (some skb)).1 = -EPERM) := by
  unfold write_packet
  constructor
  · intro h0
    simp [h0]
  · intro h0 h
    by_cases h1 : skb.len > cfg.SPI_BUF_SIZE
    · simp [h0, h1]
    · rcases h with h | h
      · exact absurd h h1
      · simp [h0, h1, h]

/-- C29: `write_packet` returns 0 if and only if the frame has a non-zero length, its
length is at most `SPI_BUF_SIZE` and the data path is open; it returns `-EINVAL` for a
frame of length 0 and `-EPERM` for a longer frame that exceeds `SPI_BUF_SIZE` or meets a
closed data path. Whenever the return value is not 0 the whole state is as before the
call: the six queues, `tx_pending` and the call log (no `esp_tx_pause`, no
`up(&spi_sem)`). An accepted Other-class frame that brings the counter to
`TX_MAX_PENDING_COUNT` or above is appended to the Other queue, `esp_tx_pause` is called
and 0 is returned all the same. -/
theorem write_packet_return_values (cfg : Config) (s : SpiState) (skb : SkBuff) :
    ((write_packet cfg s (some skb)).1 = 0 ↔
      skb.len ≠ 0 ∧ skb.len ≤ cfg.SPI_BUF_SIZE ∧ s.data_path = true) ∧
    (skb.len = 0 → (write_packet cfg s (some skb)).1 = -EINVAL) ∧
    (skb.len ≠ 0 → (skb.len > cfg.SPI_BUF_SIZE ∨ s.data_path = false) →
      (write_packet cfg s (some skb)).1 = -EPERM) ∧
    ((write_packet cfg s (some skb)).1 ≠ 0 →
      (write_packet cfg s (some skb)).2 = s ∧
      (write_packet cfg s (some skb)).2.tx_q = s.tx_q ∧
      (write_packet cfg s (some skb)).2.rx_q = s.rx_q ∧
      (write_packet cfg s (some skb)).2.tx_pending = s.tx_pending ∧
      (write_packet cfg s (some skb)).2.events = s.events) ∧
    (skb.len ≠ 0 → skb.len ≤ cfg.SPI_BUF_SIZE → s.data_path = true →
      hdr_if_type skb.data ≠ ESP_SERIAL_IF → hdr_if_type skb.data ≠ ESP_HCI_IF →
      s.tx_pending + 1 ≥ (cfg.TX_MAX_PENDING_COUNT : Int) →
      (write_packet cfg s (some skb)).1 = 0 ∧
      (write_packet cfg s (some skb)).2.tx_q.others = s.tx_q.others ++ [tx_frame s skb] ∧
      (write_packet cfg s (some skb)).2.tx_pending = s.tx_pending + 1 ∧
      (write_packet cfg s (some skb)).2.events
        = s.events ++ [Event.tx_pause, Event.sem_up]) := by
  refine ⟨write_packet_accept_iff cfg s skb, (write_packet_return cfg s skb).1,
    (write_packet_return cfg s skb).2, ?_, ?_⟩
  · intro h
    rw [write_packet_rejected cfg s skb h]
    exact ⟨rfl, rfl, rfl, rfl, rfl⟩
  · intro h0 h1 hd hs hb hp
    have hacc : (write_packet cfg s (some skb)).1 = 0 :=
      (write_packet_accept_iff cfg s skb).2 ⟨h0, h1, hd⟩
    obtain ⟨k1, k2⟩ := (write_packet_counter cfg s skb hacc).1 ⟨hs, hb⟩
    have hq := (write_packet_queues cfg s skb hacc).1
    refine ⟨hacc, ?_, k1, ?_⟩
    · rw [hq]
      unfold PrioQueues.enqueue prio_of_if_type skb_queue_tail
      simp [hs, hb, PRIO_Q_OTHERS, PRIO_Q_SERIAL, PRIO_Q_BT]
    · rw [k2, if_pos hp]
      simp

/-- Witness of C29: an Other-class frame written to a link whose counter stands at 99 with
`TX_MAX_PENDING_COUNT` 100 is queued, pauses the transmitter and returns 0. -/
theorem write_packet_return_values_witness :
    (write_packet sample_cfg { open_state with tx_pending := 99 }
        (some { data := sample_sta_frame })).1 = 0 ∧
    (write_packet sample_cfg { open_state with tx_pending := 99 }
        (some { data := sample_sta_frame })).2.tx_q.others
      = ({ open_state with tx_pending := 99 } : SpiState).tx_q.others
        ++ [tx_frame { open_state with tx_pending := 99 } { data := sample_sta_frame }] ∧
    (write_packet sample_cfg { open_state with tx_pending := 99 }
        (some { data := sample_sta_frame })).2.tx_pending
      = ({ open_state with tx_pending := 99 } : SpiState).tx_pending + 1 ∧
    (write_packet sample_cfg { open_state with tx_pending := 99 }
        (some { data := sample_sta_frame })).2.events
      = ({ open_state with tx_pending := 99 } : SpiState).events
        ++ [Event.tx_pause, Event.sem_up] :=
  (write_packet_return_values sample_cfg { open_state with tx_pending := 99 }
    { data := sample_sta_frame }).2.2.2.2
    (by decide) (by decide) (by decide) (by decide) (by decide) (by decide)

/-! ## Bounds of the pending counter -/

theorem esp_spi_transaction_dequeue_pending (cfg : Config) (s : SpiState) :
    (esp_spi_transaction_dequeue cfg s).2.tx_pending = s.tx_pending ∨
    (s.tx_pending ≠ 0 ∧ (esp_spi_transaction_dequeue cfg s).2.tx_pending = s.tx_pending - 1) := by
  unfold esp_spi_transaction_dequeue
  by_cases hd : s.data_path = true
  · simp only [hd, if_true]
    by_cases hc : (s.tx_q.dequeue.1.isSome && decide (s.tx_pending ≠ 0)) = true
    · rw [if_pos hc]
      right
      simp only [Bool.and_eq_true, decide_eq_true_eq] at hc
      exact ⟨hc.2, rfl⟩
    · rw [if_neg hc]
      exact Or.inl rfl
  · rw [if_neg hd]
    exact Or.inl rfl

theorem esp_spi_transaction_pending (cfg : Config) (s : SpiState) (hw : SpiHw) :
    (esp_spi_transaction cfg s hw).tx_pending = s.tx_pending ∨
    (s.tx_pending ≠ 0 ∧ (esp_spi_transaction cfg s hw).tx_pending = s.tx_pending - 1) := by
  by_cases hh : hw.handshake = true
  · rw [(esp_spi_transaction_counter cfg s hw hh).1]
    exact esp_spi_transaction_dequeue_pending cfg s
  · left
    have hf : hw.handshake = false := by simpa using hh
    unfold esp_spi_transaction
    simp only [hf, Bool.not_false, if_true]
    split_ifs <;> rfl

theorem tx_op_pending (cfg : Config) (s : SpiState) (op : TxOp) (h0 : 0 ≤ s.tx_pending) :
    0 ≤ (tx_op cfg s op).tx_pending ∧
    (tx_op cfg s op).tx_pending
      ≤ s.tx_pending + ((if accepted_other cfg s op then 1 else 0 : Nat) : Int) := by
  cases op with
  | write skb =>
    simp only [tx_op, accepted_other]
    by_cases hacc : (write_packet cfg s (some skb)).1 = 0
    · by_cases hcls : hdr_if_type skb.data ≠ ESP_SERIAL_IF ∧ hdr_if_type skb.data ≠ ESP_HCI_IF
      · have k := ((write_packet_counter cfg s skb hacc).1 hcls).1
        have hdec : decide ((write_packet cfg s (some skb)).1 = 0
            ∧ hdr_if_type skb.data ≠ ESP_SERIAL_IF ∧ hdr_if_type skb.data ≠ ESP_HCI_IF)
            = true := by
          simp only [decide_eq_true_eq]
          exact ⟨hacc, hcls⟩
        rw [k, if_pos hdec]
        constructor <;> (push_cast; omega)
      · have hcls2 : hdr_if_type skb.data = ESP_SERIAL_IF ∨ hdr_if_type skb.data = ESP_HCI_IF := by
          by_contra hne
          apply hcls
          constructor
          · intro h
            exact hne (Or.inl h)
          · intro h
            exact hne (Or.inr h)
        have k := ((write_packet_counter cfg s skb hacc).2 hcls2).1
        rw [k]
        constructor
        · exact h0
        · have : (0 : Int) ≤ ((if decide ((write_packet cfg s (some skb)).1 = 0
              ∧ hdr_if_type skb.data ≠ ESP_SERIAL_IF ∧ hdr_if_type skb.data ≠ ESP_HCI_IF)
              = true then 1 else 0 : Nat) : Int) := Int.ofNat_nonneg _
          omega
    · rw [write_packet_rejected cfg s skb hacc]
      constructor
      · exact h0
      · have : (0 : Int) ≤ ((if decide ((write_packet cfg s (some skb)).1 = 0
            ∧ hdr_if_type skb.data ≠ ESP_SERIAL_IF ∧ hdr_if_type skb.data ≠ ESP_HCI_IF)
            = true then 1 else 0 : Nat) : Int) := Int.ofNat_nonneg _
        omega
  | transaction hw =>
    simp only [tx_op, accepted_other, Bool.false_eq_true, if_false, Nat.cast_zero, add_zero]
    rcases esp_spi_transaction_pending cfg s hw with h | ⟨hne, h⟩
    · rw [h]
      exact ⟨h0, le_refl _⟩
    · rw [h]
      omega

theorem tx_ops_pending (cfg : Config) :
    ∀ (ops : List TxOp) (s : SpiState), 0 ≤ s.tx_pending →
      0 ≤ (tx_ops cfg s ops).tx_pending ∧
      (tx_ops cfg s ops).tx_pending ≤ s.tx_pending + (accepted_others cfg s ops : Int) := by
  intro ops
  induction ops with
  | nil =>
    intro s h0
    simp [tx_ops, accepted_others, h0]
  | cons op ops ih =>
    intro s h0
    obtain ⟨k1, k2⟩ := tx_op_pending cfg s op h0
    obtain ⟨j1, j2⟩ := ih (tx_op cfg s op) k1
    simp only [tx_ops, accepted_others, Nat.cast_add]
    exact ⟨j1, by omega⟩

/-- C30: in every state reached from `open_data_path` (which sets the counter to 0 and
opens the data path) by any sequence of `write_packet` calls, of frames of any class and
length, and `esp_spi_transaction` calls, with any hardware inputs, `tx_pending` is at
least 0 and at most the number of `write_packet` calls in the sequence that returned 0
for an Other-class frame. -/
theorem tx_pending_never_negative (cfg : Config) (s : SpiState) (ops : List TxOp) :
    (open_data_path s).tx_pending = 0 ∧
    (open_data_path s).data_path = true ∧
    0 ≤ (tx_ops cfg (open_data_path s) ops).tx_pending ∧
    (tx_ops cfg (open_data_path s) ops).tx_pending
      ≤ (accepted_others cfg (open_data_path s) ops : Int) := by
  obtain ⟨k1, k2⟩ := tx_ops_pending cfg ops (open_data_path s) (le_of_eq rfl)
  refine ⟨rfl, rfl, k1, ?_⟩
  have h0 : (open_data_path s).tx_pending = 0 := rfl
  rw [h0] at k2
  omega

/-! ## The receive path and the checksum field -/

theorem process_rx_buf_rejected (cfg : Config) (s : SpiState) (skb : SkBuff)
    (h : (process_rx_buf cfg s (some skb)).1 ≠ 0) :
    (process_rx_buf cfg s (some skb)).2 = s := by
  have hiff := process_rx_buf_accept_iff cfg s skb
  unfold process_rx_buf
  by_cases h1 : hdr_if_type skb.data ≥ ESP_MAX_IF
  · simp [h1]
  · by_cases h2 : hdr_len skb.data = 0
    · simp [h1, h2]
    · by_cases h3 : hdr_offset skb.data = HEADER_SIZE
      · by_cases h4 : (hdr_len skb.data + HEADER_SIZE) % U16_MOD > cfg.SPI_BUF_SIZE
        · simp [h1, h2, h3, h4]
        · by_cases h5 : s.data_path = true
          · exact absurd (hiff.2 ⟨by omega, h2, h3, by omega, h5⟩) h
          · simp [h1, h2, h3, h4, h5]
      · simp [h1, h2, h3]

theorem process_rx_buf_return_congr (cfg : Config) (s t : SpiState) (a b : SkBuff)
    (hd : t.data_path = s.data_path)
    (h0 : hdr_if_type b.data = hdr_if_type a.data)
    (h1 : hdr_len b.data = hdr_len a.data)
    (h2 : hdr_offset b.data = hdr_offset a.data) :
    (process_rx_buf cfg t (some b)).1 = (process_rx_buf cfg s (some a)).1 := by
  unfold process_rx_buf
  simp only [h0, h1, h2, hd]
  split_ifs <;> rfl

/-- C5, amended: `process_rx_buf` makes no checksum test. It returns 0 exactly when
`if_type < ESP_MAX_IF`, `len` is not 0, `offset` is the header size, the `u16` sum of `len`
and the header size is at most `SPI_BUF_SIZE` and the data path is open; then the frame,
trimmed to that `u16` sum, is appended to the receive queue of its class and the new-packet
hook is signalled once, and on any other return value the state is unchanged. None of this
depends on the checksum field or on the capabilities: the same buffer with any value `c`
in the checksum field, received under any capabilities `caps`, gets the same return value
and, when that is 0, is queued in the same queue with the same trim length and the same
signal. -/
theorem process_rx_buf_ignores_checksum (cfg : Config) (s : SpiState) (skb : SkBuff)
    (c caps : Nat) :
    ((process_rx_buf cfg s (some skb)).1 = 0 ↔
      hdr_if_type skb.data < ESP_MAX_IF ∧ hdr_len skb.data ≠ 0 ∧
      hdr_offset skb.data = HEADER_SIZE ∧
      (hdr_len skb.data + HEADER_SIZE) % U16_MOD ≤ cfg.SPI_BUF_SIZE ∧
      s.data_path = true) ∧
    ((process_rx_buf cfg s (some skb)).1 = 0 →
      (process_rx_buf cfg s (some skb)).2
        = { s with
            rx_q := s.rx_q.enqueue (prio_of_if_type (hdr_if_type skb.data))
              (skb_trim skb ((hdr_len skb.data + HEADER_SIZE) % U16_MOD))
            events := s.events ++ [Event.new_packet_intr] }) ∧
    ((process_rx_buf cfg s (some skb)).1 ≠ 0 → (process_rx_buf cfg s (some skb)).2 = s) ∧
    (process_rx_buf cfg { s with capabilities := caps }
        (some { skb with data := set_hdr_checksum skb.data c })).1
      = (process_rx_buf cfg s (some skb)).1 ∧
    ((process_rx_buf cfg s (some skb)).1 = 0 →
      (process_rx_buf cfg { s with capabilities := caps }
          (some { skb with data := set_hdr_checksum skb.data c })).2
        = { s with
            capabilities := caps
            rx_q := s.rx_q.enqueue (prio_of_if_type (hdr_if_type skb.data))
              (skb_trim { skb with data := set_hdr_checksum skb.data c }
                ((hdr_len skb.data + HEADER_SIZE) % U16_MOD))
            events := s.events ++ [Event.new_packet_intr] }) := by
  have hb : ∀ i, i ≠ 6 → i ≠ 7 →
      byte_at (set_hdr_checksum skb.data c) i = byte_at skb.data i :=
    fun i h6 h7 => byte_at_set_le16 skb.data 6 c i h6 h7
  have e0 : hdr_if_type (set_hdr_checksum skb.data c) = hdr_if_type skb.data := by
    simp only [hdr_if_type]
    rw [hb 0 (by decide) (by decide)]
  have e1 : hdr_len (set_hdr_checksum skb.data c) = hdr_len skb.data := by
    simp only [hdr_len, le16_at]
    rw [hb 2 (by decide) (by decide), hb 3 (by decide) (by decide)]
  have e2 : hdr_offset (set_hdr_checksum skb.data c) = hdr_offset skb.data := by
    simp only [hdr_offset, le16_at]
    rw [hb 4 (by decide) (by decide), hb 5 (by decide) (by decide)]
  have hret : (process_rx_buf cfg { s with capabilities := caps }
        (some { skb with data := set_hdr_checksum skb.data c })).1
      = (process_rx_buf cfg s (some skb)).1 :=
    process_rx_buf_return_congr cfg s { s with capabilities := caps } skb
      { skb with data := set_hdr_checksum skb.data c } rfl e0 e1 e2
  refine ⟨process_rx_buf_accept_iff cfg s skb, ?_, process_rx_buf_rejected cfg s skb, hret, ?_⟩
  · intro hacc
    rw [process_rx_buf_accepted_state cfg s skb hacc]
  · intro hacc
    have hacc2 : (process_rx_buf cfg { s with capabilities := caps }
        (some { skb with data := set_hdr_checksum skb.data c })).1 = 0 := by
      rw [hret]
      exact hacc
    rw [process_rx_buf_accepted_state cfg _ _ hacc2]
    simp only [e0, e1]

/-- Witness of C5 (amended): the buffer of the counterexample, received with the checksum
capability set, with its checksum field overwritten by 0xFFFF: it is queued in the Other
receive queue all the same. -/
theorem process_rx_buf_ignores_checksum_witness :
    (process_rx_buf sample_cfg { open_state with capabilities := 128 }
        (some { rx_buffer [0, 0, 1, 0, 12, 0, 0x34, 0x12, 0, 0, 0, 0, 0xAA] with
                data := set_hdr_checksum
                  (rx_buffer [0, 0, 1, 0, 12, 0, 0x34, 0x12, 0, 0, 0, 0, 0xAA]).data 0xFFFF })).2
      = { open_state with
          capabilities := 128
          rx_q := open_state.rx_q.enqueue
            (prio_of_if_type
              (hdr_if_type (rx_buffer [0, 0, 1, 0, 12, 0, 0x34, 0x12, 0, 0, 0, 0, 0xAA]).data))
            (skb_trim
              { rx_buffer [0, 0, 1, 0, 12, 0, 0x34, 0x12, 0, 0, 0, 0, 0xAA] with
                data := set_hdr_checksum
                  (rx_buffer [0, 0, 1, 0, 12, 0, 0x34, 0x12, 0, 0, 0, 0, 0xAA]).data 0xFFFF }
              ((hdr_len (rx_buffer [0, 0, 1, 0, 12, 0, 0x34, 0x12, 0, 0, 0, 0, 0xAA]).data
                + HEADER_SIZE) % U16_MOD))
          events := open_state.events ++ [Event.new_packet_intr] } :=
  (process_rx_buf_ignores_checksum sample_cfg open_state
    (rx_buffer [0, 0, 1, 0, 12, 0, 0x34, 0x12, 0, 0, 0, 0, 0xAA]) 0xFFFF 128).2.2.2.2
    (by decide)

end EspHosted
